import Mathlib

/-! IPC-Simulator front end: event routing and playback

A shallow embedding of the routing and buffering code of the browser front end
(`websocket.js`, `popup.js`, `visualization.js`, `visualization_engine.js`)
together with the properties of the specification that concern it.

Conventions of the embedding.

* A JavaScript `Map` is an association list in insertion order (`JsMap`).
* A callback is an opaque function object, identified by a number.  The router
  never looks inside a callback; the only way a callback influences the control
  flow of the router is by raising, so every dispatching function takes an
  oracle `raises` telling whether the invocation of a callback on a message
  ends with an exception.  Callbacks are taken not to re-enter the router,
  except in `handleMessageUnregistering`, where they unregister popups.
* A function whose source contains no failing operation is a total function; a
  function that can end with an exception reports it in its result.
* Time is rational, in milliseconds. Timers and the clock are part of the state;
  what the browser does (an event arrives, a click, a timeout fires) is an
  action on that state.
* The drawing itself (DOM and SVG calls) is left out, except where a lookup can
  raise before a field is written: there the outcome of `querySelector` is an
  input (`Visualization.Dom`).
-/

set_option autoImplicit false

/-! ## JavaScript `Map` -/

/-- A JavaScript `Map`: keys with their values, in insertion order. -/
abbrev JsMap (κ ν : Type) := List (κ × ν)

namespace JsMap

variable {κ ν : Type} [DecidableEq κ]

/-- `Map.prototype.has`. -/
def has : JsMap κ ν → κ → Bool
  | [], _ => false
  | (k', _) :: rest, k => if k' = k then true else has rest k

/-- `Map.prototype.get`, with `none` for `undefined`. -/
def get : JsMap κ ν → κ → Option ν
  | [], _ => none
  | (k', v) :: rest, k => if k' = k then some v else get rest k

/-- `Map.prototype.set`: an existing key keeps its place, a new key goes last. -/
def set : JsMap κ ν → κ → ν → JsMap κ ν
  | [], k, v => [(k, v)]
  | (k', v') :: rest, k, v => if k' = k then (k, v) :: rest else (k', v') :: set rest k v

/-- `Map.prototype.delete`. -/
def delete : JsMap κ ν → κ → JsMap κ ν
  | [], _ => []
  | (k', v') :: rest, k => if k' = k then delete rest k else (k', v') :: delete rest k

end JsMap

/-! ## `websocket.js`: the connection router -/

/-- A popup identifier (`popup-1`, `popup-2`, ...). -/
abbrev PopupId := String

/-- The `type` tag of a message, also the name of a global listener list. -/
abbrev EventType := String

/-- A callback, identified as a function object. -/
abbrev Callback := Nat

/-- An inbound message after `JSON.parse`: the two fields the router reads and
the rest of the object. `popupId` is `none` when the field is missing. -/
structure Message where
  type : EventType
  popupId : Option PopupId
  body : String
deriving DecidableEq, Repr

/-- JavaScript truthiness of the `popupId` field: a missing field and the empty
string are falsy. -/
def truthyId : Option PopupId → Bool
  | none => false
  | some s => decide (s ≠ "")

/-- The property names every plain object inherits from `Object.prototype`.
`this.listeners` is a plain object (`{}`), so `this.listeners[name]` is a truthy
non-array value for each of them. -/
def objectPrototypeKeys : List String :=
  ["constructor", "__defineGetter__", "__defineSetter__", "hasOwnProperty",
   "__lookupGetter__", "__lookupSetter__", "isPrototypeOf", "propertyIsEnumerable",
   "toString", "valueOf", "__proto__", "toLocaleString"]

/-- The value of `this.listeners[event]`. -/
inductive Slot where
  | array (cbs : List Callback)
  | inherited
  | undefined
deriving DecidableEq, Repr

/-- A browser `WebSocket` as the manager sees it: its `readyState`
(0 connecting, 1 open, 2 closing, 3 closed) and the frames handed to its `send`
method, in order. -/
structure Socket where
  readyState : Nat
  sent : List String
deriving DecidableEq, Repr

/-- The state of `WebSocketManager`: the socket (`none` for `null`), the
reconnect counters, the global listener object and the per-popup handler
registry `Map<popupId, Map<eventType, [callbacks]>>`. `reconnectsScheduled`
counts the timeouts created by `attemptReconnect`; it is not a field of the
class but a record of what the class asked of the timer service. -/
structure WebSocketManager where
  ws : Option Socket
  reconnectAttempts : Nat
  maxReconnectAttempts : Nat
  reconnectDelay : Nat
  reconnectsScheduled : Nat
  listeners : List (EventType × List Callback)
  popupHandlers : JsMap PopupId (JsMap EventType (List Callback))
deriving DecidableEq, Repr

namespace WebSocketManager

/-- The constructor. -/
def new : WebSocketManager :=
  { ws := none, reconnectAttempts := 0, maxReconnectAttempts := 5, reconnectDelay := 3000,
    reconnectsScheduled := 0, listeners := [], popupHandlers := [] }

/-- Property lookup `this.listeners[event]`: an own property first, then the
prototype chain. -/
def listenersAt (ws : WebSocketManager) (event : EventType) : Slot :=
  match JsMap.get ws.listeners event with
  | some cbs => Slot.array cbs
  | none => if event ∈ objectPrototypeKeys then Slot.inherited else Slot.undefined

/-- The result of `array.forEach(callback => callback(message))`: the callbacks
invoked, in order, and whether one of them raised (which ends the loop). -/
def forEachCall (raises : Callback → Message → Bool) (message : Message) :
    List Callback → List Callback × Bool
  | [] => ([], false)
  | cb :: rest =>
    if raises cb message then ([cb], true)
    else ((cb :: (forEachCall raises message rest).1), (forEachCall raises message rest).2)

/-- The method `on(event, callback)` (`on` is reserved in Lean). For an inherited property name the guard
`!this.listeners[event]` is false and `push` is not a function: a `TypeError`. -/
def onEvent (ws : WebSocketManager) (event : EventType) (callback : Callback) :
    Except String WebSocketManager :=
  match ws.listenersAt event with
  | Slot.undefined => Except.ok { ws with listeners := JsMap.set ws.listeners event [callback] }
  | Slot.array cbs =>
    Except.ok { ws with listeners := JsMap.set ws.listeners event (cbs ++ [callback]) }
  | Slot.inherited => Except.error "TypeError: this.listeners[event].push is not a function"

/-- `emit(event, data)`: the global listeners invoked and whether the call
raised. An inherited property is truthy and has no `forEach`. -/
def emit (raises : Callback → Message → Bool) (ws : WebSocketManager) (event : EventType)
    (data : Message) : List Callback × Bool :=
  match ws.listenersAt event with
  | Slot.undefined => ([], false)
  | Slot.array cbs => forEachCall raises data cbs
  | Slot.inherited => ([], true)

/-- `registerPopupHandler(popupId, eventType, callback)`. -/
def registerPopupHandler (ws : WebSocketManager) (popupId : PopupId) (eventType : EventType)
    (callback : Callback) : WebSocketManager :=
  let handlers :=
    if JsMap.has ws.popupHandlers popupId then ws.popupHandlers
    else JsMap.set ws.popupHandlers popupId []
  let popupListeners := (JsMap.get handlers popupId).getD []
  let popupListeners :=
    if JsMap.has popupListeners eventType then popupListeners
    else JsMap.set popupListeners eventType []
  let callbacks := (JsMap.get popupListeners eventType).getD []
  { ws with
    popupHandlers :=
      JsMap.set handlers popupId (JsMap.set popupListeners eventType (callbacks ++ [callback])) }

/-- `unregisterPopupHandlers(popupId)`. -/
def unregisterPopupHandlers (ws : WebSocketManager) (popupId : PopupId) : WebSocketManager :=
  { ws with popupHandlers := JsMap.delete ws.popupHandlers popupId }

/-- `clearPopupHandler(popupId, eventType)`. -/
def clearPopupHandler (ws : WebSocketManager) (popupId : PopupId) (eventType : EventType) :
    WebSocketManager :=
  match JsMap.get ws.popupHandlers popupId with
  | some popupListeners =>
    { ws with
      popupHandlers := JsMap.set ws.popupHandlers popupId (JsMap.delete popupListeners eventType) }
  | none => ws

/-- What one call of `handleMessage` did: the popup-scoped callbacks invoked,
then the global listeners invoked (each with the message as its argument), and
whether the call ended with an exception. -/
structure Dispatch where
  popupCalls : List (Callback × Message)
  globalCalls : List (Callback × Message)
  raised : Bool
deriving DecidableEq, Repr

/-- The callbacks `handleMessage` finds for the message in the popup registry:
the list under `(popupId, type)` when `popupId` is truthy and both keys are
present, nothing otherwise. -/
def routed (ws : WebSocketManager) (message : Message) : List Callback :=
  match message.popupId with
  | none => []
  | some popupId =>
    if truthyId (some popupId) && JsMap.has ws.popupHandlers popupId then
      let popupListeners := (JsMap.get ws.popupHandlers popupId).getD []
      if JsMap.has popupListeners message.type then
        (JsMap.get popupListeners message.type).getD []
      else []
    else []

/-- `handleMessage(message)`: route to the popup-scoped handlers, then emit to
the global listeners. An exception in a popup-scoped callback leaves the
function before `emit` is reached. The manager itself is not modified. -/
def handleMessage (raises : Callback → Message → Bool) (ws : WebSocketManager)
    (message : Message) : WebSocketManager × Dispatch :=
  let popup := forEachCall raises message (routed ws message)
  if popup.2 then
    (ws, { popupCalls := popup.1.map (fun cb => (cb, message)), globalCalls := [], raised := true })
  else
    let glob := emit raises ws message.type message
    (ws, { popupCalls := popup.1.map (fun cb => (cb, message)),
           globalCalls := glob.1.map (fun cb => (cb, message)),
           raised := glob.2 })

/-- The callbacks registered under `(popupId, eventType)`, in registration order. -/
def handlersOf (ws : WebSocketManager) (popupId : PopupId) (eventType : EventType) :
    List Callback :=
  ((JsMap.get ws.popupHandlers popupId).bind (fun m => JsMap.get m eventType)).getD []

/-- A sequence of `registerPopupHandler` calls, run in order. -/
def registerAll (ws : WebSocketManager) :
    List (PopupId × EventType × Callback) → WebSocketManager
  | [] => ws
  | (p, t, cb) :: rest => registerAll (registerPopupHandler ws p t cb) rest

/-- The global listeners registered for `event`, in registration order. -/
def listenersOf (ws : WebSocketManager) (event : EventType) : List Callback :=
  match ws.listenersAt event with
  | Slot.array cbs => cbs
  | _ => []

/-- A sequence of `on` calls, run in order; a call that raises changes nothing. -/
def onAll (ws : WebSocketManager) : List (EventType × Callback) → WebSocketManager
  | [] => ws
  | (t, cb) :: rest =>
    match onEvent ws t cb with
    | Except.ok ws' => onAll ws' rest
    | Except.error _ => onAll ws rest

/-- `send(message)`: the serialisation `JSON.stringify(message)` goes to the
socket when there is one and it is open; otherwise only a warning is printed. -/
def send (stringify : Message → String) (ws : WebSocketManager) (message : Message) :
    WebSocketManager :=
  match ws.ws with
  | some socket =>
    if socket.readyState = 1 then
      { ws with ws := some { socket with sent := socket.sent ++ [stringify message] } }
    else ws
  | none => ws

/-- The frames transmitted so far on the current socket. -/
def transmitted (ws : WebSocketManager) : List String :=
  match ws.ws with
  | some socket => socket.sent
  | none => []

/-- The first statement of `connect()`: a new socket, still connecting. -/
def connect (ws : WebSocketManager) : WebSocketManager :=
  { ws with ws := some { readyState := 0, sent := [] } }

/-- `attemptReconnect()`: below the bound the counter is incremented and one
timeout for `connect` is created; at the bound nothing happens. -/
def attemptReconnect (ws : WebSocketManager) : WebSocketManager :=
  if ws.reconnectAttempts < ws.maxReconnectAttempts then
    { ws with reconnectAttempts := ws.reconnectAttempts + 1,
              reconnectsScheduled := ws.reconnectsScheduled + 1 }
  else ws

/-- The argument of a lifecycle emit (`connected`, `disconnected`), which is
`undefined` in the source. -/
def lifecycle (event : EventType) : Message :=
  { type := event, popupId := none, body := "" }

/-- The socket after the browser changed its `readyState`. -/
def setReadyState (ws : WebSocketManager) (state : Nat) : WebSocketManager :=
  { ws with ws := ws.ws.map (fun socket => { socket with readyState := state }) }

/-- The `onopen` handler: the counter is reset, then `connected` is emitted.
The manager, the listeners invoked and whether the handler raised. -/
def onopen (raises : Callback → Message → Bool) (ws : WebSocketManager) :
    WebSocketManager × List Callback × Bool :=
  ({ setReadyState ws 1 with reconnectAttempts := 0 },
    emit raises ws "connected" (lifecycle "connected"))

/-- The `onclose` handler: `disconnected` is emitted, then `attemptReconnect`
runs, unless a listener raised. -/
def onclose (raises : Callback → Message → Bool) (ws : WebSocketManager) :
    WebSocketManager × List Callback × Bool :=
  if (emit raises ws "disconnected" (lifecycle "disconnected")).2 then
    (setReadyState ws 3, emit raises ws "disconnected" (lifecycle "disconnected"))
  else
    (attemptReconnect (setReadyState ws 3),
      emit raises ws "disconnected" (lifecycle "disconnected"))

/-- `k` consecutive close events. -/
def closeEvents (raises : Callback → Message → Bool) (ws : WebSocketManager) :
    Nat → WebSocketManager
  | 0 => ws
  | k + 1 => closeEvents raises (onclose raises ws).1 k

/-- `k` consecutive calls of `attemptReconnect`. -/
def attemptReconnects (ws : WebSocketManager) : Nat → WebSocketManager
  | 0 => ws
  | k + 1 => attemptReconnects (attemptReconnect ws) k

/-- What happens to the connection: it opens, or it closes. -/
inductive ConnectionEvent where
  | opened
  | closed
deriving DecidableEq, Repr

/-- A sequence of connection events, in order. -/
def connectionEvents (raises : Callback → Message → Bool) (ws : WebSocketManager) :
    List ConnectionEvent → WebSocketManager
  | [] => ws
  | ConnectionEvent.opened :: rest => connectionEvents raises (onopen raises ws).1 rest
  | ConnectionEvent.closed :: rest => connectionEvents raises (onclose raises ws).1 rest

/-- The `data` of an inbound frame, by what `JSON.parse` makes of it: a syntax
error, the value `null`, or an object. A parsed value of another kind has no
`type` and no `popupId` and behaves as the object with `type` `undefined`. -/
inductive Frame where
  | malformed (data : String)
  | null
  | object (message : Message)
deriving DecidableEq, Repr

/-- The dispatch in which nothing is invoked. -/
def noDispatch : Dispatch :=
  { popupCalls := [], globalCalls := [], raised := false }

/-- The `onmessage` handler: parse and dispatch inside one `try`. A syntax
error, the `TypeError` of destructuring `null` and any exception of
`handleMessage` end in the `catch`, which logs. The result is the manager, what
was invoked (its `raised` tells whether the handler itself raised: never) and
whether an error was logged. -/
def onmessage (raises : Callback → Message → Bool) (ws : WebSocketManager) :
    Frame → WebSocketManager × Dispatch × Bool
  | Frame.malformed _ => (ws, noDispatch, true)
  | Frame.null => (ws, noDispatch, true)
  | Frame.object message =>
    ((handleMessage raises ws message).1,
      { (handleMessage raises ws message).2 with raised := false },
      (handleMessage raises ws message).2.raised)

/-- The loop `array.forEach(callback => callback(message))` when each callback
returns normally and, while it runs, calls `unregisterPopupHandlers` on the ids
`unregisters callback`. The loop walks the array it was called on; deleting a
map entry does not modify that array. The manager after the loop and the
callbacks invoked. -/
def forEachUnregistering (unregisters : Callback → List PopupId) (ws : WebSocketManager) :
    List Callback → WebSocketManager × List Callback
  | [] => (ws, [])
  | cb :: rest =>
    ((forEachUnregistering unregisters
        ((unregisters cb).foldl unregisterPopupHandlers ws) rest).1,
      cb :: (forEachUnregistering unregisters
        ((unregisters cb).foldl unregisterPopupHandlers ws) rest).2)

/-- `handleMessage(message)` with callbacks that unregister popups while the
dispatch runs: the handler list is looked up once, before the loop. An inherited
property name makes `emit` raise as before. -/
def handleMessageUnregistering (unregisters : Callback → List PopupId) (ws : WebSocketManager)
    (message : Message) : WebSocketManager × Dispatch :=
  let popup := forEachUnregistering unregisters ws (routed ws message)
  match popup.1.listenersAt message.type with
  | Slot.inherited =>
    (popup.1, { popupCalls := popup.2.map (fun cb => (cb, message)), globalCalls := [],
                raised := true })
  | Slot.undefined =>
    (popup.1, { popupCalls := popup.2.map (fun cb => (cb, message)), globalCalls := [],
                raised := false })
  | Slot.array cbs =>
    ((forEachUnregistering unregisters popup.1 cbs).1,
      { popupCalls := popup.2.map (fun cb => (cb, message)),
        globalCalls := (forEachUnregistering unregisters popup.1 cbs).2.map
          (fun cb => (cb, message)),
        raised := false })

end WebSocketManager

/-! ## `popup.js`: the popup manager and the page around it -/

/-- The decimal digit `d`, for `d < 10`. -/
def decimalDigit : Nat → Char
  | 0 => '0'
  | 1 => '1'
  | 2 => '2'
  | 3 => '3'
  | 4 => '4'
  | 5 => '5'
  | 6 => '6'
  | 7 => '7'
  | 8 => '8'
  | _ => '9'

/-- The decimal text of a counter, as a template string renders it. -/
def decimal (n : Nat) : String :=
  if n = 0 then "0" else String.mk ((Nat.digits 10 n).reverse.map decimalDigit)

/-- The id built by `popup-` followed by `this.nextId++` in a template string. -/
def popupIdOf (n : Nat) : PopupId := "popup-" ++ decimal n

/-- `PopupManager`: the live popups (each kept as its `ipcType`) in a `Map`, and
the counter `nextId`, taken as a natural number. -/
structure PopupManager where
  popups : JsMap PopupId String
  nextId : Nat
deriving DecidableEq, Repr

/-- The page: the popup manager, the router `wsManager`, the popups with a
start still to come (the configuration dialog and module load begun by the
constructor, or the 200 ms timeout of a Restart), and the next unused callback
identity. -/
structure App where
  manager : PopupManager
  router : WebSocketManager
  pendingStarts : List PopupId
  nextCallback : Nat
deriving DecidableEq, Repr

namespace App

/-- The page after loading. -/
def new : App :=
  { manager := { popups := [], nextId := 1 }, router := WebSocketManager.new,
    pendingStarts := [], nextCallback := 0 }

/-- `createPopup(ipcType)`: the new state and the id of the popup returned. The
constructor of the popup opens the configuration dialog, which leads to
`startSimulation` later. -/
def createPopup (app : App) (ipcType : String) : App × PopupId :=
  ({ app with
      manager := { popups := JsMap.set app.manager.popups (popupIdOf app.manager.nextId) ipcType,
                   nextId := app.manager.nextId + 1 },
      pendingStarts := app.pendingStarts ++ [popupIdOf app.manager.nextId] },
    popupIdOf app.manager.nextId)

/-- `Popup.destroy()` of the popup with this id. -/
def destroy (app : App) (popupId : PopupId) : App :=
  { app with
    router := app.router.unregisterPopupHandlers popupId,
    manager := { app.manager with popups := JsMap.delete app.manager.popups popupId } }

/-- `closePopup(popupId)`. -/
def closePopup (app : App) (popupId : PopupId) : App :=
  match JsMap.get app.manager.popups popupId with
  | some _ =>
    let app := app.destroy popupId
    { app with manager := { app.manager with popups := JsMap.delete app.manager.popups popupId } }
  | none => app

/-- `closeAll()`: every popup is destroyed, then the map is cleared. -/
def closeAll (app : App) : App :=
  let app := (app.manager.popups.map Prod.fst).foldl destroy app
  { app with manager := { app.manager with popups := [] } }

/-- `Popup.startSimulation()` of the popup with this id: four handlers are
registered under the id, each a new function. -/
def startSimulation (app : App) (popupId : PopupId) : App :=
  { app with
    router :=
      (((app.router.registerPopupHandler popupId "popup_connected" app.nextCallback
        ).registerPopupHandler popupId "event" (app.nextCallback + 1)
        ).registerPopupHandler popupId "simulation_complete" (app.nextCallback + 2)
        ).registerPopupHandler popupId "error" (app.nextCallback + 3),
    nextCallback := app.nextCallback + 4 }

/-- A pending start of the popup with this id comes due: the dialog was
submitted and the module loaded, or the timeout of a Restart fired. -/
def startCompletes (app : App) (popupId : PopupId) : App :=
  if popupId ∈ app.pendingStarts then
    startSimulation { app with pendingStarts := app.pendingStarts.erase popupId } popupId
  else app

/-- The click handler of the Restart button of a popup that is on screen. -/
def restartClick (app : App) (popupId : PopupId) : App :=
  if JsMap.has app.manager.popups popupId then
    { app with router := app.router.unregisterPopupHandlers popupId,
               pendingStarts := app.pendingStarts ++ [popupId] }
  else app

/-- What the user and the timer service do to the page. -/
inductive Action where
  | createPopup (ipcType : String)
  | closePopup (popupId : PopupId)
  | closeAll
  | restartClick (popupId : PopupId)
  | startCompletes (popupId : PopupId)
deriving DecidableEq, Repr

/-- One action. -/
def step (app : App) : Action → App
  | Action.createPopup ipcType => (app.createPopup ipcType).1
  | Action.closePopup popupId => app.closePopup popupId
  | Action.closeAll => app.closeAll
  | Action.restartClick popupId => app.restartClick popupId
  | Action.startCompletes popupId => app.startCompletes popupId

/-- A sequence of actions, in order. -/
def run (app : App) : List Action → App
  | [] => app
  | a :: rest => run (app.step a) rest

/-- The ids returned by the `createPopup` calls of a sequence of actions, in
order. -/
def createdIds (app : App) : List Action → List PopupId
  | [] => []
  | Action.createPopup ipcType :: rest =>
    (app.createPopup ipcType).2 :: createdIds (app.createPopup ipcType).1 rest
  | a :: rest => createdIds (app.step a) rest

end App

/-! ## `popup.js`: one popup, its pause buffer and its history -/

/-- A simulation event as sent by the backend. A missing `process` is the empty
string. -/
structure Event where
  event : String
  process : String
  detail : String
  timestamp : Nat
deriving DecidableEq, Repr

/-- How one call of a function of the visualization module ends. -/
inductive Outcome where
  | returnsTrue
  | returnsOther
  | throws
deriving DecidableEq, Repr

/-- The loaded visualization module `this.viz`: for each of the three entry
points the popup looks for, whether it is a function and how a call on an event
ends. -/
structure VizModule where
  handleEvent : Option (Event → Outcome)
  processEvent : Option (Event → Outcome)
  handle : Option (Event → Outcome)

/-- Which branch of `loadVizModule` bound `this.vizEventHandler`. -/
inductive Binding where
  /-- `(evt) => { try { return this.viz.handleEvent(evt) } catch .. }`. -/
  | handleEvent
  /-- `(evt) => { try { return this.viz.processEvent(evt) } catch .. }`. -/
  | processEvent
  /-- The mapping onto `vizEngineInstance.addEvent`, which returns `true`. -/
  | engine
  /-- The final fallback, which logs and returns `false`. -/
  | noop
deriving DecidableEq, Repr

/-- The calls a popup makes on its collaborators, in program order. -/
inductive Effect where
  /-- `this.vizEventHandler(ev)`: the event is handed to the renderer. -/
  | vizEventHandler (ev : Event)
  /-- `this.viz.handleEvent(ev)`, the handler of the loaded module. -/
  | vizHandleEvent (ev : Event)
  /-- `this.viz.processEvent(ev)`. -/
  | vizProcessEvent (ev : Event)
  /-- `this.viz.handle(ev)`. -/
  | vizHandle (ev : Event)
  /-- `this.vizEngineInstance.addEvent(..)` for the event. -/
  | engineAddEvent (ev : Event)
  /-- `this.visualization.enqueueEvent(ev)`, the fallback of `handleEvent`. -/
  | visualizationEnqueueEvent (ev : Event)
  /-- `this.visualization.pause()`. -/
  | visualizationPause
  /-- `this.visualization.resume()`. -/
  | visualizationResume
  /-- `this.visualization.step()`. -/
  | visualizationStep
  /-- `this.visualization.clear()`. -/
  | visualizationClear
  /-- `this.visualization.setSpeed(speed)`. -/
  | visualizationSetSpeed (speed : Option ℚ)
  /-- `wsManager.send` of a control message with this `type` and the popup id. -/
  | send (type : String)
  /-- `wsManager.unregisterPopupHandlers(this.popupId)`. -/
  | unregisterPopupHandlers
  /-- `setTimeout(() => this.startSimulation(), 200)`. -/
  | scheduleStartSimulation
  /-- `this.updateStatus(status)`. -/
  | updateStatus (status : String)
  /-- `this.updateEventCount()`. -/
  | updateEventCount
  /-- `this.addEventToHistory(ev)`. -/
  | addEventToHistory (ev : Event)
  /-- `this.devPanel.log(..)` for the event. -/
  | devPanelLog (ev : Event)
deriving DecidableEq, Repr

/-- A pending `setTimeout` of `_flushPendingEvents`: the instant it is due and
the event its callback releases. -/
structure Timer where
  due : ℚ
  ev : Event
deriving DecidableEq

/-- The state of a `Popup` that playback depends on. `vizEventHandler` is `none`
while the field is `null`. `speed` is `none` for `NaN`. `history` is the content
of the on-screen history list, oldest first. `timers` are the pending timeouts of
`_flushPendingEvents` in creation order, `now` is the clock, `effects` the calls
made so far. How a call of a module function ends is a function of the event. -/
structure Popup where
  popupId : PopupId
  ipcType : String
  events : List Event
  isRunning : Bool
  isPaused : Bool
  speed : Option ℚ
  stepMode : Bool
  pendingEvents : List Event
  viz : Option VizModule
  vizEventHandler : Option Binding
  hasDevPanel : Bool
  history : List Event
  timers : List Timer
  now : ℚ
  effects : List Effect

/-- The object built by `exportLogs`, without the export time. -/
structure ExportData where
  ipcType : String
  popupId : PopupId
  eventCount : Nat
  events : List Event
deriving DecidableEq, Repr

namespace Popup

/-- The fields set by the constructor; no visualization module is loaded yet. -/
def new (popupId : PopupId) (ipcType : String) : Popup :=
  { popupId := popupId, ipcType := ipcType, events := [], isRunning := false,
    isPaused := false, speed := some 1, stepMode := false, pendingEvents := [],
    viz := none, vizEventHandler := none, hasDevPanel := true, history := [],
    timers := [], now := 0, effects := [] }

/-- The binding chosen by `loadVizModule` for a module; `engine` tells whether
`init` returned an engine with `addEvent`. -/
def bindingOf (viz : VizModule) (engine : Bool) : Binding :=
  if viz.handleEvent.isSome then Binding.handleEvent
  else if viz.processEvent.isSome then Binding.processEvent
  else if engine then Binding.engine
  else Binding.noop

/-- The popup once `loadVizModule` has loaded a module. -/
def loadVizModule (p : Popup) (viz : VizModule) (engine : Bool) : Popup :=
  { p with viz := some viz, vizEventHandler := some (bindingOf viz engine) }

/-- A module that exports `handleEvent` only. -/
def moduleWith (handleEvent : Event → Outcome) : VizModule :=
  { handleEvent := some handleEvent, processEvent := none, handle := none }

/-- A popup with a loaded module that exports `handleEvent`. -/
def loaded (popupId : PopupId) (ipcType : String) (handleEvent : Event → Outcome) : Popup :=
  (new popupId ipcType).loadVizModule (moduleWith handleEvent) false

/-- The events handed to the renderer's event handler, in order. -/
def deliveredIn (effects : List Effect) : List Event :=
  effects.filterMap (fun e => match e with
    | Effect.vizEventHandler ev => some ev
    | _ => none)

/-- The events handed to the renderer's event handler so far, in order. -/
def delivered (p : Popup) : List Event := deliveredIn p.effects

/-- The events passed to the loaded module's `handleEvent` so far, in order. -/
def moduleCalls (p : Popup) : List Event :=
  p.effects.filterMap (fun e => match e with
    | Effect.vizHandleEvent ev => some ev
    | _ => none)

/-- The events for which `addEventToHistory` was called so far, in order. -/
def historyCalls (p : Popup) : List Event :=
  p.effects.filterMap (fun e => match e with
    | Effect.addEventToHistory ev => some ev
    | _ => none)

/-- The loop `while (historyList.children.length > 50) removeChild(firstChild)`. -/
def trimHistory : List Event → List Event
  | [] => []
  | ev :: rest => if (ev :: rest).length > 50 then trimHistory rest else ev :: rest

/-- The history list after `addEventToHistory(ev)`. -/
def addToHistory (history : List Event) (ev : Event) : List Event :=
  trimHistory (history ++ [ev])

/-- One call `this.vizEventHandler(ev)`: the calls it makes and whether it
returns exactly `true`. Every binding catches what the module throws; a missing
module function is a `TypeError`, caught as well. -/
def callVizEventHandler (p : Popup) (binding : Binding) (ev : Event) : List Effect × Bool :=
  match binding with
  | Binding.handleEvent =>
    match p.viz.bind VizModule.handleEvent with
    | some f => ([Effect.vizEventHandler ev, Effect.vizHandleEvent ev], decide (f ev = Outcome.returnsTrue))
    | none => ([Effect.vizEventHandler ev], false)
  | Binding.processEvent =>
    match p.viz.bind VizModule.processEvent with
    | some f => ([Effect.vizEventHandler ev, Effect.vizProcessEvent ev], decide (f ev = Outcome.returnsTrue))
    | none => ([Effect.vizEventHandler ev], false)
  | Binding.engine => ([Effect.vizEventHandler ev, Effect.engineAddEvent ev], true)
  | Binding.noop => ([Effect.vizEventHandler ev], false)

/-- The first step of `handleEvent` when not paused: `vizEventHandler` if bound,
else `this.viz.handle` if it is a function; the calls made and the value of
`handledByModule`. Both calls sit in a `try`. -/
def moduleCall (p : Popup) (ev : Event) : List Effect × Bool :=
  match p.vizEventHandler with
  | some binding => p.callVizEventHandler binding ev
  | none =>
    match p.viz.bind VizModule.handle with
    | some f => ([Effect.vizHandle ev], decide (f ev = Outcome.returnsTrue))
    | none => ([], false)

/-- The proxy method `this.visualization.enqueueEvent(ev)`: it calls
`this.viz.handleEvent(ev)` when that is a function, outside any `try`. The calls
made and whether the call raised. -/
def proxyEnqueueEvent (p : Popup) (ev : Event) : List Effect × Bool :=
  match p.viz.bind VizModule.handleEvent with
  | some f =>
    ([Effect.visualizationEnqueueEvent ev, Effect.vizHandleEvent ev], decide (f ev = Outcome.throws))
  | none => ([Effect.visualizationEnqueueEvent ev], false)

/-- The call `this.devPanel.log(..)` guarded by `if (this.devPanel)`. -/
def devLog (p : Popup) (ev : Event) : List Effect :=
  if p.hasDevPanel then [Effect.devPanelLog ev] else []

/-- `handleEvent(event)`, called by the popup's handler for `event` messages:
the new state and whether the call raised. The proxy `this.visualization` always
has an `enqueueEvent` method, so the fallback is always that method. -/
def handleEvent (p : Popup) (event : Event) : Popup × Bool :=
  if p.isPaused && !p.stepMode then
    ({ p with events := p.events ++ [event],
              pendingEvents := p.pendingEvents ++ [event],
              history := addToHistory p.history event,
              effects := p.effects ++ [Effect.updateEventCount, Effect.addEventToHistory event]
                ++ p.devLog event }, false)
  else
    let call := p.moduleCall event
    let fallback := if call.2 then ([], false) else p.proxyEnqueueEvent event
    if fallback.2 then
      ({ p with events := p.events ++ [event],
                effects := p.effects ++ [Effect.updateEventCount] ++ call.1 ++ fallback.1 }, true)
    else
      ({ p with events := p.events ++ [event],
                history := addToHistory p.history event,
                effects := p.effects ++ [Effect.updateEventCount] ++ call.1 ++ fallback.1
                  ++ [Effect.addEventToHistory event] ++ p.devLog event
                  ++ (if p.stepMode then [Effect.visualizationPause] else []) }, false)

/-- The value of `Math.max(10, 300 / (this.speed || 1))`. -/
def flushDelay (speed : Option ℚ) : ℚ :=
  let s : ℚ := match speed with
    | some q => if q = 0 then 1 else q
    | none => 1
  max 10 (300 / s)

/-- The timeouts created by `toProcess.forEach((ev, idx) => setTimeout(.., idx * delay))`,
starting at index `idx`. -/
def scheduleFrom (now delay : ℚ) : Nat → List Event → List Timer
  | _, [] => []
  | idx, ev :: rest =>
    { due := now + (idx : ℚ) * delay, ev := ev } :: scheduleFrom now delay (idx + 1) rest

/-- `_flushPendingEvents()`: nothing when the buffer is empty; otherwise the
buffer is emptied and one timeout per buffered event is created. -/
def _flushPendingEvents (p : Popup) : Popup :=
  if p.pendingEvents = [] then p
  else
    { p with pendingEvents := [],
             timers := p.timers ++ scheduleFrom p.now (flushDelay p.speed) 0 p.pendingEvents }

/-- The calls of the `try` block shared by the timeout callback and the Step
handler: `vizEventHandler(ev)` when bound. The proxy `this.visualization` has no
`handle` method, so nothing happens otherwise. -/
def releaseCall (p : Popup) (ev : Event) : List Effect :=
  match p.vizEventHandler with
  | some binding => (p.callVizEventHandler binding ev).1
  | none => []

/-- The callback of one timeout of `_flushPendingEvents`. -/
def releaseCallback (p : Popup) (ev : Event) : Popup :=
  { p with history := addToHistory p.history ev,
           effects := p.effects ++ p.releaseCall ev ++ [Effect.addEventToHistory ev] }

/-- The click handler of the Pause button. -/
def pauseClick (p : Popup) : Popup :=
  { p with isPaused := true,
           effects := p.effects ++
             [Effect.visualizationPause, Effect.send "pause", Effect.updateStatus "Paused"] }

/-- The click handler of the Resume button. -/
def resumeClick (p : Popup) : Popup :=
  _flushPendingEvents
    { p with isPaused := false,
             effects := p.effects ++
               [Effect.visualizationResume, Effect.send "resume", Effect.updateStatus "Running"] }

/-- The click handler of the Step button. -/
def stepClick (p : Popup) : Popup :=
  match p.pendingEvents with
  | ev :: rest =>
    { p with isPaused := true, pendingEvents := rest,
             effects := p.effects ++ [Effect.visualizationPause] ++ p.releaseCall ev
               ++ [Effect.updateStatus "Stepped"] }
  | [] =>
    { p with isPaused := true,
             effects := p.effects ++
               [Effect.visualizationPause, Effect.visualizationStep, Effect.updateStatus "Stepped"] }

/-- The click handler of the Restart button: the history and the event log are
cleared, the handlers unregistered and a new start is scheduled. The pause
buffer and the pending timeouts are not touched. -/
def restartClick (p : Popup) : Popup :=
  { p with events := [], history := [],
           effects := p.effects ++
             [Effect.visualizationClear, Effect.updateEventCount, Effect.unregisterPopupHandlers,
              Effect.updateStatus "Restarting", Effect.send "restart_simulation",
              Effect.scheduleStartSimulation] }

/-- The `input` handler of the speed slider; `speed` is the value of
`parseFloat(e.target.value)`. -/
def speedInput (p : Popup) (speed : Option ℚ) : Popup :=
  { p with speed := speed, effects := p.effects ++ [Effect.visualizationSetSpeed speed] }

/-- `exportLogs()`, as the object it serialises. -/
def exportLogs (p : Popup) : ExportData :=
  { ipcType := p.ipcType, popupId := p.popupId, eventCount := p.events.length,
    events := p.events }

/-- The pending timeout that fires next: the least due time, the oldest among
equals. -/
def nextTimer : List Timer → Option Timer
  | [] => none
  | t :: rest =>
    match nextTimer rest with
    | none => some t
    | some u => if t.due ≤ u.due then some t else some u

/-- One timeout fires: the next pending timeout, if it is due, runs its
callback and is removed. -/
def fire (p : Popup) : Popup :=
  match nextTimer p.timers with
  | none => p
  | some t =>
    if t.due ≤ p.now then releaseCallback { p with timers := p.timers.erase t } t.ev
    else p

/-- Time passes. -/
def tick (p : Popup) (dt : ℚ) : Popup :=
  if 0 ≤ dt then { p with now := p.now + dt } else p

/-- What can happen to a popup during playback: an event arrives from the
router, a control is used, time passes, a due timeout fires. -/
inductive Action where
  | arrive (ev : Event)
  | pauseClick
  | resumeClick
  | stepClick
  | restartClick
  | speedInput (speed : Option ℚ)
  | tick (dt : ℚ)
  | fire
deriving DecidableEq

/-- The actions other than a Resume or a Step click. -/
def Action.keepsPaused : Action → Bool
  | Action.resumeClick => false
  | Action.stepClick => false
  | _ => true

/-- One action. An exception of `handleEvent` goes to the router; the popup
keeps the state it had when the exception left. -/
def step (p : Popup) : Action → Popup
  | Action.arrive ev => (p.handleEvent ev).1
  | Action.pauseClick => p.pauseClick
  | Action.resumeClick => p.resumeClick
  | Action.stepClick => p.stepClick
  | Action.restartClick => p.restartClick
  | Action.speedInput speed => p.speedInput speed
  | Action.tick dt => p.tick dt
  | Action.fire => p.fire

/-- A sequence of actions, in order. -/
def run (p : Popup) : List Action → Popup
  | [] => p
  | a :: rest => run (p.step a) rest

/-- The events that arrive in a sequence of actions, in order. -/
def arrivals : List Action → List Event
  | [] => []
  | Action.arrive ev :: rest => ev :: arrivals rest
  | _ :: rest => arrivals rest

/-- The events that arrive after the last Restart click of a sequence of
actions (all of them when there is none), in order. -/
def arrivalsSinceRestart (acc : List Event) : List Action → List Event
  | [] => acc
  | Action.arrive ev :: rest => arrivalsSinceRestart (acc ++ [ev]) rest
  | Action.restartClick :: rest => arrivalsSinceRestart [] rest
  | _ :: rest => arrivalsSinceRestart acc rest

/-- The events a popup holds back: the pause buffer, then the events of the
pending timeouts. -/
def held (p : Popup) : List Event :=
  p.pendingEvents ++ p.timers.map Timer.ev

end Popup

/-! ## `visualization.js`: the playback queue of the legacy engine -/

namespace Visualization

/-- `AnimationController`: the number of running animations, the flags and the
speed. -/
structure AnimationController where
  animations : Nat
  isRunning : Bool
  isPaused : Bool
  speed : ℚ
deriving DecidableEq, Repr

/-- `AnimationController.setSpeed(speed)`. -/
def AnimationController.setSpeed (c : AnimationController) (speed : ℚ) : AnimationController :=
  { c with speed := max (1 / 10) speed }

/-- The outcome of `this.svg.querySelector(selector)`: a `SyntaxError` for a
text that is not a valid selector, otherwise `null` or the first element that
matches. -/
inductive Query where
  | raises
  | missing
  | found
deriving DecidableEq, Repr

/-- The document as the lookups of the engine see it: the outcome of
`querySelector` for each selector text. It is consulted for the selectors built
from a process name (`#node-` and `#lock-line-` followed by the name); the
constant selectors of the source are valid. -/
abbrev Dom := String → Query

/-- The fields of `VisualizationEngine` (`visualization.js`) that the playback
code reads or writes. `processes` maps a process name to its state (the random
coordinates of a node are not kept), `lastEventTime` is `_lastEventTime`, whose
keys all contain `::` and so never meet an inherited property name, `paused`
is `animController.isPaused`, `lockHolder` is `state.lockHolder`, and `handled`
lists the events given to `_handleEventNow`. -/
structure VisualizationEngine where
  ipcType : Option String
  processes : JsMap String String
  uniqueProcesses : List String
  eventQueue : List Event
  lastEventTime : JsMap String Nat
  paused : Bool
  speed : ℚ
  lockHolder : Option String
  handled : List Event
deriving DecidableEq, Repr

namespace VisualizationEngine

/-- The fields set by the constructor. -/
def new : VisualizationEngine :=
  { ipcType := none, processes := [], uniqueProcesses := [], eventQueue := [],
    lastEventTime := [], paused := false, speed := 1, lockHolder := none, handled := [] }

/-- The process nodes of the layout `renderLayout` draws for an ipc type, in the
order of the source; no layout for any other text. -/
def layoutNodes (ipcType : String) : List String :=
  if ipcType = "mutex" ∨ ipcType = "binary_semaphore" ∨ ipcType = "spinlock" then
    ["parent", "child", "process3", "process4"]
  else if ipcType = "counting_semaphore" then ["parent", "child1", "child2", "child3"]
  else if ipcType = "rw_lock" then ["reader1", "reader2", "writer"]
  else if ipcType = "pipe" ∨ ipcType = "named_pipe" then ["parent", "child"]
  else if ipcType = "shared_memory" then ["parent", "child"]
  else if ipcType = "message_queue" then ["sender", "receiver"]
  else []

/-- `renderProcessNodes(nodeConfigs)`: every name that is not yet in
`uniqueProcesses` is added to it and to `processes`. -/
def renderProcessNodes (eng : VisualizationEngine) : List String → VisualizationEngine
  | [] => eng
  | name :: rest =>
    if name ∈ eng.uniqueProcesses then renderProcessNodes eng rest
    else
      renderProcessNodes
        { eng with
          uniqueProcesses := eng.uniqueProcesses ++ [name],
          processes := JsMap.set eng.processes name "idle" } rest

/-- `setIpcType(ipcType)`: the type is stored and `renderLayout` draws the
layout of the type, which registers its process nodes. -/
def setIpcType (eng : VisualizationEngine) (ipcType : String) : VisualizationEngine :=
  renderProcessNodes { eng with ipcType := some ipcType } (layoutNodes ipcType)

/-- The throttling key of an event, the template string
`(process || 'anon') :: eventType`. -/
def throttleKey (process eventType : String) : String :=
  (if process = "" then "anon" else process) ++ "::" ++ eventType

/-- The value of `this._lastEventTime[key] || 0`. -/
def lastTime (eng : VisualizationEngine) (key : String) : Nat :=
  match JsMap.get eng.lastEventTime key with
  | some t => t
  | none => 0

/-- The value of `(this.ipcType === 'spinlock') ? 100 : 0`. -/
def minInterval (eng : VisualizationEngine) : Nat :=
  if eng.ipcType = some "spinlock" then 100 else 0

/-- `enqueueEvent(event)` when `Date.now()` returns `now`; `none` is a missing
event. -/
def enqueueEvent (eng : VisualizationEngine) (now : Nat) : Option Event → VisualizationEngine
  | none => eng
  | some event =>
    if event.event = "initialized" then eng
    else if eng.minInterval ≠ 0 ∧
        (now : Int) - (eng.lastTime (throttleKey event.process event.event) : Int)
          < (eng.minInterval : Int) then eng
    else if event.process ≠ "" ∧ event.process ∉ eng.uniqueProcesses then
      { eng with
        lastEventTime :=
          JsMap.set eng.lastEventTime (throttleKey event.process event.event) now,
        processes := JsMap.set eng.processes event.process "idle",
        uniqueProcesses := eng.uniqueProcesses ++ [event.process],
        eventQueue := eng.eventQueue ++ [event] }
    else
      { eng with
        lastEventTime :=
          JsMap.set eng.lastEventTime (throttleKey event.process event.event) now,
        eventQueue := eng.eventQueue ++ [event] }

/-- A stream of events, each with the clock reading at its arrival, enqueued in
order. -/
def enqueueAll (eng : VisualizationEngine) : List (Nat × Event) → VisualizationEngine
  | [] => eng
  | (now, event) :: rest => enqueueAll (eng.enqueueEvent now (some event)) rest

/-- The ipc types whose animator is `animateMutexEvent`. -/
def usesMutexAnimator (ipcType : Option String) : Bool :=
  decide (ipcType = some "mutex" ∨ ipcType = some "binary_semaphore" ∨
    ipcType = some "spinlock")

/-- `animateLockAcquisition(node, lockCenter, process)`: the lookup of the node
element comes before the write of `state.lockHolder`, so a selector that raises
leaves the holder as it was. -/
def animateLockAcquisition (dom : Dom) (eng : VisualizationEngine) (process : String) :
    VisualizationEngine :=
  match dom ("#node-" ++ process) with
  | Query.raises => eng
  | _ => { eng with lockHolder := some process }

/-- `animateLockRelease(node, lockCenter)`: the line of the current holder is
looked up, then (for a truthy holder) its node element, whose stored position is
read when the element exists; `state.lockHolder = null` is the last statement.
An exception on the way (a selector that raises, or the position of a holder
that `processes` does not know) leaves the holder as it was. Without a holder
the selector is `#lock-line-null`, which is valid. -/
def animateLockRelease (dom : Dom) (eng : VisualizationEngine) : VisualizationEngine :=
  match eng.lockHolder with
  | none => { eng with lockHolder := none }
  | some prev =>
    match dom ("#lock-line-" ++ prev) with
    | Query.raises => eng
    | _ =>
      if prev = "" then { eng with lockHolder := none }
      else
        match dom ("#node-" ++ prev) with
        | Query.raises => eng
        | Query.missing => { eng with lockHolder := none }
        | Query.found =>
          if JsMap.has eng.processes prev then { eng with lockHolder := none } else eng

/-- `animateMutexEvent(eventType, process)`, as far as the fields of the engine
go: nothing for a process that `processes` does not know; `lock_acquired` and
`lock_released` go to the two functions above; `waiting` and `spin_wait` only
draw. -/
def animateMutexEvent (dom : Dom) (eng : VisualizationEngine) (eventType process : String) :
    VisualizationEngine :=
  if JsMap.has eng.processes process then
    if eventType = "lock_acquired" then animateLockAcquisition dom eng process
    else if eventType = "lock_released" then animateLockRelease dom eng
    else eng
  else eng

/-- `_handleEventNow(event)`, as far as the fields of the engine go: the
animator of the ipc type runs, then `updateProcessState`, which only draws. Only
`animateMutexEvent` touches `state.lockHolder`. An exception of the drawing is
not recorded; the fields are those at the moment it was raised. -/
def _handleEventNow (dom : Dom) (eng : VisualizationEngine) (event : Event) :
    VisualizationEngine :=
  let eng := { eng with handled := eng.handled ++ [event] }
  if usesMutexAnimator eng.ipcType then eng.animateMutexEvent dom event.event event.process
  else eng

/-- The period of the playback timer,
`Math.max(20, this.playbackIntervalBase / Math.max(0.1, this.speed))`. -/
def playbackPeriod (speed : ℚ) : ℚ :=
  max 20 (200 / max (1 / 10) speed)

/-- One tick of the playback timer. -/
def playbackTick (dom : Dom) (eng : VisualizationEngine) : VisualizationEngine :=
  if eng.paused then eng
  else
    match eng.eventQueue with
    | [] => eng
    | evt :: rest => _handleEventNow dom { eng with eventQueue := rest } evt

end VisualizationEngine

/-- The rate limit in the words of the specification, for a stream of events of
one `(process, eventType)` pair: `ref` is the time of the last event of the pair
that was appended (0 when there is none); an event at time `t` is kept when
`t - ref` is at least 100 ms and then becomes the reference; a suppressed event
is dropped for good and leaves the reference where it is. -/
def rateLimitKept (ref : Nat) : List (Nat × Event) → List Event
  | [] => []
  | (t, event) :: rest =>
    if (100 : Int) ≤ (t : Int) - (ref : Int) then event :: rateLimitKept t rest
    else rateLimitKept ref rest

/-- The events of a stream that are not `initialized` notifications. -/
def notInitialized (stream : List (Nat × Event)) : List Event :=
  (stream.map Prod.snd).filter (fun event => decide (event.event ≠ "initialized"))

/-- The first match of the regular expression `\d+` in a text: the leftmost
digit and the digits that follow it. -/
def firstDigitRun : List Char → Option (List Char)
  | [] => none
  | c :: rest =>
    if c.isDigit then some (c :: rest.takeWhile Char.isDigit) else firstDigitRun rest

/-- A JavaScript number that is a non-negative integer or `Infinity`: the
values `parseInt` returns for a run of decimal digits. -/
inductive Count where
  | finite (value : Nat)
  | infinity
deriving DecidableEq, Repr

/-- The number of binary digits of `n`, by halving at most `fuel` times. -/
def bitLengthAux : Nat → Nat → Nat
  | 0, _ => 0
  | fuel + 1, n => if n = 0 then 0 else bitLengthAux fuel (n / 2) + 1

/-- The number of binary digits of `n`. -/
def bitLength (n : Nat) : Nat := bitLengthAux n n

/-- The double-precision number nearest to the natural number `n`, ties to the
even significand: `n` itself below 2^53; above, `n` is cut to its 53 leading
binary digits and rounded; `Infinity` when the result reaches 2^1024. -/
def toDouble (n : Nat) : Count :=
  if n < 2 ^ 53 then Count.finite n
  else
    let e := bitLength n - 53
    let q := n / 2 ^ e
    let r := n % 2 ^ e
    let q := if 2 * r < 2 ^ e then q else if 2 * r = 2 ^ e ∧ q % 2 = 0 then q else q + 1
    if q * 2 ^ e < 2 ^ 1024 then Count.finite (q * 2 ^ e) else Count.infinity

/-- `parseInt` of a run of decimal digits: the integer the digits denote, as a
JavaScript number, that is rounded to the nearest double. (ECMAScript lets an
implementation replace the digits after the twentieth by zeros before rounding;
V8 rounds the exact value.) -/
def parseInt (digits : List Char) : Count :=
  toDouble (digits.foldl (fun acc c => 10 * acc + (c.toNat - '0'.toNat)) 0)

/-- The value of `newCount` in `animateSemaphoreEvent`:
`countMatch ? parseInt(countMatch[0]) : 0` with `countMatch = detail?.match(..)`;
`none` is a missing detail. -/
def newCount (detail : Option String) : Count :=
  match detail with
  | none => Count.finite 0
  | some text =>
    match firstDigitRun text.toList with
    | some digits => parseInt digits
    | none => Count.finite 0

/-- `animateSemaphoreEvent(eventType, process, detail)`: the number whose text
the counter shows when the animation completes, if any. `display` and `textEl`
tell whether the two elements of the semaphore display exist. -/
def animateSemaphoreEvent (display textEl : Bool) (eventType : String)
    (detail : Option String) : Option Count :=
  if !display then none
  else if eventType = "semaphore_wait" ∧ textEl then some (newCount detail)
  else none

/-- The count in the words of the specification: the integer value of the
leftmost maximal run of decimal digits of the text, 0 when the text is absent or
has no digit. -/
def leftmostCount (detail : Option String) : Nat :=
  match detail with
  | none => 0
  | some text =>
    Nat.ofDigits 10
      (((text.toList.dropWhile (fun c => !c.isDigit)).takeWhile Char.isDigit).reverse.map
        (fun c => c.toNat - '0'.toNat))

end Visualization

/-! ## `visualization_engine.js`: the exported engine and the event player -/

namespace VizEngine

/-- The `playbackState` of the exported engine. -/
inductive PlaybackState where
  | paused
  | playing
  | stopped
deriving DecidableEq, Repr

/-- An entry of `eventQueue`: an action, identified by a number, with its delay;
`throws` tells whether running the action ends with an exception. -/
structure QueuedAction where
  id : Nat
  throws : Bool
  delay : ℚ
deriving DecidableEq, Repr

/-- The playback fields of the exported `VisualizationEngine`. `simulationTimer`
is the entry whose timeout is pending, `ran` lists the actions run so far. -/
structure VisualizationEngine where
  eventQueue : List QueuedAction
  simulationTimer : Option QueuedAction
  playbackState : PlaybackState
  speed : ℚ
  ran : List Nat
deriving DecidableEq, Repr

namespace VisualizationEngine

/-- The playback fields set by the constructor. -/
def new : VisualizationEngine :=
  { eventQueue := [], simulationTimer := none, playbackState := PlaybackState.paused,
    speed := 1, ran := [] }

/-- `addEvent(action, delay)`. -/
def addEvent (eng : VisualizationEngine) (action : QueuedAction) : VisualizationEngine :=
  { eng with eventQueue := eng.eventQueue ++ [action] }

/-- `pause()`: the pending timeout, if any, is cleared. -/
def pause (eng : VisualizationEngine) : VisualizationEngine :=
  { eng with playbackState := PlaybackState.paused, simulationTimer := none }

/-- `processNextEvent()`: when playing with a non-empty queue, the head is taken
out of the queue and a timeout is created for it. -/
def processNextEvent (eng : VisualizationEngine) : VisualizationEngine :=
  match eng.eventQueue with
  | [] => { eng with playbackState := PlaybackState.stopped }
  | ev :: rest =>
    if eng.playbackState = PlaybackState.playing then
      { eng with eventQueue := rest, simulationTimer := some ev }
    else eng

/-- `play()`. -/
def play (eng : VisualizationEngine) : VisualizationEngine :=
  if eng.playbackState = PlaybackState.playing then eng
  else processNextEvent { eng with playbackState := PlaybackState.playing }

/-- The callback of the pending timeout: the action runs; then
`processNextEvent`, or `pause()` in the `catch` when the action threw. -/
def timerFires (eng : VisualizationEngine) : VisualizationEngine :=
  match eng.simulationTimer with
  | none => eng
  | some ev =>
    if ev.throws then
      pause { eng with simulationTimer := none, ran := eng.ran ++ [ev.id] }
    else
      processNextEvent { eng with simulationTimer := none, ran := eng.ran ++ [ev.id] }

/-- What happens to the engine. -/
inductive Action where
  | addEvent (action : QueuedAction)
  | play
  | pause
  | timerFires
deriving DecidableEq, Repr

/-- One action. -/
def step (eng : VisualizationEngine) : Action → VisualizationEngine
  | Action.addEvent action => eng.addEvent action
  | Action.play => eng.play
  | Action.pause => eng.pause
  | Action.timerFires => eng.timerFires

/-- A sequence of actions, in order. -/
def run (eng : VisualizationEngine) : List Action → VisualizationEngine
  | [] => eng
  | a :: rest => run (eng.step a) rest

end VisualizationEngine

/-- `EventPlayer`: the queue, the flag, the speed and whether a timeout is
pending. -/
structure EventPlayer where
  queue : List Event
  isPlaying : Bool
  speed : ℚ
  timer : Bool
deriving DecidableEq, Repr

/-- `EventPlayer.setSpeed(speed)`. -/
def EventPlayer.setSpeed (player : EventPlayer) (speed : ℚ) : EventPlayer :=
  { player with speed := max (1 / 10) speed }

end VizEngine

/-! ## Concrete inputs used in the examples -/

namespace Sample

/-- The first event of the end-to-end scenario. -/
def acquired : Event :=
  { event := "lock_acquired", process := "parent", detail := "", timestamp := 1 }

/-- The second event of the end-to-end scenario. -/
def released : Event :=
  { event := "lock_released", process := "parent", detail := "", timestamp := 2 }

/-- A lock event of a process whose name contains a blank. -/
def workerAcquired : Event :=
  { event := "lock_acquired", process := "worker 1", detail := "", timestamp := 1 }

/-- The lookups of a browser document, as far as the examples need them:
`#node-worker 1` and `#lock-line-worker 1` are no valid selectors (after the
blank a type selector is expected, and `1` is none) and raise a `SyntaxError`;
the elements of the other names exist. -/
def document : Visualization.Dom := fun selector =>
  if selector = "#node-worker 1" ∨ selector = "#lock-line-worker 1" then
    Visualization.Query.raises
  else Visualization.Query.found

/-- A third event. -/
def waiting : Event :=
  { event := "waiting", process := "child", detail := "", timestamp := 3 }

/-- A popup at speed 1 whose module handles every event. -/
def popup : Popup := Popup.loaded "popup-1" "mutex" (fun _ => Outcome.returnsTrue)

/-- A popup whose module leaves every event unhandled (its `handleEvent` returns
nothing). -/
def popupUnhandled : Popup := Popup.loaded "popup-1" "mutex" (fun _ => Outcome.returnsOther)

/-- A popup whose module throws on every event. -/
def popupThrowing : Popup := Popup.loaded "popup-1" "mutex" (fun _ => Outcome.throws)

end Sample

namespace WebSocketManager

/-- The popup ids the callbacks of a list unregister, in order of invocation. -/
def unregisteredIds (unregisters : Callback → List PopupId) : List Callback → List PopupId
  | [] => []
  | cb :: rest => unregisters cb ++ unregisteredIds unregisters rest

end WebSocketManager
/-! ## Lemmas on `JsMap` -/

namespace JsMap

variable {κ ν : Type} [DecidableEq κ]

theorem has_eq_isSome (m : JsMap κ ν) (k : κ) : has m k = (get m k).isSome := by
  induction m with
  | nil => rfl
  | cons p rest ih =>
    obtain ⟨k', v'⟩ := p
    by_cases h : k' = k <;> simp [has, get, h, ih]

theorem get_eq_none_of_has_false {m : JsMap κ ν} {k : κ} (h : has m k = false) :
    get m k = none := by
  rw [has_eq_isSome] at h
  cases hg : get m k with
  | none => rfl
  | some v => simp [hg] at h

theorem get_set_self (m : JsMap κ ν) (k : κ) (v : ν) : get (set m k v) k = some v := by
  induction m with
  | nil => simp [set, get]
  | cons p rest ih =>
    obtain ⟨k', v'⟩ := p
    by_cases h : k' = k <;> simp [set, get, h, ih]

theorem get_set_of_ne (m : JsMap κ ν) {k k' : κ} (v : ν) (h : k' ≠ k) :
    get (set m k v) k' = get m k' := by
  induction m with
  | nil => simp [set, get, Ne.symm h]
  | cons p rest ih =>
    obtain ⟨k₀, v₀⟩ := p
    by_cases h₀ : k₀ = k
    · subst h₀
      simp [set, get, Ne.symm h]
    · by_cases h₁ : k₀ = k'
      · subst h₁
        simp [set, get, h₀]
      · simp [set, get, h₀, h₁, ih]

theorem get_delete_self (m : JsMap κ ν) (k : κ) : get (delete m k) k = none := by
  induction m with
  | nil => rfl
  | cons p rest ih =>
    obtain ⟨k', v'⟩ := p
    by_cases h : k' = k <;> simp [delete, get, h, ih]

theorem has_delete_self (m : JsMap κ ν) (k : κ) : has (delete m k) k = false := by
  rw [has_eq_isSome, get_delete_self]; rfl

theorem get_delete_of_ne (m : JsMap κ ν) {k k' : κ} (h : k' ≠ k) :
    get (delete m k) k' = get m k' := by
  induction m with
  | nil => rfl
  | cons p rest ih =>
    obtain ⟨k₀, v₀⟩ := p
    by_cases h₀ : k₀ = k
    · subst h₀
      simp [delete, get, Ne.symm h, ih]
    · by_cases h₁ : k₀ = k'
      · subst h₁
        simp [delete, get, h₀]
      · simp [delete, get, h₀, h₁, ih]

theorem delete_eq_filter (m : JsMap κ ν) (k : κ) :
    delete m k = List.filter (fun p => decide (p.1 ≠ k)) m := by
  induction m with
  | nil => rfl
  | cons p rest ih =>
    obtain ⟨k', v'⟩ := p
    by_cases h : k' = k <;> simp [delete, h, ih]

theorem delete_of_has_false {m : JsMap κ ν} {k : κ} (h : has m k = false) :
    delete m k = m := by
  induction m with
  | nil => rfl
  | cons p rest ih =>
    obtain ⟨k', v'⟩ := p
    by_cases h' : k' = k
    · simp [has, h'] at h
    · simp only [has, h', if_false] at h
      simp [delete, h', ih h]

theorem delete_delete (m : JsMap κ ν) (k : κ) : delete (delete m k) k = delete m k :=
  delete_of_has_false (has_delete_self m k)

end JsMap

/-! ## Lemmas on the router -/

namespace JsMap

variable {κ ν : Type} [DecidableEq κ]

/-- The idiom `if (!m.has(k)) m.set(k, d)` followed by a lookup. -/
theorem get_ensure (m : JsMap κ ν) (k k' : κ) (d : ν) :
    get (if has m k then m else set m k d) k' =
      if k' = k then some ((get m k).getD d) else get m k' := by
  by_cases hk : k' = k
  · subst hk
    cases hh : has m k' with
    | true =>
      rw [has_eq_isSome] at hh
      obtain ⟨v, hv⟩ := Option.isSome_iff_exists.mp hh
      simp [hv]
    | false =>
      simp [get_set_self, get_eq_none_of_has_false hh]
  · cases hh : has m k with
    | true => simp [hk]
    | false => simp [hk, get_set_of_ne m d hk]

end JsMap

namespace WebSocketManager

theorem forEachCall_prefix (raises : Callback → Message → Bool) (m : Message)
    (cbs : List Callback) : ∃ rest, cbs = (forEachCall raises m cbs).1 ++ rest := by
  induction cbs with
  | nil => exact ⟨[], rfl⟩
  | cons c rest ih =>
    obtain ⟨r, hr⟩ := ih
    by_cases hc : raises c m = true
    · exact ⟨rest, by simp [forEachCall, hc]⟩
    · refine ⟨r, ?_⟩
      simp only [forEachCall, hc, Bool.false_eq_true, if_false, List.cons_append]
      rw [← hr]

/-- The callbacks a `forEach` loop invokes: those before the first one that
raises, and that one. -/
theorem forEachCall_fst (raises : Callback → Message → Bool) (m : Message)
    (cbs : List Callback) :
    (forEachCall raises m cbs).1 =
      cbs.takeWhile (fun c => !raises c m) ++ (cbs.dropWhile (fun c => !raises c m)).take 1 := by
  induction cbs with
  | nil => rfl
  | cons c rest ih =>
    by_cases hc : raises c m = true
    · simp [forEachCall, hc, List.takeWhile, List.dropWhile]
    · simp only [Bool.not_eq_true] at hc
      simp [forEachCall, hc, List.takeWhile, List.dropWhile, ih]

theorem forEachCall_of_no_raise (raises : Callback → Message → Bool) (m : Message)
    (cbs : List Callback) (h : ∀ c ∈ cbs, raises c m = false) :
    forEachCall raises m cbs = (cbs, false) := by
  induction cbs with
  | nil => rfl
  | cons c rest ih =>
    have hc : raises c m = false := h c (List.mem_cons_self _ _)
    have hrest := ih (fun c' hc' => h c' (List.mem_cons_of_mem _ hc'))
    simp [forEachCall, hc, hrest]

theorem forEachCall_raised_iff (raises : Callback → Message → Bool) (m : Message)
    (cbs : List Callback) :
    (forEachCall raises m cbs).2 = true ↔ ∃ c ∈ cbs, raises c m = true := by
  induction cbs with
  | nil => simp [forEachCall]
  | cons c rest ih =>
    by_cases hc : raises c m = true
    · simp [forEachCall, hc]
    · simp [forEachCall, hc, ih]

theorem forEachCall_mem (raises : Callback → Message → Bool) (m : Message)
    (cbs : List Callback) (c : Callback) (h : c ∈ (forEachCall raises m cbs).1) : c ∈ cbs := by
  obtain ⟨r, hr⟩ := forEachCall_prefix raises m cbs
  rw [hr]
  exact List.mem_append_left _ h

theorem routed_eq_handlersOf (ws : WebSocketManager) (m : Message) (A : PopupId)
    (hm : m.popupId = some A) (hA : A ≠ "") : routed ws m = handlersOf ws A m.type := by
  unfold routed handlersOf
  rw [hm]
  cases hg : JsMap.get ws.popupHandlers A with
  | none =>
    have : JsMap.has ws.popupHandlers A = false := by rw [JsMap.has_eq_isSome, hg]; rfl
    simp [this]
  | some pl =>
    have hh : JsMap.has ws.popupHandlers A = true := by rw [JsMap.has_eq_isSome, hg]; rfl
    cases hg2 : JsMap.get pl m.type with
    | none =>
      have : JsMap.has pl m.type = false := by rw [JsMap.has_eq_isSome, hg2]; rfl
      simp [truthyId, hA, hh, hg, this, hg2]
    | some cbs =>
      have : JsMap.has pl m.type = true := by rw [JsMap.has_eq_isSome, hg2]; rfl
      simp [truthyId, hA, hh, hg, this, hg2]

theorem routed_of_falsy (ws : WebSocketManager) (m : Message)
    (h : truthyId m.popupId = false) : routed ws m = [] := by
  unfold routed
  cases hp : m.popupId with
  | none => rfl
  | some id =>
    rw [hp] at h
    simp [h]

theorem routed_of_no_entry (ws : WebSocketManager) (m : Message)
    (h : ∀ id, m.popupId = some id → JsMap.has ws.popupHandlers id = false) :
    routed ws m = [] := by
  unfold routed
  cases hp : m.popupId with
  | none => rfl
  | some id => simp [h id hp]

theorem handlersOf_registerPopupHandler (ws : WebSocketManager) (p : PopupId) (t : EventType)
    (cb : Callback) (p' : PopupId) (t' : EventType) :
    handlersOf (registerPopupHandler ws p t cb) p' t' =
      if p' = p ∧ t' = t then handlersOf ws p t ++ [cb] else handlersOf ws p' t' := by
  unfold handlersOf registerPopupHandler
  simp only []
  by_cases hp : p' = p
  · subst hp
    rw [JsMap.get_set_self]
    simp only [Option.some_bind, JsMap.get_ensure, if_true, Option.getD_some]
    by_cases ht : t' = t
    · subst ht
      rw [JsMap.get_set_self]
      cases hg : JsMap.get ws.popupHandlers p' <;> simp [JsMap.get]
    · rw [JsMap.get_set_of_ne _ _ ht, JsMap.get_ensure]
      cases hg : JsMap.get ws.popupHandlers p' <;> simp [ht, JsMap.get]
  · rw [JsMap.get_set_of_ne _ _ hp, JsMap.get_ensure]
    simp [hp]

theorem handlersOf_registerAll (ws : WebSocketManager)
    (ops : List (PopupId × EventType × Callback)) (p : PopupId) (t : EventType) :
    handlersOf (registerAll ws ops) p t =
      handlersOf ws p t ++
        (ops.filter (fun o => decide (o.1 = p ∧ o.2.1 = t))).map (fun o => o.2.2) := by
  induction ops generalizing ws with
  | nil => simp [registerAll]
  | cons o rest ih =>
    obtain ⟨p₀, t₀, c₀⟩ := o
    rw [registerAll, ih, handlersOf_registerPopupHandler]
    by_cases h : p = p₀ ∧ t = t₀
    · obtain ⟨h1, h2⟩ := h
      subst h1; subst h2
      simp
    · have h' : ¬ (p₀ = p ∧ t₀ = t) := fun hh => h ⟨hh.1.symm, hh.2.symm⟩
      simp [h, h']

theorem handlersOf_unregister_of_ne (ws : WebSocketManager) {A B : PopupId} (h : A ≠ B)
    (t : EventType) : handlersOf (unregisterPopupHandlers ws B) A t = handlersOf ws A t := by
  unfold handlersOf unregisterPopupHandlers
  simp only []
  rw [JsMap.get_delete_of_ne _ h]

end WebSocketManager

namespace WebSocketManager

theorem popupHandlers_onEvent (ws ws' : WebSocketManager) (t : EventType) (cb : Callback)
    (h : onEvent ws t cb = Except.ok ws') : ws'.popupHandlers = ws.popupHandlers := by
  unfold onEvent at h
  cases hs : ws.listenersAt t <;> rw [hs] at h <;> simp at h <;> rw [← h]

theorem popupHandlers_onAll (ws : WebSocketManager) (ons : List (EventType × Callback)) :
    (onAll ws ons).popupHandlers = ws.popupHandlers := by
  induction ons generalizing ws with
  | nil => rfl
  | cons o rest ih =>
    obtain ⟨t, cb⟩ := o
    unfold onAll
    cases h : onEvent ws t cb with
    | error e => exact ih ws
    | ok ws' => exact (ih ws').trans (popupHandlers_onEvent ws ws' t cb h)

theorem listeners_registerAll (ws : WebSocketManager)
    (ops : List (PopupId × EventType × Callback)) :
    (registerAll ws ops).listeners = ws.listeners := by
  induction ops generalizing ws with
  | nil => rfl
  | cons o rest ih =>
    obtain ⟨p, t, c⟩ := o
    rw [registerAll, ih]
    rfl

theorem listenersOf_of_not_inherited (ws : WebSocketManager) (t : EventType)
    (ht : t ∉ objectPrototypeKeys) : listenersOf ws t = (JsMap.get ws.listeners t).getD [] := by
  unfold listenersOf listenersAt
  cases JsMap.get ws.listeners t <;> simp [ht]

theorem listeners_onEvent_ok (ws : WebSocketManager) (t : EventType) (cb : Callback)
    (ht : t ∉ objectPrototypeKeys) :
    ∃ ws', onEvent ws t cb = Except.ok ws' ∧
      ws'.listeners = JsMap.set ws.listeners t ((JsMap.get ws.listeners t).getD [] ++ [cb]) := by
  unfold onEvent listenersAt
  cases JsMap.get ws.listeners t <;> simp [ht]

theorem get_listeners_onEvent_of_ne (ws ws' : WebSocketManager) (t t' : EventType)
    (cb : Callback) (hne : t' ≠ t) (h : onEvent ws t cb = Except.ok ws') :
    JsMap.get ws'.listeners t' = JsMap.get ws.listeners t' := by
  unfold onEvent at h
  cases hs : ws.listenersAt t <;> rw [hs] at h <;> simp at h <;> rw [← h] <;>
    exact JsMap.get_set_of_ne _ _ hne

theorem listenersOf_onAll (ws : WebSocketManager) (ons : List (EventType × Callback))
    (t : EventType) (ht : t ∉ objectPrototypeKeys) :
    listenersOf (onAll ws ons) t =
      listenersOf ws t ++ (ons.filter (fun o => decide (o.1 = t))).map (fun o => o.2) := by
  induction ons generalizing ws with
  | nil => simp [onAll]
  | cons o rest ih =>
    obtain ⟨t₀, cb⟩ := o
    by_cases h : t₀ = t
    · subst h
      obtain ⟨ws', hok, hl⟩ := listeners_onEvent_ok ws t₀ cb ht
      have hstep : onAll ws ((t₀, cb) :: rest) = onAll ws' rest := by
        simp only [onAll, hok]
      rw [hstep, ih ws', listenersOf_of_not_inherited ws' t₀ ht,
        listenersOf_of_not_inherited ws t₀ ht, hl, JsMap.get_set_self]
      simp
    · have hne : t ≠ t₀ := fun hh => h hh.symm
      cases hok : onEvent ws t₀ cb with
      | error e =>
        have hstep : onAll ws ((t₀, cb) :: rest) = onAll ws rest := by
          simp only [onAll, hok]
        rw [hstep, ih ws]
        simp [h]
      | ok ws' =>
        have hstep : onAll ws ((t₀, cb) :: rest) = onAll ws' rest := by
          simp only [onAll, hok]
        rw [hstep, ih ws', listenersOf_of_not_inherited ws' t ht,
          listenersOf_of_not_inherited ws t ht,
          get_listeners_onEvent_of_ne ws ws' t₀ t cb hne hok]
        simp [h]

theorem routed_congr (ws ws' : WebSocketManager) (m : Message)
    (h : ws'.popupHandlers = ws.popupHandlers) : routed ws' m = routed ws m := by
  unfold routed
  rw [h]

theorem emit_congr (raises : Callback → Message → Bool) (ws ws' : WebSocketManager)
    (t : EventType) (m : Message) (h : ws'.listeners = ws.listeners) :
    emit raises ws' t m = emit raises ws t m := by
  unfold emit listenersAt
  rw [h]

theorem handleMessage_congr (raises : Callback → Message → Bool) (ws ws' : WebSocketManager)
    (m : Message) (hr : routed ws' m = routed ws m) (hl : ws'.listeners = ws.listeners) :
    (handleMessage raises ws' m).2 = (handleMessage raises ws m).2 := by
  unfold handleMessage
  rw [hr, emit_congr raises ws ws' m.type m hl]
  by_cases h : (forEachCall raises m (routed ws m)).2 = true <;> simp [h]

theorem popupCalls_handleMessage (raises : Callback → Message → Bool) (ws : WebSocketManager)
    (m : Message) :
    (handleMessage raises ws m).2.popupCalls =
      (forEachCall raises m (routed ws m)).1.map (fun cb => (cb, m)) := by
  unfold handleMessage
  by_cases h : (forEachCall raises m (routed ws m)).2 = true <;> simp [h]

theorem handleMessage_of_routed_ok (raises : Callback → Message → Bool) (ws : WebSocketManager)
    (m : Message) (h : (forEachCall raises m (routed ws m)).2 = false) :
    (handleMessage raises ws m).2.globalCalls =
        (emit raises ws m.type m).1.map (fun cb => (cb, m)) ∧
      (handleMessage raises ws m).2.raised = (emit raises ws m.type m).2 := by
  unfold handleMessage
  simp [h]

theorem emit_eq_forEachCall (raises : Callback → Message → Bool) (ws : WebSocketManager)
    (t : EventType) (m : Message) :
    (emit raises ws t m).1 = (forEachCall raises m (listenersOf ws t)).1 := by
  unfold emit listenersOf
  cases ws.listenersAt t <;> simp [forEachCall]

theorem emit_raised_iff (raises : Callback → Message → Bool) (ws : WebSocketManager)
    (t : EventType) (m : Message) :
    (emit raises ws t m).2 = true ↔
      (ws.listenersAt t = Slot.inherited ∨ ∃ g ∈ listenersOf ws t, raises g m = true) := by
  unfold emit listenersOf
  cases ws.listenersAt t <;> simp [forEachCall, forEachCall_raised_iff]

end WebSocketManager

/-! ## Lemmas on the popup -/

namespace Popup

theorem deliveredIn_append (xs ys : List Effect) :
    deliveredIn (xs ++ ys) = deliveredIn xs ++ deliveredIn ys := by
  simp [deliveredIn, List.filterMap_append]

theorem deliveredIn_nil : deliveredIn [] = [] := rfl

theorem deliveredIn_cons (e : Effect) (es : List Effect) :
    deliveredIn (e :: es) =
      (match e with
        | Effect.vizEventHandler ev => [ev]
        | _ => []) ++ deliveredIn es := by
  cases e <;> simp [deliveredIn]

theorem deliveredIn_callVizEventHandler (p : Popup) (binding : Binding) (ev : Event) :
    deliveredIn (p.callVizEventHandler binding ev).1 = [ev] := by
  unfold callVizEventHandler
  cases binding with
  | handleEvent => cases p.viz.bind VizModule.handleEvent <;> simp [deliveredIn]
  | processEvent => cases p.viz.bind VizModule.processEvent <;> simp [deliveredIn]
  | engine => simp [deliveredIn]
  | noop => simp [deliveredIn]

theorem deliveredIn_releaseCall (p : Popup) (binding : Binding) (ev : Event)
    (hb : p.vizEventHandler = some binding) : deliveredIn (p.releaseCall ev) = [ev] := by
  unfold releaseCall
  rw [hb]
  exact deliveredIn_callVizEventHandler p binding ev

theorem deliveredIn_moduleCall (p : Popup) (binding : Binding) (ev : Event)
    (hb : p.vizEventHandler = some binding) : deliveredIn (p.moduleCall ev).1 = [ev] := by
  unfold moduleCall
  rw [hb]
  exact deliveredIn_callVizEventHandler p binding ev

theorem deliveredIn_proxyEnqueueEvent (p : Popup) (ev : Event) :
    deliveredIn (p.proxyEnqueueEvent ev).1 = [] := by
  unfold proxyEnqueueEvent
  cases p.viz.bind VizModule.handleEvent <;> simp [deliveredIn]

theorem deliveredIn_devLog (p : Popup) (ev : Event) : deliveredIn (p.devLog ev) = [] := by
  unfold devLog
  by_cases h : p.hasDevPanel = true <;> simp [h, deliveredIn]

theorem run_append (p : Popup) (as bs : List Action) :
    run p (as ++ bs) = run (run p as) bs := by
  induction as generalizing p with
  | nil => rfl
  | cons a rest ih => simp [run, ih]

theorem arrivals_append (as bs : List Action) :
    arrivals (as ++ bs) = arrivals as ++ arrivals bs := by
  induction as with
  | nil => rfl
  | cons a rest ih => cases a <;> simp [arrivals, ih]

theorem map_ev_scheduleFrom (now delay : ℚ) (idx : Nat) (es : List Event) :
    (scheduleFrom now delay idx es).map Timer.ev = es := by
  induction es generalizing idx with
  | nil => rfl
  | cons e rest ih => simp [scheduleFrom, ih]

theorem length_scheduleFrom (now delay : ℚ) (idx : Nat) (es : List Event) :
    (scheduleFrom now delay idx es).length = es.length := by
  induction es generalizing idx with
  | nil => rfl
  | cons e rest ih => simp [scheduleFrom, ih]

theorem nextTimer_mem {ts : List Timer} {t : Timer} (h : nextTimer ts = some t) : t ∈ ts := by
  induction ts generalizing t with
  | nil => simp [nextTimer] at h
  | cons a rest ih =>
    unfold nextTimer at h
    cases hn : nextTimer rest with
    | none =>
      rw [hn] at h
      simp at h
      simp [h]
    | some u =>
      rw [hn] at h
      by_cases hle : a.due ≤ u.due
      · simp [hle] at h
        simp [h]
      · simp [hle] at h
        subst h
        exact List.mem_cons_of_mem _ (ih hn)

theorem nextTimer_isSome_of_ne_nil {ts : List Timer} (h : ts ≠ []) :
    ∃ t, nextTimer ts = some t := by
  cases ts with
  | nil => exact absurd rfl h
  | cons a rest =>
    unfold nextTimer
    cases nextTimer rest with
    | none => exact ⟨a, rfl⟩
    | some u =>
      by_cases hle : a.due ≤ u.due
      · exact ⟨a, by simp [hle]⟩
      · exact ⟨u, by simp [hle]⟩

/-- The fields of the state after an event arrived while paused. -/
theorem handleEvent_paused (p : Popup) (ev : Event) (hp : p.isPaused = true)
    (hs : p.stepMode = false) :
    (p.handleEvent ev).1 =
      { p with events := p.events ++ [ev],
               pendingEvents := p.pendingEvents ++ [ev],
               history := addToHistory p.history ev,
               effects := p.effects ++ [Effect.updateEventCount, Effect.addEventToHistory ev]
                 ++ p.devLog ev } ∧
    (p.handleEvent ev).2 = false := by
  unfold handleEvent
  simp [hp, hs]

/-- While running with a bound handler, an arriving event is handed over once
and nothing is buffered or scheduled. -/
theorem handleEvent_running (p : Popup) (ev : Event) (binding : Binding)
    (hp : p.isPaused = false) (hb : p.vizEventHandler = some binding) :
    (p.handleEvent ev).1.delivered = p.delivered ++ [ev] ∧
    (p.handleEvent ev).1.pendingEvents = p.pendingEvents ∧
    (p.handleEvent ev).1.timers = p.timers ∧
    (p.handleEvent ev).1.now = p.now ∧
    (p.handleEvent ev).1.isPaused = false ∧
    (p.handleEvent ev).1.speed = p.speed ∧
    (p.handleEvent ev).1.events = p.events ++ [ev] := by
  have hm := deliveredIn_moduleCall p binding ev hb
  have hx := deliveredIn_proxyEnqueueEvent p ev
  have hd := deliveredIn_devLog p ev
  unfold handleEvent
  simp only [hp, Bool.false_and, Bool.false_eq_true, if_false]
  by_cases h1 : (p.moduleCall ev).2 = true
  · by_cases h3 : p.stepMode = true <;>
      simp [h1, h3, hp, delivered, deliveredIn_append, deliveredIn_cons, deliveredIn_nil, hm, hd]
  · by_cases h2 : (p.proxyEnqueueEvent ev).2 = true
    · simp [h1, h2, hp, delivered, deliveredIn_append, deliveredIn_cons, deliveredIn_nil, hm, hx]
    · by_cases h3 : p.stepMode = true <;>
        simp [h1, h2, h3, hp, delivered, deliveredIn_append, deliveredIn_cons, deliveredIn_nil,
          hm, hx, hd]

/-- No action changes the loaded module, the binding or `stepMode`. -/
theorem step_stable (p : Popup) (a : Action) :
    (p.step a).vizEventHandler = p.vizEventHandler ∧ (p.step a).stepMode = p.stepMode ∧
    (p.step a).viz = p.viz := by
  cases a with
  | arrive ev =>
    simp only [step]
    unfold handleEvent
    by_cases h0 : (p.isPaused && !p.stepMode) = true
    · simp [h0]
    · by_cases h1 : (p.moduleCall ev).2 = true
      · simp [h0, h1]
      · by_cases h2 : (p.proxyEnqueueEvent ev).2 = true <;> simp [h0, h1, h2]
  | pauseClick => exact ⟨rfl, rfl, rfl⟩
  | resumeClick =>
    simp only [step, resumeClick, _flushPendingEvents]
    by_cases h : p.pendingEvents = [] <;> simp [h]
  | stepClick =>
    simp only [step, stepClick]
    cases p.pendingEvents <;> simp
  | restartClick => exact ⟨rfl, rfl, rfl⟩
  | speedInput s => exact ⟨rfl, rfl, rfl⟩
  | tick dt =>
    simp only [step, tick]
    by_cases h : 0 ≤ dt <;> simp [h]
  | fire =>
    simp only [step, fire]
    cases hn : nextTimer p.timers with
    | none => exact ⟨rfl, rfl, rfl⟩
    | some t =>
      by_cases h : t.due ≤ p.now <;> simp [h, releaseCallback]

theorem run_stable (p : Popup) (as : List Action) :
    (run p as).vizEventHandler = p.vizEventHandler ∧ (run p as).stepMode = p.stepMode := by
  induction as generalizing p with
  | nil => exact ⟨rfl, rfl⟩
  | cons a rest ih =>
    have h1 := ih (p.step a)
    have h2 := step_stable p a
    exact ⟨h1.1.trans h2.1, h1.2.trans h2.2.1⟩

end Popup

namespace Popup

/-- Everything a popup has received and not lost: delivered, buffered or
scheduled, as a multiset. -/
theorem step_conserves (p : Popup) (a : Action) (binding : Binding)
    (hb : p.vizEventHandler = some binding) (hs : p.stepMode = false) :
    ((p.step a).delivered : Multiset Event) + ((p.step a).held : Multiset Event) =
      (p.delivered : Multiset Event) + (p.held : Multiset Event) +
        (arrivals [a] : Multiset Event) := by
  cases a with
  | arrive ev =>
    by_cases hp : p.isPaused = true
    · have h := (handleEvent_paused p ev hp hs).1
      simp only [step, h, arrivals, delivered, held, deliveredIn_append, deliveredIn_cons,
        deliveredIn_nil, deliveredIn_devLog]
      simp only [← Multiset.coe_add, List.append_nil, List.nil_append]
      abel
    · have hp' : p.isPaused = false := by simpa using hp
      have h := handleEvent_running p ev binding hp' hb
      simp only [step, arrivals, held, h.1, h.2.1, h.2.2.1]
      simp only [← Multiset.coe_add]
      abel
  | pauseClick =>
    simp [step, pauseClick, arrivals, delivered, held, deliveredIn_append, deliveredIn_cons,
      deliveredIn_nil]
  | resumeClick =>
    simp only [step, resumeClick, _flushPendingEvents, arrivals]
    by_cases h : p.pendingEvents = []
    · simp [h, delivered, held, deliveredIn_append, deliveredIn_cons, deliveredIn_nil]
    · simp only [h, if_false, delivered, held, deliveredIn_append, deliveredIn_cons,
        deliveredIn_nil, List.map_append, map_ev_scheduleFrom]
      simp only [← Multiset.coe_add, List.append_nil, List.nil_append, Multiset.coe_nil,
        add_zero]
      abel
  | stepClick =>
    simp only [step, stepClick, arrivals]
    cases hpe : p.pendingEvents with
    | nil =>
      simp [delivered, held, hpe, deliveredIn_append, deliveredIn_cons, deliveredIn_nil]
    | cons e rest =>
      have hr := deliveredIn_releaseCall p binding e hb
      simp only [delivered, held, hpe, deliveredIn_append, deliveredIn_cons, deliveredIn_nil, hr]
      have hcons : ((e :: rest : List Event) : Multiset Event) =
          (([e] : List Event) : Multiset Event) + (rest : Multiset Event) := by
        rw [Multiset.coe_add]
        rfl
      simp only [← Multiset.coe_add, List.append_nil, List.nil_append, Multiset.coe_nil,
        add_zero, hcons]
      abel
  | restartClick =>
    simp [step, restartClick, arrivals, delivered, held, deliveredIn_append, deliveredIn_cons,
      deliveredIn_nil]
  | speedInput s =>
    simp [step, speedInput, arrivals, delivered, held, deliveredIn_append, deliveredIn_cons,
      deliveredIn_nil]
  | tick dt =>
    simp only [step, tick, arrivals]
    by_cases h : 0 ≤ dt <;> simp [h, delivered, held]
  | fire =>
    simp only [step, fire, arrivals]
    cases hn : nextTimer p.timers with
    | none => simp
    | some t =>
      by_cases h : t.due ≤ p.now
      · have hmem := nextTimer_mem hn
        have hperm : (p.timers.map Timer.ev).Perm (t.ev :: (p.timers.erase t).map Timer.ev) :=
          (List.perm_cons_erase hmem).map Timer.ev
        have hr : deliveredIn
            (releaseCall { p with timers := p.timers.erase t } t.ev) = [t.ev] :=
          deliveredIn_releaseCall _ binding t.ev hb
        simp only [h, if_true, releaseCallback, delivered, held, deliveredIn_append,
          deliveredIn_cons, deliveredIn_nil, hr]
        have hm : ((p.timers.map Timer.ev : List Event) : Multiset Event) =
            (([t.ev] : List Event) : Multiset Event) +
              (((p.timers.erase t).map Timer.ev : List Event) : Multiset Event) := by
          rw [Multiset.coe_add]
          exact Multiset.coe_eq_coe.mpr hperm
        simp only [← Multiset.coe_add, List.append_nil, List.nil_append, Multiset.coe_nil,
          add_zero, hm]
        abel
      · simp [h]

theorem run_conserves (p : Popup) (as : List Action) (binding : Binding)
    (hb : p.vizEventHandler = some binding) (hs : p.stepMode = false) :
    ((run p as).delivered : Multiset Event) + ((run p as).held : Multiset Event) =
      (p.delivered : Multiset Event) + (p.held : Multiset Event) +
        (arrivals as : Multiset Event) := by
  induction as generalizing p with
  | nil => simp [run, arrivals]
  | cons a rest ih =>
    have hst := step_stable p a
    have h1 := ih (p.step a) (hst.1.trans hb) (hst.2.1.trans hs)
    have h2 := step_conserves p a binding hb hs
    have harr : (arrivals (a :: rest) : Multiset Event) =
        (arrivals [a] : Multiset Event) + (arrivals rest : Multiset Event) := by
      rw [Multiset.coe_add, ← arrivals_append]
      rfl
    rw [run, h1, h2, harr, add_assoc]

end Popup

namespace Popup

/-- While the popup stays paused, arriving events queue up in the pause buffer
in arrival order. -/
theorem run_keepsPaused (p : Popup) (as : List Action) (hp : p.isPaused = true)
    (hs : p.stepMode = false) (hk : ∀ a ∈ as, Action.keepsPaused a = true) :
    (run p as).pendingEvents = p.pendingEvents ++ arrivals as ∧
    (run p as).isPaused = true := by
  induction as generalizing p with
  | nil => simp [run, arrivals, hp]
  | cons a rest ih =>
    have hk' : ∀ a' ∈ rest, Action.keepsPaused a' = true :=
      fun a' ha' => hk a' (List.mem_cons_of_mem _ ha')
    have ha : Action.keepsPaused a = true := hk a (List.mem_cons_self _ _)
    have hst := step_stable p a
    have key : (p.step a).pendingEvents = p.pendingEvents ++ arrivals [a] ∧
        (p.step a).isPaused = true := by
      cases a with
      | arrive ev =>
        have h := (handleEvent_paused p ev hp hs).1
        simp [step, h, arrivals, hp]
      | pauseClick => simp [step, pauseClick, arrivals]
      | resumeClick => simp [Action.keepsPaused] at ha
      | stepClick => simp [Action.keepsPaused] at ha
      | restartClick => simp [step, restartClick, arrivals, hp]
      | speedInput s => simp [step, speedInput, arrivals, hp]
      | tick dt =>
        by_cases h : 0 ≤ dt <;> simp [step, tick, h, arrivals, hp]
      | fire =>
        simp only [step, fire, arrivals]
        cases hn : nextTimer p.timers with
        | none => simp [hp]
        | some t => by_cases h : t.due ≤ p.now <;> simp [h, releaseCallback, hp]
    have h1 := ih (p.step a) key.2 (hst.2.1.trans hs) hk'
    have harr : arrivals (a :: rest) = arrivals [a] ++ arrivals rest := by
      rw [← arrivals_append]
      rfl
    refine ⟨?_, h1.2⟩
    rw [run, h1.1, key.1, harr, List.append_assoc]

/-- Once every pending timeout is due, as many firings as there are timeouts
empty the list. -/
theorem run_fire_drains (n : Nat) (p : Popup) (hn : p.timers.length = n)
    (hdue : ∀ t ∈ p.timers, t.due ≤ p.now) :
    (run p (List.replicate n Action.fire)).timers = [] ∧
    (run p (List.replicate n Action.fire)).pendingEvents = p.pendingEvents := by
  induction n generalizing p with
  | zero =>
    have : p.timers = [] := List.length_eq_zero.mp hn
    simp [run, this]
  | succ k ih =>
    have hne : p.timers ≠ [] := by
      intro h
      rw [h] at hn
      simp at hn
    obtain ⟨t, ht⟩ := nextTimer_isSome_of_ne_nil hne
    have hmem := nextTimer_mem ht
    have hfire : p.fire = releaseCallback { p with timers := p.timers.erase t } t.ev := by
      simp [fire, ht, hdue t hmem]
    have hlen : (p.fire).timers.length = k := by
      rw [hfire]
      simp [releaseCallback, List.length_erase_of_mem hmem, hn]
    have hdue' : ∀ u ∈ (p.fire).timers, u.due ≤ (p.fire).now := by
      rw [hfire]
      intro u hu
      exact hdue u (List.mem_of_mem_erase hu)
    have h := ih p.fire hlen hdue'
    have hpe : (p.fire).pendingEvents = p.pendingEvents := by
      rw [hfire]
      rfl
    simp only [List.replicate_succ, run, step]
    exact ⟨h.1, h.2.trans hpe⟩

theorem nextTimer_scheduleFrom (now delay : ℚ) (hd : 0 < delay) (idx : Nat) (e : Event)
    (es : List Event) :
    nextTimer (scheduleFrom now delay idx (e :: es)) =
      some { due := now + (idx : ℚ) * delay, ev := e } := by
  induction es generalizing idx e with
  | nil => simp [scheduleFrom, nextTimer]
  | cons e' rest ih =>
    have h := ih (idx + 1) e'
    rw [scheduleFrom, nextTimer, h]
    have hle : now + (idx : ℚ) * delay ≤ now + ((idx + 1 : ℕ) : ℚ) * delay := by
      push_cast
      nlinarith
    simp only [hle, if_true]

theorem due_scheduleFrom_le (now delay : ℚ) (hd : 0 ≤ delay) (idx : Nat) (es : List Event) :
    ∀ t ∈ scheduleFrom now delay idx es,
      t.due ≤ now + ((idx + es.length : ℕ) : ℚ) * delay := by
  induction es generalizing idx with
  | nil => simp [scheduleFrom]
  | cons e rest ih =>
    intro t ht
    simp only [scheduleFrom, List.mem_cons] at ht
    rcases ht with h | h
    · subst h
      simp only [List.length_cons]
      push_cast
      nlinarith [Nat.cast_nonneg (α := ℚ) rest.length, Nat.cast_nonneg (α := ℚ) idx]
    · have := ih (idx + 1) t h
      simp only [List.length_cons]
      have hcast : ((idx + 1 + rest.length : ℕ) : ℚ) = ((idx + (rest.length + 1) : ℕ) : ℚ) := by
        push_cast
        ring
      rw [← hcast]
      exact this

/-- The timeouts of one flush, once due, release their events in the order of
the buffer. -/
theorem run_fire_in_order (es : List Event) (p : Popup) (binding : Binding) (now delay : ℚ)
    (idx : Nat) (hb : p.vizEventHandler = some binding) (hd : 0 < delay)
    (ht : p.timers = scheduleFrom now delay idx es)
    (hdue : ∀ t ∈ p.timers, t.due ≤ p.now) :
    (run p (List.replicate es.length Action.fire)).delivered = p.delivered ++ es := by
  induction es generalizing p idx with
  | nil => simp [run]
  | cons e rest ih =>
    have hnext := nextTimer_scheduleFrom now delay hd idx e rest
    have hmem : ({ due := now + (idx : ℚ) * delay, ev := e } : Timer) ∈ p.timers := by
      rw [ht]
      simp [scheduleFrom]
    have hfire : p.fire =
        releaseCallback { p with timers := scheduleFrom now delay (idx + 1) rest } e := by
      unfold fire
      rw [ht, hnext]
      have hd' := hdue _ hmem
      simp only [hd', if_true]
      simp [scheduleFrom]
    have hb' : (p.fire).vizEventHandler = some binding := by
      rw [hfire]
      exact hb
    have ht' : (p.fire).timers = scheduleFrom now delay (idx + 1) rest := by
      rw [hfire]
      rfl
    have hdue' : ∀ t ∈ (p.fire).timers, t.due ≤ (p.fire).now := by
      intro t htm
      rw [ht'] at htm
      have hnow : (p.fire).now = p.now := by rw [hfire]; rfl
      rw [hnow]
      apply hdue
      rw [ht]
      simp only [scheduleFrom, List.mem_cons]
      exact Or.inr htm
    have hdel : (p.fire).delivered = p.delivered ++ [e] := by
      rw [hfire]
      have hr : deliveredIn
          (releaseCall { p with timers := scheduleFrom now delay (idx + 1) rest } e) = [e] :=
        deliveredIn_releaseCall _ binding e hb
      simp [releaseCallback, delivered, deliveredIn_append, deliveredIn_cons, deliveredIn_nil, hr]
    have h := ih p.fire (idx + 1) hb' ht' hdue'
    simp only [List.length_cons, List.replicate_succ, run, step]
    rw [h, hdel, List.append_assoc]
    rfl

/-- The pause buffer of a popup that is not paused is empty: only the paused
branch of `handleEvent` fills it, and Resume empties it. -/
theorem buffer_empty_while_running (p : Popup) (as : List Action) (hs : p.stepMode = false)
    (h : p.isPaused = false → p.pendingEvents = []) :
    (run p as).isPaused = false → (run p as).pendingEvents = [] := by
  induction as generalizing p with
  | nil => exact h
  | cons a rest ih =>
    have hst := step_stable p a
    apply ih (p.step a) (hst.2.1.trans hs)
    cases a with
    | arrive ev =>
      by_cases hp : p.isPaused = true
      · have hh := (handleEvent_paused p ev hp hs).1
        intro hrun
        simp only [step, hh] at hrun
        rw [hp] at hrun
        exact absurd hrun (by decide)
      · have hp' : p.isPaused = false := by simpa using hp
        intro _
        cases hv : p.vizEventHandler with
        | some binding =>
          have hh := handleEvent_running p ev binding hp' hv
          simp only [step, hh.2.1]
          exact h hp'
        | none =>
          simp only [step]
          unfold handleEvent
          by_cases h1 : (p.moduleCall ev).2 = true
          · simp [hp', h1, h hp']
          · by_cases h2 : (p.proxyEnqueueEvent ev).2 = true <;> simp [hp', h1, h2, h hp']
    | pauseClick => intro hrun; simp [step, pauseClick] at hrun
    | resumeClick =>
      intro _
      simp only [step, resumeClick, _flushPendingEvents]
      by_cases hpe : p.pendingEvents = [] <;> simp [hpe]
    | stepClick =>
      intro hrun
      simp only [step, stepClick] at hrun
      cases hpe : p.pendingEvents <;> simp [hpe] at hrun
    | restartClick => exact h
    | speedInput s => exact h
    | tick dt =>
      simp only [step, tick]
      by_cases hdt : 0 ≤ dt <;> simp [hdt] <;> exact h
    | fire =>
      simp only [step, fire]
      cases hn : nextTimer p.timers with
      | none => exact h
      | some t => by_cases hdue : t.due ≤ p.now <;> simp [hdue, releaseCallback] <;> exact h

theorem flushDelay_ge (speed : Option ℚ) : 10 ≤ flushDelay speed := by
  unfold flushDelay
  exact le_max_left _ _

end Popup

namespace Popup

theorem getElem?_scheduleFrom (now delay : ℚ) (idx : Nat) (es : List Event) (i : Nat) :
    (scheduleFrom now delay idx es)[i]? =
      (es[i]?).map (fun e => ({ due := now + ((idx + i : ℕ) : ℚ) * delay, ev := e } : Timer)) := by
  induction es generalizing idx i with
  | nil => simp [scheduleFrom]
  | cons e rest ih =>
    cases i with
    | zero => simp [scheduleFrom]
    | succ j =>
      simp only [scheduleFrom, List.getElem?_cons_succ, ih]
      have : idx + 1 + j = idx + (j + 1) := by omega
      rw [this]

theorem trimHistory_eq_drop (l : List Event) : trimHistory l = l.drop (l.length - 50) := by
  induction l with
  | nil => rfl
  | cons e rest ih =>
    unfold trimHistory
    by_cases h : (e :: rest).length > 50
    · simp only [h, if_true, ih]
      have hlen : (e :: rest).length - 50 = (rest.length - 50) + 1 := by
        simp only [List.length_cons] at h ⊢
        omega
      rw [hlen, List.drop_succ_cons]
    · simp only [h, if_false]
      have hlen : (e :: rest).length - 50 = 0 := by omega
      rw [hlen, List.drop_zero]

theorem foldl_addToHistory (evs h : List Event) (hh : h.length ≤ 50) :
    evs.foldl addToHistory h = (h ++ evs).drop ((h ++ evs).length - 50) := by
  induction evs generalizing h with
  | nil =>
    have : (h ++ ([] : List Event)).length - 50 = 0 := by simp; omega
    rw [this]
    simp
  | cons e rest ih =>
    have hlen : (addToHistory h e).length ≤ 50 := by
      unfold addToHistory
      rw [trimHistory_eq_drop]
      simp only [List.length_drop, List.length_append, List.length_singleton]
      omega
    rw [List.foldl_cons, ih _ hlen]
    unfold addToHistory
    rw [trimHistory_eq_drop]
    have hk : (h ++ [e]).length - 50 ≤ (h ++ [e]).length := Nat.sub_le _ _
    have happ : List.drop ((h ++ [e]).length - 50) (h ++ [e]) ++ rest =
        List.drop ((h ++ [e]).length - 50) (h ++ [e] ++ rest) := by
      rw [List.drop_append_of_le_length hk]
    rw [happ, List.drop_drop]
    have hassoc : h ++ [e] ++ rest = h ++ e :: rest := by simp
    rw [hassoc]
    congr 1
    simp only [List.length_drop, List.length_append, List.length_singleton, List.length_cons,
      List.length_nil]
    omega

/-- The effect of one action on the event log and on the identity of the
popup. -/
theorem step_events (p : Popup) (a : Action) :
    (p.step a).events = arrivalsSinceRestart p.events [a] ∧
    (p.step a).ipcType = p.ipcType ∧ (p.step a).popupId = p.popupId := by
  cases a with
  | arrive ev =>
    simp only [step, arrivalsSinceRestart]
    unfold handleEvent
    by_cases h0 : (p.isPaused && !p.stepMode) = true
    · simp [h0]
    · by_cases h1 : (p.moduleCall ev).2 = true
      · simp [h0, h1]
      · by_cases h2 : (p.proxyEnqueueEvent ev).2 = true <;> simp [h0, h1, h2]
  | pauseClick => exact ⟨rfl, rfl, rfl⟩
  | resumeClick =>
    simp only [step, resumeClick, _flushPendingEvents, arrivalsSinceRestart]
    by_cases h : p.pendingEvents = [] <;> simp [h]
  | stepClick =>
    simp only [step, stepClick, arrivalsSinceRestart]
    cases p.pendingEvents <;> simp
  | restartClick => exact ⟨rfl, rfl, rfl⟩
  | speedInput s => exact ⟨rfl, rfl, rfl⟩
  | tick dt =>
    simp only [step, tick, arrivalsSinceRestart]
    by_cases h : 0 ≤ dt <;> simp [h]
  | fire =>
    simp only [step, fire, arrivalsSinceRestart]
    cases hn : nextTimer p.timers with
    | none => exact ⟨rfl, rfl, rfl⟩
    | some t => by_cases h : t.due ≤ p.now <;> simp [h, releaseCallback]

theorem arrivalsSinceRestart_cons (acc : List Event) (a : Action) (rest : List Action) :
    arrivalsSinceRestart acc (a :: rest) =
      arrivalsSinceRestart (arrivalsSinceRestart acc [a]) rest := by
  cases a <;> simp [arrivalsSinceRestart]

theorem run_events (p : Popup) (as : List Action) :
    (run p as).events = arrivalsSinceRestart p.events as ∧
    (run p as).ipcType = p.ipcType ∧ (run p as).popupId = p.popupId := by
  induction as generalizing p with
  | nil => exact ⟨rfl, rfl, rfl⟩
  | cons a rest ih =>
    have h1 := ih (p.step a)
    have h2 := step_events p a
    refine ⟨?_, h1.2.1.trans h2.2.1, h1.2.2.trans h2.2.2⟩
    rw [run, h1.1, h2.1, ← arrivalsSinceRestart_cons]

end Popup

/-! ## Lemmas on the legacy engine -/

namespace Visualization

namespace VisualizationEngine

theorem enqueueEvent_ipcType (eng : VisualizationEngine) (now : Nat) (event : Option Event) :
    (eng.enqueueEvent now event).ipcType = eng.ipcType ∧
    (eng.enqueueEvent now event).paused = eng.paused := by
  cases event with
  | none => exact ⟨rfl, rfl⟩
  | some ev =>
    unfold enqueueEvent
    by_cases h1 : ev.event = "initialized"
    · simp [h1]
    · by_cases h2 : eng.minInterval ≠ 0 ∧
          (now : Int) - (eng.lastTime (throttleKey ev.process ev.event) : Int)
            < (eng.minInterval : Int)
      · simp only [h1, if_false]
        rw [if_pos h2]
        exact ⟨rfl, rfl⟩
      · simp only [h1, if_false]
        rw [if_neg h2]
        by_cases h3 : ev.process ≠ "" ∧ ev.process ∉ eng.uniqueProcesses
        · rw [if_pos h3]
          exact ⟨rfl, rfl⟩
        · rw [if_neg h3]
          exact ⟨rfl, rfl⟩

/-- An event that passes both guards is appended and becomes the reference of
its key. -/
theorem enqueueEvent_accepted (eng : VisualizationEngine) (now : Nat) (ev : Event)
    (h1 : ev.event ≠ "initialized")
    (h2 : ¬ (eng.minInterval ≠ 0 ∧
      (now : Int) - (eng.lastTime (throttleKey ev.process ev.event) : Int)
        < (eng.minInterval : Int))) :
    (eng.enqueueEvent now (some ev)).eventQueue = eng.eventQueue ++ [ev] ∧
    (eng.enqueueEvent now (some ev)).lastTime (throttleKey ev.process ev.event) = now := by
  unfold enqueueEvent
  simp only [h1, if_false]
  rw [if_neg h2]
  by_cases h3 : ev.process ≠ "" ∧ ev.process ∉ eng.uniqueProcesses
  · rw [if_pos h3]
    simp [lastTime, JsMap.get_set_self]
  · rw [if_neg h3]
    simp [lastTime, JsMap.get_set_self]

theorem enqueueEvent_not_spinlock (eng : VisualizationEngine) (now : Nat) (ev : Event)
    (hs : eng.ipcType ≠ some "spinlock") :
    (eng.enqueueEvent now (some ev)).eventQueue =
      eng.eventQueue ++ (if ev.event = "initialized" then [] else [ev]) := by
  have hmin : eng.minInterval = 0 := by simp [minInterval, hs]
  by_cases h1 : ev.event = "initialized"
  · simp [enqueueEvent, h1]
  · have h2 : ¬ (eng.minInterval ≠ 0 ∧
        (now : Int) - (eng.lastTime (throttleKey ev.process ev.event) : Int)
          < (eng.minInterval : Int)) := by
      simp [hmin]
    rw [(enqueueEvent_accepted eng now ev h1 h2).1]
    simp [h1]

theorem enqueueAll_not_spinlock (eng : VisualizationEngine) (stream : List (Nat × Event))
    (hs : eng.ipcType ≠ some "spinlock") :
    (eng.enqueueAll stream).eventQueue = eng.eventQueue ++ notInitialized stream := by
  induction stream generalizing eng with
  | nil => simp [enqueueAll, notInitialized]
  | cons x rest ih =>
    obtain ⟨t, ev⟩ := x
    have hs' : (eng.enqueueEvent t (some ev)).ipcType ≠ some "spinlock" := by
      rw [(enqueueEvent_ipcType eng t (some ev)).1]
      exact hs
    rw [enqueueAll, ih _ hs', enqueueEvent_not_spinlock eng t ev hs]
    by_cases h1 : ev.event = "initialized" <;> simp [notInitialized, h1]

theorem enqueueAll_spinlock (eng : VisualizationEngine) (stream : List (Nat × Event))
    (process eventType : String) (hs : eng.ipcType = some "spinlock")
    (ht : eventType ≠ "initialized")
    (hpair : ∀ x ∈ stream, x.2.process = process ∧ x.2.event = eventType) :
    (eng.enqueueAll stream).eventQueue =
      eng.eventQueue ++ rateLimitKept (eng.lastTime (throttleKey process eventType)) stream := by
  induction stream generalizing eng with
  | nil => simp [enqueueAll, rateLimitKept]
  | cons x rest ih =>
    obtain ⟨t, ev⟩ := x
    have hx := hpair (t, ev) (List.mem_cons_self _ _)
    have hrest : ∀ y ∈ rest, y.2.process = process ∧ y.2.event = eventType :=
      fun y hy => hpair y (List.mem_cons_of_mem _ hy)
    have hp : ev.process = process := hx.1
    have he : ev.event = eventType := hx.2
    have hmin : eng.minInterval = 100 := by simp [minInterval, hs]
    have h1 : ev.event ≠ "initialized" := by rw [he]; exact ht
    have hs' : (eng.enqueueEvent t (some ev)).ipcType = some "spinlock" := by
      rw [(enqueueEvent_ipcType eng t (some ev)).1]
      exact hs
    rw [enqueueAll, ih _ hs' hrest]
    by_cases hk : (100 : Int) ≤ (t : Int) - (eng.lastTime (throttleKey process eventType) : Int)
    · have h2 : ¬ (eng.minInterval ≠ 0 ∧
          (t : Int) - (eng.lastTime (throttleKey ev.process ev.event) : Int)
            < (eng.minInterval : Int)) := by
        rw [hp, he, hmin]
        push_cast
        omega
      have hacc := enqueueEvent_accepted eng t ev h1 h2
      rw [hp, he] at hacc
      rw [hacc.1, hacc.2]
      simp [rateLimitKept, hk]
    · have h2 : eng.minInterval ≠ 0 ∧
          (t : Int) - (eng.lastTime (throttleKey ev.process ev.event) : Int)
            < (eng.minInterval : Int) := by
        rw [hp, he, hmin]
        push_cast
        omega
      have hsame : eng.enqueueEvent t (some ev) = eng := by
        unfold enqueueEvent
        simp only [h1, if_false]
        rw [if_pos h2]
      rw [hsame]
      simp [rateLimitKept, hk]

/-- `animateLockAcquisition` changes no field but `lockHolder`. -/
theorem animateLockAcquisition_eq (dom : Dom) (eng : VisualizationEngine) (p : String) :
    animateLockAcquisition dom eng p =
      { eng with lockHolder := (animateLockAcquisition dom eng p).lockHolder } := by
  unfold animateLockAcquisition
  generalize dom ("#node-" ++ p) = q
  cases q <;> rfl

/-- `animateLockRelease` changes no field but `lockHolder`. -/
theorem animateLockRelease_eq (dom : Dom) (eng : VisualizationEngine) :
    animateLockRelease dom eng =
      { eng with lockHolder := (animateLockRelease dom eng).lockHolder } := by
  unfold animateLockRelease
  cases eng.lockHolder with
  | none => rfl
  | some prev =>
    simp only []
    generalize dom ("#lock-line-" ++ prev) = q₁
    generalize dom ("#node-" ++ prev) = q₂
    by_cases h1 : prev = "" <;> by_cases h2 : JsMap.has eng.processes prev = true <;>
      cases q₁ <;> cases q₂ <;> simp [h1, h2]

/-- `animateMutexEvent` changes no field but `lockHolder`. -/
theorem animateMutexEvent_eq (dom : Dom) (eng : VisualizationEngine) (t p : String) :
    animateMutexEvent dom eng t p =
      { eng with lockHolder := (animateMutexEvent dom eng t p).lockHolder } := by
  unfold animateMutexEvent
  by_cases h1 : JsMap.has eng.processes p = true
  · by_cases h2 : t = "lock_acquired"
    · simp only [h1, h2, if_true]
      exact animateLockAcquisition_eq dom eng p
    · by_cases h3 : t = "lock_released"
      · simp only [h1, h2, h3, if_true, if_false]
        exact animateLockRelease_eq dom eng
      · simp [h1, h2, h3]
  · simp [h1]

theorem _handleEventNow_eventQueue (dom : Dom) (eng : VisualizationEngine) (ev : Event) :
    (_handleEventNow dom eng ev).eventQueue = eng.eventQueue := by
  unfold _handleEventNow
  simp only []
  by_cases h : usesMutexAnimator eng.ipcType = true
  · rw [if_pos h, animateMutexEvent_eq]
  · rw [if_neg h]

theorem _handleEventNow_handled (dom : Dom) (eng : VisualizationEngine) (ev : Event) :
    (_handleEventNow dom eng ev).handled = eng.handled ++ [ev] := by
  unfold _handleEventNow
  simp only []
  by_cases h : usesMutexAnimator eng.ipcType = true
  · rw [if_pos h, animateMutexEvent_eq]
  · rw [if_neg h]

theorem _handleEventNow_processes (dom : Dom) (eng : VisualizationEngine) (ev : Event) :
    (_handleEventNow dom eng ev).processes = eng.processes ∧
    (_handleEventNow dom eng ev).ipcType = eng.ipcType := by
  unfold _handleEventNow
  simp only []
  by_cases h : usesMutexAnimator eng.ipcType = true
  · rw [if_pos h, animateMutexEvent_eq]
    exact ⟨rfl, rfl⟩
  · rw [if_neg h]
    exact ⟨rfl, rfl⟩

/-- The lock holder follows the lock events of a known process whenever the
selectors built from its name are valid: `lock_acquired` stores the process,
a following `lock_released` stores `null`. An event of any other type leaves
the holder as it is, whatever the lookups do. -/
theorem lockHolder_of_valid_selectors (dom₁ dom₂ : Dom) (eng : VisualizationEngine)
    (process : String) :
    (usesMutexAnimator eng.ipcType = true → JsMap.has eng.processes process = true →
      dom₁ ("#node-" ++ process) ≠ Query.raises →
      dom₂ ("#lock-line-" ++ process) ≠ Query.raises →
      dom₂ ("#node-" ++ process) ≠ Query.raises →
      ∀ (d₁ d₂ : String) (t₁ t₂ : Nat),
        (eng._handleEventNow dom₁
          { event := "lock_acquired", process := process, detail := d₁, timestamp := t₁ }
          ).lockHolder = some process ∧
        ((eng._handleEventNow dom₁
          { event := "lock_acquired", process := process, detail := d₁, timestamp := t₁ }
          )._handleEventNow dom₂
          { event := "lock_released", process := process, detail := d₂, timestamp := t₂ }
          ).lockHolder = none) ∧
    (∀ ev : Event, ev.event ≠ "lock_acquired" → ev.event ≠ "lock_released" →
      (eng._handleEventNow dom₁ ev).lockHolder = eng.lockHolder) := by
  constructor
  · intro h1 h2 hq₁ hq₂ hq₃ d₁ d₂ t₁ t₂
    have hacq : (eng._handleEventNow dom₁
        { event := "lock_acquired", process := process, detail := d₁, timestamp := t₁ }
        ).lockHolder = some process := by
      simp only [_handleEventNow, animateMutexEvent, animateLockAcquisition, h1, h2, if_true]
    refine ⟨hacq, ?_⟩
    have hp := _handleEventNow_processes dom₁ eng
      { event := "lock_acquired", process := process, detail := d₁, timestamp := t₁ }
    generalize eng._handleEventNow dom₁
      { event := "lock_acquired", process := process, detail := d₁, timestamp := t₁ } = eng₁
      at hacq hp
    have h1' : usesMutexAnimator eng₁.ipcType = true := by rw [hp.2]; exact h1
    have h2' : JsMap.has eng₁.processes process = true := by rw [hp.1]; exact h2
    have hne : ("lock_released" : String) ≠ "lock_acquired" := by decide
    simp only [_handleEventNow, animateMutexEvent, h1', h2', hne, if_true, if_false]
    unfold animateLockRelease
    simp only [hacq]
    cases hq : dom₂ ("#lock-line-" ++ process) with
    | raises => exact absurd hq hq₂
    | missing =>
      by_cases he : process = ""
      · simp [he]
      · cases hq' : dom₂ ("#node-" ++ process) with
        | raises => exact absurd hq' hq₃
        | missing => simp [he]
        | found => simp [he, h2']
    | found =>
      by_cases he : process = ""
      · simp [he]
      · cases hq' : dom₂ ("#node-" ++ process) with
        | raises => exact absurd hq' hq₃
        | missing => simp [he]
        | found => simp [he, h2']
  · intro ev h3 h4
    unfold _handleEventNow animateMutexEvent
    by_cases h1 : usesMutexAnimator eng.ipcType = true <;>
      by_cases h2 : JsMap.has eng.processes ev.process = true <;> simp [h1, h2, h3, h4]

end VisualizationEngine

theorem firstDigitRun_eq (l : List Char) :
    firstDigitRun l =
      if l.dropWhile (fun c => !c.isDigit) = [] then none
      else some ((l.dropWhile (fun c => !c.isDigit)).takeWhile Char.isDigit) := by
  induction l with
  | nil => rfl
  | cons c rest ih =>
    by_cases hc : c.isDigit = true
    · simp [firstDigitRun, hc, List.dropWhile, List.takeWhile]
    · simp [firstDigitRun, hc, List.dropWhile, ih]

theorem foldl_digits (ds : List Char) (acc : Nat) :
    ds.foldl (fun acc c => 10 * acc + (c.toNat - '0'.toNat)) acc =
      Nat.ofDigits 10 ((ds.map (fun c => c.toNat - '0'.toNat)).reverse ++ [acc]) := by
  induction ds generalizing acc with
  | nil => simp [Nat.ofDigits]
  | cons c rest ih =>
    rw [List.foldl_cons, ih]
    simp only [List.map_cons, List.reverse_cons, List.append_assoc, List.singleton_append]
    rw [Nat.ofDigits_append, Nat.ofDigits_append]
    simp [Nat.ofDigits]
    ring

theorem parseInt_eq (ds : List Char) :
    parseInt ds =
      toDouble (Nat.ofDigits 10 (ds.reverse.map (fun c => c.toNat - '0'.toNat))) := by
  unfold parseInt
  rw [foldl_digits, Nat.ofDigits_append]
  simp [Nat.ofDigits, List.map_reverse]

theorem toDouble_of_le (n : Nat) (h : n ≤ 2 ^ 53) : toDouble n = Count.finite n := by
  by_cases hlt : n < 2 ^ 53
  · unfold toDouble
    rw [if_pos hlt]
  · have hn : n = 2 ^ 53 := by omega
    subst hn
    decide!

theorem newCount_eq (detail : Option String) :
    newCount detail = toDouble (leftmostCount detail) := by
  cases detail with
  | none => rfl
  | some text =>
    unfold newCount leftmostCount
    simp only []
    rw [firstDigitRun_eq]
    by_cases hd : text.toList.dropWhile (fun c => !c.isDigit) = []
    · rw [if_pos hd, hd]
      rfl
    · rw [if_neg hd]
      exact parseInt_eq _

end Visualization

namespace WebSocketManager

theorem foldl_unregister_popupHandlers (ids : List PopupId) (ws : WebSocketManager) :
    (ids.foldl unregisterPopupHandlers ws).listeners = ws.listeners ∧
    (∀ id ∈ ids, JsMap.has (ids.foldl unregisterPopupHandlers ws).popupHandlers id = false) ∧
    (∀ id, id ∉ ids →
      JsMap.get (ids.foldl unregisterPopupHandlers ws).popupHandlers id =
        JsMap.get ws.popupHandlers id) := by
  induction ids generalizing ws with
  | nil => simp
  | cons a rest ih =>
    have h := ih (unregisterPopupHandlers ws a)
    refine ⟨h.1, ?_, ?_⟩
    · intro id hid
      by_cases hr : id ∈ rest
      · exact h.2.1 id hr
      · have ha : id = a := by
          rcases List.mem_cons.mp hid with h' | h'
          · exact h'
          · exact absurd h' hr
        subst ha
        have hg := h.2.2 id hr
        rw [JsMap.has_eq_isSome, List.foldl_cons, hg]
        simp [unregisterPopupHandlers, JsMap.get_delete_self]
    · intro id hid
      have hne : id ≠ a := fun hh => hid (hh ▸ List.mem_cons_self _ _)
      have hr : id ∉ rest := fun hh => hid (List.mem_cons_of_mem _ hh)
      rw [List.foldl_cons, h.2.2 id hr]
      exact JsMap.get_delete_of_ne _ hne

theorem forEachUnregistering_eq (unregisters : Callback → List PopupId) (ws : WebSocketManager)
    (cbs : List Callback) :
    forEachUnregistering unregisters ws cbs =
      ((unregisteredIds unregisters cbs).foldl unregisterPopupHandlers ws, cbs) := by
  induction cbs generalizing ws with
  | nil => rfl
  | cons cb rest ih =>
    rw [forEachUnregistering, ih]
    simp [unregisteredIds, List.foldl_append]

theorem listenersAt_congr (ws ws' : WebSocketManager) (t : EventType)
    (h : ws'.listeners = ws.listeners) : ws'.listenersAt t = ws.listenersAt t := by
  unfold listenersAt
  rw [h]

theorem attemptReconnects_spec (k : Nat) (ws : WebSocketManager)
    (h : ws.reconnectAttempts ≤ ws.maxReconnectAttempts) :
    (attemptReconnects ws k).reconnectAttempts =
      min (ws.reconnectAttempts + k) ws.maxReconnectAttempts ∧
    (attemptReconnects ws k).reconnectsScheduled =
      ws.reconnectsScheduled +
        (min (ws.reconnectAttempts + k) ws.maxReconnectAttempts - ws.reconnectAttempts) ∧
    (attemptReconnects ws k).maxReconnectAttempts = ws.maxReconnectAttempts := by
  induction k generalizing ws with
  | zero =>
    refine ⟨?_, ?_, rfl⟩
    · simp only [attemptReconnects, Nat.add_zero]
      omega
    · simp only [attemptReconnects, Nat.add_zero]
      omega
  | succ n ih =>
    unfold attemptReconnects
    by_cases hlt : ws.reconnectAttempts < ws.maxReconnectAttempts
    · have h' := ih (attemptReconnect ws) (by simp [attemptReconnect, hlt]; omega)
      simp only [attemptReconnect, hlt, if_true] at h' ⊢
      refine ⟨?_, ?_, h'.2.2⟩
      · rw [h'.1]; omega
      · rw [h'.2.1]; omega
    · have h' := ih (attemptReconnect ws) (by simp [attemptReconnect, hlt]; omega)
      simp only [attemptReconnect, hlt, if_false] at h' ⊢
      refine ⟨?_, ?_, h'.2.2⟩
      · rw [h'.1]; omega
      · rw [h'.2.1]; omega

theorem onclose_of_no_raise (raises : Callback → Message → Bool) (ws : WebSocketManager)
    (h : ∀ g ∈ listenersOf ws "disconnected", raises g (lifecycle "disconnected") = false) :
    (onclose raises ws).1 = attemptReconnect (setReadyState ws 3) := by
  have hnot : ¬ (emit raises ws "disconnected" (lifecycle "disconnected")).2 = true := by
    rw [emit_raised_iff]
    intro hh
    rcases hh with hi | ⟨g, hg, hr⟩
    · unfold listenersAt at hi
      cases hget : JsMap.get ws.listeners "disconnected" with
      | none =>
        rw [hget] at hi
        have : ("disconnected" : String) ∉ objectPrototypeKeys := by decide
        simp [this] at hi
      | some cbs =>
        rw [hget] at hi
        simp at hi
    · rw [h g hg] at hr
      exact Bool.false_ne_true hr
  unfold onclose
  simp [hnot]

theorem closeEvents_spec (raises : Callback → Message → Bool) (k : Nat) (ws : WebSocketManager)
    (h : ∀ g ∈ listenersOf ws "disconnected", raises g (lifecycle "disconnected") = false) :
    (closeEvents raises ws k).reconnectAttempts = (attemptReconnects ws k).reconnectAttempts ∧
    (closeEvents raises ws k).reconnectsScheduled =
      (attemptReconnects ws k).reconnectsScheduled := by
  suffices hgen : ∀ (k : Nat) (a b : WebSocketManager), a.listeners = b.listeners →
      a.reconnectAttempts = b.reconnectAttempts →
      a.maxReconnectAttempts = b.maxReconnectAttempts →
      a.reconnectsScheduled = b.reconnectsScheduled →
      (∀ g ∈ listenersOf a "disconnected", raises g (lifecycle "disconnected") = false) →
      (closeEvents raises a k).reconnectAttempts = (attemptReconnects b k).reconnectAttempts ∧
      (closeEvents raises a k).reconnectsScheduled =
        (attemptReconnects b k).reconnectsScheduled from
    hgen k ws ws rfl rfl rfl rfl h
  intro k
  induction k with
  | zero => intro a b _ h2 _ h4 _; exact ⟨h2, h4⟩
  | succ n ih =>
    intro a b h1 h2 h3 h4 h5
    unfold closeEvents attemptReconnects
    rw [onclose_of_no_raise raises a h5]
    have hsame : (attemptReconnect (setReadyState a 3)).listeners = (attemptReconnect b).listeners ∧
        (attemptReconnect (setReadyState a 3)).reconnectAttempts =
          (attemptReconnect b).reconnectAttempts ∧
        (attemptReconnect (setReadyState a 3)).maxReconnectAttempts =
          (attemptReconnect b).maxReconnectAttempts ∧
        (attemptReconnect (setReadyState a 3)).reconnectsScheduled =
          (attemptReconnect b).reconnectsScheduled := by
      simp only [attemptReconnect, setReadyState, h2, h3]
      by_cases hlt : b.reconnectAttempts < b.maxReconnectAttempts <;> simp [hlt, h1, h3, h4]
    apply ih _ _ hsame.1 hsame.2.1 hsame.2.2.1 hsame.2.2.2
    · have hl : (attemptReconnect (setReadyState a 3)).listeners = a.listeners := by
        unfold attemptReconnect setReadyState
        by_cases hlt : a.reconnectAttempts < a.maxReconnectAttempts <;> simp [hlt]
      intro g hg
      apply h5
      unfold listenersOf at hg ⊢
      rw [listenersAt_congr a _ "disconnected" hl] at hg
      exact hg

theorem connectionEvents_bound (raises : Callback → Message → Bool)
    (evs : List ConnectionEvent) (ws : WebSocketManager)
    (h : ws.reconnectAttempts ≤ ws.maxReconnectAttempts) :
    (connectionEvents raises ws evs).reconnectAttempts ≤
        (connectionEvents raises ws evs).maxReconnectAttempts ∧
      (connectionEvents raises ws evs).maxReconnectAttempts = ws.maxReconnectAttempts := by
  induction evs generalizing ws with
  | nil => exact ⟨h, rfl⟩
  | cons e rest ih =>
    cases e with
    | opened =>
      have h' := ih (onopen raises ws).1 (by simp [onopen, setReadyState])
      unfold connectionEvents
      exact ⟨h'.1, h'.2.trans (by simp [onopen, setReadyState])⟩
    | closed =>
      have hmax : (onclose raises ws).1.maxReconnectAttempts = ws.maxReconnectAttempts := by
        unfold onclose attemptReconnect setReadyState
        by_cases h1 : (emit raises ws "disconnected" (lifecycle "disconnected")).2 = true <;>
          by_cases h2 : ws.reconnectAttempts < ws.maxReconnectAttempts <;> simp [h1, h2]
      have hle : (onclose raises ws).1.reconnectAttempts ≤
          (onclose raises ws).1.maxReconnectAttempts := by
        rw [hmax]
        unfold onclose attemptReconnect setReadyState
        by_cases h1 : (emit raises ws "disconnected" (lifecycle "disconnected")).2 = true <;>
          by_cases h2 : ws.reconnectAttempts < ws.maxReconnectAttempts <;>
          simp [h1, h2] <;> omega
      have h' := ih (onclose raises ws).1 hle
      unfold connectionEvents
      exact ⟨h'.1, h'.2.trans hmax⟩

/-- A message whose `popupId` has no entry in `popupHandlers` reaches no
popup-scoped callback and leaves the manager unchanged; `handleMessage` then
raises exactly when the global `emit` does. The same holds for an id whose entry
was removed by `unregisterPopupHandlers`. -/
theorem handleMessage_unroutable (raises : Callback → Message → Bool) (ws : WebSocketManager)
    (m : Message) (h : ∀ id, m.popupId = some id → JsMap.has ws.popupHandlers id = false) :
    (handleMessage raises ws m).2.popupCalls = [] ∧
    (handleMessage raises ws m).1 = ws ∧
    ((handleMessage raises ws m).2.raised = true ↔
      (ws.listenersAt m.type = Slot.inherited ∨
        ∃ g ∈ listenersOf ws m.type, raises g m = true)) ∧
    (∀ ws₀ id, m.popupId = some id →
      (handleMessage raises (unregisterPopupHandlers ws₀ id) m).2.popupCalls = [] ∧
      (handleMessage raises (unregisterPopupHandlers ws₀ id) m).1 =
        unregisterPopupHandlers ws₀ id) := by
  have hstate : ∀ w : WebSocketManager, (handleMessage raises w m).1 = w := by
    intro w
    unfold handleMessage
    by_cases hb : (forEachCall raises m (routed w m)).2 = true <;> simp [hb]
  have hr : routed ws m = [] := routed_of_no_entry ws m h
  have hok : (forEachCall raises m (routed ws m)).2 = false := by rw [hr]; rfl
  refine ⟨?_, hstate ws, ?_, ?_⟩
  · rw [popupCalls_handleMessage, hr]
    rfl
  · rw [(handleMessage_of_routed_ok raises ws m hok).2]
    exact emit_raised_iff raises ws m.type m
  · intro ws₀ id hid
    refine ⟨?_, hstate _⟩
    have hr₀ : routed (unregisterPopupHandlers ws₀ id) m = [] := by
      apply routed_of_no_entry
      intro id' hid'
      rw [hid] at hid'
      cases hid'
      exact JsMap.has_delete_self _ _
    rw [popupCalls_handleMessage, hr₀]
    rfl


/-- With popup-scoped callbacks and global listeners that return normally,
`handleMessage` invokes the whole handler list of the popup and then the whole
listener list of the type, and raises only for an inherited property name. -/
theorem handleMessage_of_no_raise (raises : Callback → Message → Bool) (ws : WebSocketManager)
    (m : Message) (A : PopupId) (hm : m.popupId = some A) (hA : A ≠ "")
    (h1 : ∀ c ∈ handlersOf ws A m.type, raises c m = false)
    (h2 : ∀ g ∈ listenersOf ws m.type, raises g m = false) :
    (handleMessage raises ws m).2.popupCalls = (handlersOf ws A m.type).map (fun cb => (cb, m)) ∧
    (handleMessage raises ws m).2.globalCalls =
      (listenersOf ws m.type).map (fun cb => (cb, m)) ∧
    ((handleMessage raises ws m).2.raised = true ↔ ws.listenersAt m.type = Slot.inherited) := by
  have hr : routed ws m = handlersOf ws A m.type := routed_eq_handlersOf ws m A hm hA
  have hf : forEachCall raises m (routed ws m) = (handlersOf ws A m.type, false) := by
    rw [hr]
    exact forEachCall_of_no_raise raises m _ h1
  have hok : (forEachCall raises m (routed ws m)).2 = false := by rw [hf]
  have hg := handleMessage_of_routed_ok raises ws m hok
  refine ⟨?_, ?_, ?_⟩
  · rw [popupCalls_handleMessage, hf]
  · rw [hg.1, emit_eq_forEachCall, forEachCall_of_no_raise raises m _ h2]
  · rw [hg.2, emit_raised_iff]
    constructor
    · rintro (h | ⟨g, hgm, hgr⟩)
      · exact h
      · rw [h2 g hgm] at hgr
        exact absurd hgr (by decide)
    · intro h
      exact Or.inl h

/-- Two dispatch records with the same fields are equal. -/
theorem Dispatch.eq_of_fields (d d' : Dispatch) (h1 : d.popupCalls = d'.popupCalls)
    (h2 : d.globalCalls = d'.globalCalls) (h3 : d.raised = d'.raised) : d = d' := by
  cases d
  cases d'
  simp only [Dispatch.mk.injEq]
  exact ⟨h1, h2, h3⟩

/-- The dispatch with unregistering callbacks: what is invoked, when it raises,
and the registry afterwards. -/
theorem handleMessageUnregistering_spec (unregisters : Callback → List PopupId)
    (ws : WebSocketManager) (m : Message) (A : PopupId)
    (hm : m.popupId = some A) (hA : A ≠ "") :
    (handleMessageUnregistering unregisters ws m).2.popupCalls =
      (handlersOf ws A m.type).map (fun cb => (cb, m)) ∧
    (handleMessageUnregistering unregisters ws m).2.globalCalls =
      (listenersOf ws m.type).map (fun cb => (cb, m)) ∧
    ((handleMessageUnregistering unregisters ws m).2.raised = true ↔
      ws.listenersAt m.type = Slot.inherited) ∧
    (∀ id ∈ unregisteredIds unregisters (handlersOf ws A m.type ++ listenersOf ws m.type),
      JsMap.has (handleMessageUnregistering unregisters ws m).1.popupHandlers id = false) ∧
    (∀ id, id ∉ unregisteredIds unregisters (handlersOf ws A m.type ++ listenersOf ws m.type) →
      JsMap.get (handleMessageUnregistering unregisters ws m).1.popupHandlers id =
        JsMap.get ws.popupHandlers id) := by
  have hr : routed ws m = handlersOf ws A m.type := routed_eq_handlersOf ws m A hm hA
  have hids : ∀ xs ys : List Callback,
      unregisteredIds unregisters (xs ++ ys) =
        unregisteredIds unregisters xs ++ unregisteredIds unregisters ys := by
    intro xs ys
    induction xs with
    | nil => rfl
    | cons x rest ih => simp [unregisteredIds, ih]
  have hfold := foldl_unregister_popupHandlers
    (unregisteredIds unregisters (handlersOf ws A m.type)) ws
  have hslot : ((unregisteredIds unregisters (handlersOf ws A m.type)).foldl
      unregisterPopupHandlers ws).listenersAt m.type = ws.listenersAt m.type :=
    listenersAt_congr ws _ m.type hfold.1
  unfold handleMessageUnregistering
  simp only [forEachUnregistering_eq, hr, hslot]
  cases hs : ws.listenersAt m.type with
  | inherited =>
    have hl : listenersOf ws m.type = [] := by simp [listenersOf, hs]
    simp only [hl, List.append_nil, List.map_nil]
    exact ⟨by simp, by simp, by simp, hfold.2.1, hfold.2.2⟩
  | undefined =>
    have hl : listenersOf ws m.type = [] := by simp [listenersOf, hs]
    simp only [hl, List.append_nil, List.map_nil]
    exact ⟨by simp, by simp, by simp, hfold.2.1, hfold.2.2⟩
  | array cbs =>
    have hl : listenersOf ws m.type = cbs := by simp [listenersOf, hs]
    have hfold2 := foldl_unregister_popupHandlers
      (unregisteredIds unregisters (handlersOf ws A m.type ++ cbs)) ws
    have hcomb : (unregisteredIds unregisters cbs).foldl unregisterPopupHandlers
        ((unregisteredIds unregisters (handlersOf ws A m.type)).foldl
          unregisterPopupHandlers ws) =
        (unregisteredIds unregisters (handlersOf ws A m.type ++ cbs)).foldl
          unregisterPopupHandlers ws := by
      rw [hids, List.foldl_append]
    simp only [hl, hcomb]
    exact ⟨by simp, by simp, by simp, hfold2.2.1, hfold2.2.2⟩


end WebSocketManager

/-! ## Lemmas on the popup manager -/

theorem decimalDigit_injOn (a b : Nat) (ha : a < 10) (hb : b < 10)
    (h : decimalDigit a = decimalDigit b) : a = b := by
  interval_cases a <;> interval_cases b <;> first | rfl | (exact absurd h (by decide))

theorem map_decimalDigit_inj (l₁ l₂ : List Nat) (h₁ : ∀ d ∈ l₁, d < 10) (h₂ : ∀ d ∈ l₂, d < 10)
    (h : l₁.map decimalDigit = l₂.map decimalDigit) : l₁ = l₂ := by
  induction l₁ generalizing l₂ with
  | nil =>
    cases l₂ with
    | nil => rfl
    | cons b r => simp at h
  | cons a r ih =>
    cases l₂ with
    | nil => simp at h
    | cons b r₂ =>
      simp only [List.map_cons, List.cons.injEq] at h
      have hab := decimalDigit_injOn a b (h₁ a (List.mem_cons_self _ _))
        (h₂ b (List.mem_cons_self _ _)) h.1
      have hr := ih r₂ (fun d hd => h₁ d (List.mem_cons_of_mem _ hd))
        (fun d hd => h₂ d (List.mem_cons_of_mem _ hd)) h.2
      rw [hab, hr]

theorem decimal_inj (m n : Nat) (hm : 0 < m) (hn : 0 < n) (h : decimal m = decimal n) :
    m = n := by
  unfold decimal at h
  rw [if_neg (Nat.pos_iff_ne_zero.mp hm), if_neg (Nat.pos_iff_ne_zero.mp hn)] at h
  have h' : (Nat.digits 10 m).reverse.map decimalDigit =
      (Nat.digits 10 n).reverse.map decimalDigit := by
    injection h
  have hlt : ∀ k : Nat, ∀ d ∈ (Nat.digits 10 k).reverse, d < 10 := by
    intro k d hd
    exact Nat.digits_lt_base (by norm_num) (List.mem_reverse.mp hd)
  have hrev := map_decimalDigit_inj _ _ (hlt m) (hlt n) h'
  exact Nat.digits.injective 10 (List.reverse_injective hrev)

theorem popupIdOf_inj (m n : Nat) (hm : 0 < m) (hn : 0 < n) (h : popupIdOf m = popupIdOf n) :
    m = n := by
  unfold popupIdOf at h
  apply decimal_inj m n hm hn
  have hdata : ("popup-" ++ decimal m).data = ("popup-" ++ decimal n).data := by rw [h]
  simp only [String.data_append] at hdata
  exact String.ext (List.append_cancel_left hdata)

namespace App

theorem foldl_destroy_nextId (ids : List PopupId) (app : App) :
    (ids.foldl destroy app).manager.nextId = app.manager.nextId := by
  induction ids generalizing app with
  | nil => rfl
  | cons i r ih =>
    rw [List.foldl_cons, ih (app.destroy i)]
    rfl

theorem createdIds_eq (as : List Action) (app : App) :
    createdIds app as =
      (List.range' app.manager.nextId (createdIds app as).length).map popupIdOf := by
  induction as generalizing app with
  | nil => rfl
  | cons a rest ih =>
    cases a with
    | createPopup ipcType =>
      have h := ih (app.createPopup ipcType).1
      simp only [createdIds, List.length_cons, List.range'_succ, List.map_cons]
      congr 1
    | closePopup id =>
      have h := ih (app.step (Action.closePopup id))
      have hn : (app.step (Action.closePopup id)).manager.nextId = app.manager.nextId := by
        simp only [step, closePopup, destroy]
        cases JsMap.get app.manager.popups id <;> rfl
      rw [hn] at h
      exact h
    | closeAll =>
      have h := ih (app.step Action.closeAll)
      have hn : (app.step Action.closeAll).manager.nextId = app.manager.nextId := by
        simp only [step, closeAll]
        exact foldl_destroy_nextId _ app
      rw [hn] at h
      exact h
    | restartClick id =>
      have h := ih (app.step (Action.restartClick id))
      have hn : (app.step (Action.restartClick id)).manager.nextId = app.manager.nextId := by
        simp only [step, restartClick]
        by_cases hh : JsMap.has app.manager.popups id = true <;> simp [hh]
      rw [hn] at h
      exact h
    | startCompletes id =>
      have h := ih (app.step (Action.startCompletes id))
      have hn : (app.step (Action.startCompletes id)).manager.nextId = app.manager.nextId := by
        simp only [step, startCompletes, startSimulation]
        by_cases hh : id ∈ app.pendingStarts <;> simp [hh]
      rw [hn] at h
      exact h

end App

/-! ## The router: routing, registration, teardown, broadcast -/

namespace WebSocketManager

/-- C1 (routing isolation, amended). For every registry state, every sequence of
registrations `ops` made on top of it, and distinct popup ids `A ≠ B` with `A`
non-empty, `handleMessage` on a message whose `popupId` is `A` invokes
popup-scoped callbacks only from the list registered under `(A, message.type)`,
each with the message, in registration order and up to the first one that
raises: exactly that list when none of them raises. The handlers of `B` have no
influence: leaving every registration under `B` out, or unregistering `B`,
gives the same dispatch. The callbacks invoked are those of the list before the
first one that raises, followed by that one. -/
theorem routing_isolation (raises : Callback → Message → Bool) (ws : WebSocketManager)
    (ops : List (PopupId × EventType × Callback)) (A B : PopupId) (m : Message)
    (hAB : A ≠ B) (hA : A ≠ "") (hm : m.popupId = some A) :
    (∀ x ∈ (handleMessage raises (registerAll ws ops) m).2.popupCalls,
        x.1 ∈ handlersOf (registerAll ws ops) A m.type ∧ x.2 = m) ∧
    (∃ rest, (handlersOf (registerAll ws ops) A m.type).map (fun cb => (cb, m)) =
        (handleMessage raises (registerAll ws ops) m).2.popupCalls ++ rest) ∧
    ((∀ c ∈ handlersOf (registerAll ws ops) A m.type, raises c m = false) →
      (handleMessage raises (registerAll ws ops) m).2.popupCalls =
        (handlersOf (registerAll ws ops) A m.type).map (fun cb => (cb, m))) ∧
    (handleMessage raises (registerAll ws (ops.filter (fun o => decide (o.1 ≠ B)))) m).2 =
      (handleMessage raises (registerAll ws ops) m).2 ∧
    (handleMessage raises (unregisterPopupHandlers (registerAll ws ops) B) m).2 =
      (handleMessage raises (registerAll ws ops) m).2 ∧
    (handleMessage raises (registerAll ws ops) m).2.popupCalls =
      ((handlersOf (registerAll ws ops) A m.type).takeWhile (fun c => !raises c m) ++
        ((handlersOf (registerAll ws ops) A m.type).dropWhile (fun c => !raises c m)).take 1
        ).map (fun cb => (cb, m)) := by
  have hr : routed (registerAll ws ops) m = handlersOf (registerAll ws ops) A m.type :=
    routed_eq_handlersOf _ m A hm hA
  refine ⟨?_, ?_, ?_, ?_, ?_, by rw [popupCalls_handleMessage, hr, forEachCall_fst]⟩
  · intro x hx
    rw [popupCalls_handleMessage, hr, List.mem_map] at hx
    obtain ⟨c, hc, rfl⟩ := hx
    exact ⟨forEachCall_mem raises m _ c hc, rfl⟩
  · rw [popupCalls_handleMessage, hr]
    obtain ⟨rest, hrest⟩ := forEachCall_prefix raises m (handlersOf (registerAll ws ops) A m.type)
    refine ⟨rest.map (fun cb => (cb, m)), ?_⟩
    rw [← List.map_append, ← hrest]
  · intro hno
    rw [popupCalls_handleMessage, hr, forEachCall_of_no_raise raises m _ hno]
  · apply handleMessage_congr
    · rw [routed_eq_handlersOf _ m A hm hA, hr, handlersOf_registerAll, handlersOf_registerAll,
        List.filter_filter]
      congr 2
      apply List.filter_congr
      intro o _
      by_cases h1 : o.1 = A
      · simp [h1, hAB]
      · simp [h1]
    · rw [listeners_registerAll, listeners_registerAll]
  · apply handleMessage_congr
    · rw [routed_eq_handlersOf _ m A hm hA, hr, handlersOf_unregister_of_ne _ hAB]
    · rfl

/-- C1, the claim as stated fails at two inputs. A handler registered under the
empty popup id is never invoked, because `popupId && ..` treats the empty string
as absent; and when the first of two handlers of `popup-1` raises, the second is
registered under `(popup-1, event)` but not invoked. -/
theorem routing_isolation_counterexample :
    (handlersOf (registerPopupHandler new "" "event" 7) "" "event" = [7] ∧
      (handleMessage (fun _ _ => false) (registerPopupHandler new "" "event" 7)
        { type := "event", popupId := some "", body := "" }).2.popupCalls = []) ∧
    (handlersOf (registerAll new [("popup-1", "event", 1), ("popup-1", "event", 2)])
        "popup-1" "event" = [1, 2] ∧
      (handleMessage (fun c _ => decide (c = 1))
        (registerAll new [("popup-1", "event", 1), ("popup-1", "event", 2)])
        { type := "event", popupId := some "popup-1", body := "" }).2.popupCalls =
        [(1, { type := "event", popupId := some "popup-1", body := "" })]) := by
  decide

/-- C1, witness: two popups registering in interleaved order. -/
theorem routing_isolation_witness :
    ("popup-1" : PopupId) ≠ "popup-2" ∧ ("popup-1" : PopupId) ≠ "" ∧
    (handleMessage (fun _ _ => false)
      (registerAll new [("popup-2", "event", 20), ("popup-1", "event", 10),
        ("popup-2", "event", 21), ("popup-1", "event", 11)])
      { type := "event", popupId := some "popup-1", body := "" }).2.popupCalls =
      (handlersOf
        (registerAll new [("popup-2", "event", 20), ("popup-1", "event", 10),
          ("popup-2", "event", 21), ("popup-1", "event", 11)])
        "popup-1" "event").map
        (fun cb => (cb, { type := "event", popupId := some "popup-1", body := "" })) :=
  ⟨by decide, by decide,
    (routing_isolation (fun _ _ => false) new
      [("popup-2", "event", 20), ("popup-1", "event", 10), ("popup-2", "event", 21),
        ("popup-1", "event", 11)]
      "popup-1" "popup-2" { type := "event", popupId := some "popup-1", body := "" }
      (by decide) (by decide) rfl).2.2.1 (fun _ _ => rfl)⟩

/-- C7 (registration order, amended). For every non-empty popup id, event type
and sequence of registrations, the list under `(id, type)` is the earlier list
followed by the callbacks registered under that pair, in registration order and
with repetitions kept. `handleMessage` on a message with that `popupId` and type
invokes a prefix of this list, each callback with the message; when no callback
of the list raises it invokes the whole list in order, so a callback registered
`k` times is invoked `k` times. The prefix ends with the first callback that
raises. -/
theorem registration_order (raises : Callback → Message → Bool) (ws : WebSocketManager)
    (ops : List (PopupId × EventType × Callback)) (id : PopupId) (t : EventType) (m : Message)
    (hid : id ≠ "") (hm : m.popupId = some id) (ht : m.type = t) :
    handlersOf (registerAll ws ops) id t =
      handlersOf ws id t ++
        (ops.filter (fun o => decide (o.1 = id ∧ o.2.1 = t))).map (fun o => o.2.2) ∧
    (∃ rest, (handlersOf (registerAll ws ops) id t).map (fun cb => (cb, m)) =
        (handleMessage raises (registerAll ws ops) m).2.popupCalls ++ rest) ∧
    ((∀ c ∈ handlersOf (registerAll ws ops) id t, raises c m = false) →
      (handleMessage raises (registerAll ws ops) m).2.popupCalls =
        (handlersOf (registerAll ws ops) id t).map (fun cb => (cb, m)) ∧
      ∀ c, ((handleMessage raises (registerAll ws ops) m).2.popupCalls.map Prod.fst).count c =
        (handlersOf (registerAll ws ops) id t).count c) ∧
    (handleMessage raises (registerAll ws ops) m).2.popupCalls =
      ((handlersOf (registerAll ws ops) id t).takeWhile (fun c => !raises c m) ++
        ((handlersOf (registerAll ws ops) id t).dropWhile (fun c => !raises c m)).take 1
        ).map (fun cb => (cb, m)) := by
  subst ht
  have hr : routed (registerAll ws ops) m = handlersOf (registerAll ws ops) id m.type :=
    routed_eq_handlersOf _ m id hm hid
  refine ⟨handlersOf_registerAll ws ops id m.type, ?_, ?_,
    by rw [popupCalls_handleMessage, hr, forEachCall_fst]⟩
  · rw [popupCalls_handleMessage, hr]
    obtain ⟨rest, hrest⟩ :=
      forEachCall_prefix raises m (handlersOf (registerAll ws ops) id m.type)
    refine ⟨rest.map (fun cb => (cb, m)), ?_⟩
    rw [← List.map_append, ← hrest]
  · intro hno
    have hcalls : (handleMessage raises (registerAll ws ops) m).2.popupCalls =
        (handlersOf (registerAll ws ops) id m.type).map (fun cb => (cb, m)) := by
      rw [popupCalls_handleMessage, hr, forEachCall_of_no_raise raises m _ hno]
    refine ⟨hcalls, fun c => ?_⟩
    rw [hcalls, List.map_map]
    have hfst : (Prod.fst ∘ fun cb : Callback => (cb, m)) = fun cb => cb := rfl
    rw [hfst, List.map_id']

/-- C7, the claim as stated fails for the empty popup id: the callback
registered under it is not invoked for a message carrying that id. -/
theorem registration_order_counterexample :
    handlersOf (registerAll new [("", "event", 1), ("", "event", 2)]) "" "event" = [1, 2] ∧
    (handleMessage (fun _ _ => false) (registerAll new [("", "event", 1), ("", "event", 2)])
      { type := "event", popupId := some "", body := "x" }).2.popupCalls = [] := by
  decide

/-- C7, witness: the same callback registered twice is invoked twice, in
registration order. -/
theorem registration_order_witness :
    ("popup-3" : PopupId) ≠ "" ∧
    (handleMessage (fun _ _ => false)
      (registerAll new [("popup-3", "event", 5), ("popup-3", "event", 6), ("popup-3", "event", 5)])
      { type := "event", popupId := some "popup-3", body := "" }).2.popupCalls =
      (handlersOf
        (registerAll new
          [("popup-3", "event", 5), ("popup-3", "event", 6), ("popup-3", "event", 5)])
        "popup-3" "event").map
        (fun cb => (cb, { type := "event", popupId := some "popup-3", body := "" })) :=
  ⟨by decide,
    ((registration_order (fun _ _ => false) new
      [("popup-3", "event", 5), ("popup-3", "event", 6), ("popup-3", "event", 5)]
      "popup-3" "event" { type := "event", popupId := some "popup-3", body := "" }
      (by decide) rfl rfl).2.2.1 (fun _ _ => rfl)).1⟩

/-- C8 (teardown). `unregisterPopupHandlers(id)` leaves no entry for `id`, of any
event type; the entries of every other popup id are the same, in the same order;
the global listeners are unchanged; on an id without entry the registry is
unchanged; and a second call changes nothing more. The function is total: no
input makes it raise. -/
theorem unregisterPopupHandlers_idempotent (ws : WebSocketManager) (id : PopupId) :
    JsMap.has (unregisterPopupHandlers ws id).popupHandlers id = false ∧
    (∀ t, handlersOf (unregisterPopupHandlers ws id) id t = []) ∧
    (unregisterPopupHandlers ws id).popupHandlers =
      ws.popupHandlers.filter (fun entry => decide (entry.1 ≠ id)) ∧
    (∀ id', id' ≠ id →
      JsMap.get (unregisterPopupHandlers ws id).popupHandlers id' =
        JsMap.get ws.popupHandlers id') ∧
    (unregisterPopupHandlers ws id).listeners = ws.listeners ∧
    (JsMap.has ws.popupHandlers id = false → unregisterPopupHandlers ws id = ws) ∧
    unregisterPopupHandlers (unregisterPopupHandlers ws id) id = unregisterPopupHandlers ws id := by
  refine ⟨JsMap.has_delete_self _ _, ?_, JsMap.delete_eq_filter _ _, ?_, rfl, ?_, ?_⟩
  · intro t
    unfold handlersOf unregisterPopupHandlers
    simp only []
    rw [JsMap.get_delete_self]
    rfl
  · intro id' hne
    exact JsMap.get_delete_of_ne _ hne
  · intro h
    unfold unregisterPopupHandlers
    rw [JsMap.delete_of_has_false h]
  · unfold unregisterPopupHandlers
    simp only []
    rw [JsMap.delete_delete]

/-- C8, witness: unregistering an id that was never registered leaves the
manager as it is, and the handlers of another popup stay in place. -/
theorem unregisterPopupHandlers_idempotent_witness :
    JsMap.has (registerPopupHandler new "popup-1" "event" 1).popupHandlers "popup-2" = false ∧
    unregisterPopupHandlers (registerPopupHandler new "popup-1" "event" 1) "popup-2" =
      registerPopupHandler new "popup-1" "event" 1 :=
  ⟨by decide,
    (unregisterPopupHandlers_idempotent (registerPopupHandler new "popup-1" "event" 1)
      "popup-2").2.2.2.2.2.1 (by decide)⟩

/-- C9 (global broadcast, amended). Whenever the popup-scoped callbacks routed
for a message all return normally (in particular when routing finds nothing),
`handleMessage` goes on to the global listeners of the message type: it invokes
them with the message, in registration order, up to the first one that raises,
and all of them exactly once when none raises. For a type that is not an
inherited property name, the listeners are those added with `on`, in the order
of the calls. -/
theorem global_broadcast (raises : Callback → Message → Bool) (ws : WebSocketManager)
    (ons : List (EventType × Callback)) (m : Message)
    (hpop : ∀ c ∈ routed ws m, raises c m = false) :
    (m.type ∉ objectPrototypeKeys →
      listenersOf (onAll ws ons) m.type =
        listenersOf ws m.type ++
          (ons.filter (fun o => decide (o.1 = m.type))).map (fun o => o.2)) ∧
    (∃ rest, (listenersOf (onAll ws ons) m.type).map (fun cb => (cb, m)) =
        (handleMessage raises (onAll ws ons) m).2.globalCalls ++ rest) ∧
    ((∀ g ∈ listenersOf (onAll ws ons) m.type, raises g m = false) →
      (handleMessage raises (onAll ws ons) m).2.globalCalls =
        (listenersOf (onAll ws ons) m.type).map (fun cb => (cb, m))) ∧
    (handleMessage raises (onAll ws ons) m).2.globalCalls =
      ((listenersOf (onAll ws ons) m.type).takeWhile (fun c => !raises c m) ++
        ((listenersOf (onAll ws ons) m.type).dropWhile (fun c => !raises c m)).take 1
        ).map (fun cb => (cb, m)) := by
  have hr : routed (onAll ws ons) m = routed ws m :=
    routed_congr ws _ m (popupHandlers_onAll ws ons)
  have hok : (forEachCall raises m (routed (onAll ws ons) m)).2 = false := by
    rw [hr, forEachCall_of_no_raise raises m _ hpop]
  have hg := (handleMessage_of_routed_ok raises (onAll ws ons) m hok).1
  refine ⟨fun ht => listenersOf_onAll ws ons m.type ht, ?_, ?_,
    by rw [hg, emit_eq_forEachCall, forEachCall_fst]⟩
  · rw [hg, emit_eq_forEachCall]
    obtain ⟨rest, hrest⟩ := forEachCall_prefix raises m (listenersOf (onAll ws ons) m.type)
    refine ⟨rest.map (fun cb => (cb, m)), ?_⟩
    rw [← List.map_append, ← hrest]
  · intro hno
    rw [hg, emit_eq_forEachCall, forEachCall_of_no_raise raises m _ hno]

/-- C9, the claim as stated fails when a popup-scoped handler raises: the global
listener registered for the same type is then not invoked. -/
theorem global_broadcast_counterexample :
    listenersOf (onAll (registerPopupHandler new "popup-1" "event" 1) [("event", 2)]) "event"
      = [2] ∧
    (handleMessage (fun c _ => decide (c = 1))
      (onAll (registerPopupHandler new "popup-1" "event" 1) [("event", 2)])
      { type := "event", popupId := some "popup-1", body := "" }).2.globalCalls = [] := by
  decide

/-- C9, witness: a routed message reaches the global listeners as well. -/
theorem global_broadcast_witness :
    (handleMessage (fun _ _ => false)
      (onAll (registerPopupHandler new "popup-1" "event" 1) [("event", 2), ("event", 3)])
      { type := "event", popupId := some "popup-1", body := "" }).2.globalCalls =
      (listenersOf
        (onAll (registerPopupHandler new "popup-1" "event" 1) [("event", 2), ("event", 3)])
        "event").map
        (fun cb => (cb, { type := "event", popupId := some "popup-1", body := "" })) :=
  (global_broadcast (fun _ _ => false) (registerPopupHandler new "popup-1" "event" 1)
    [("event", 2), ("event", 3)] { type := "event", popupId := some "popup-1", body := "" }
    (fun _ _ => rfl)).2.2.1 (fun _ _ => rfl)

/-- C10 (unroutable messages), the code at the failing input. On a new manager
(no popup handler, no global listener) the message
`{type: 'toString', popupId: 'popup-9'}` is unroutable and reaches no callback,
yet `handleMessage` raises: `emit` looks the type up in the plain object
`this.listeners`, finds the function inherited from `Object.prototype` and calls
`forEach` on it. The popup registry, a `Map`, has no such entry for the same
name, and an unroutable message of type `event` is dropped without an
exception. -/
theorem unroutable_raises_for_inherited_type :
    JsMap.has new.popupHandlers "popup-9" = false ∧
    new.listeners = [] ∧
    (handleMessage (fun _ _ => false) new
      { type := "toString", popupId := some "popup-9", body := "" }).2.popupCalls = [] ∧
    (handleMessage (fun _ _ => false) new
      { type := "toString", popupId := some "popup-9", body := "" }).2.globalCalls = [] ∧
    (handleMessage (fun _ _ => false) new
      { type := "toString", popupId := some "popup-9", body := "" }).2.raised = true ∧
    routed (registerPopupHandler new "popup-1" "event" 1)
      { type := "toString", popupId := some "popup-1", body := "" } = [] ∧
    (handleMessage (fun _ _ => false) new
      { type := "event", popupId := some "popup-9", body := "" }).2.raised = false := by
  decide

end WebSocketManager

/-! ## The popup: ordering, conservation, step, pause -/

namespace Popup

/-- C2 (order preservation), evaluated at a failing input. Paused, the popup
buffers `acquired` then `released`; after Resume the first timeout fires, then
`waiting` arrives and is handed over at once, and only then the second timeout
releases `released`: the renderer receives the events out of arrival order. -/
theorem order_preservation_fails :
    arrivals [Action.pauseClick, Action.arrive Sample.acquired, Action.arrive Sample.released,
      Action.resumeClick, Action.fire, Action.arrive Sample.waiting, Action.tick 300,
      Action.fire] = [Sample.acquired, Sample.released, Sample.waiting] ∧
    (run Sample.popup [Action.pauseClick, Action.arrive Sample.acquired,
      Action.arrive Sample.released, Action.resumeClick, Action.fire,
      Action.arrive Sample.waiting, Action.tick 300, Action.fire]).delivered =
      [Sample.acquired, Sample.waiting, Sample.released] := by
  decide!

/-- C3 (pause/resume conservation). Take a popup with a bound event handler and
an empty pause buffer. After a Pause click, let events arrive in any
interleaving with further Pause clicks, Restart clicks, speed changes, time and
timeouts (`paused`, no Resume or Step). Then the buffer holds exactly the
arrived events in order; the Resume click empties it and creates exactly one
timeout per buffered event, in order. From then on, for every further sequence
of actions, the events delivered together with those still buffered or
scheduled are, as a multiset, the earlier ones plus the new arrivals: nothing is
lost or duplicated. Once the timeouts are due and have fired, none is left and
each buffered event has been delivered once. An event arriving while running is
delivered once, at once. -/
theorem pause_resume_conservation (p q r : Popup) (binding : Binding) (paused : List Action)
    (hb : p.vizEventHandler = some binding) (hs : p.stepMode = false)
    (hpend : p.pendingEvents = [])
    (hk : ∀ a ∈ paused, Action.keepsPaused a = true)
    (hq : q = run p.pauseClick paused) (hr : r = q.resumeClick) :
    q.pendingEvents = arrivals paused ∧
    r.pendingEvents = [] ∧ r.delivered = q.delivered ∧
    r.timers = q.timers ++ scheduleFrom q.now (flushDelay q.speed) 0 (arrivals paused) ∧
    (scheduleFrom q.now (flushDelay q.speed) 0 (arrivals paused)).length
      = (arrivals paused).length ∧
    (scheduleFrom q.now (flushDelay q.speed) 0 (arrivals paused)).map Timer.ev
      = arrivals paused ∧
    (∀ later : List Action,
      ((run r later).delivered ++ (run r later).held).Perm
        (r.delivered ++ r.held ++ arrivals later)) ∧
    (∀ T : ℚ, 0 ≤ T → (∀ t ∈ r.timers, t.due ≤ r.now + T) →
      (run r (Action.tick T :: List.replicate r.timers.length Action.fire)).timers = [] ∧
      (run r (Action.tick T :: List.replicate r.timers.length Action.fire)).pendingEvents = [] ∧
      (run r (Action.tick T :: List.replicate r.timers.length Action.fire)).delivered.Perm
        (q.delivered ++ q.timers.map Timer.ev ++ arrivals paused)) ∧
    (∀ (s : Popup) (ev : Event), s.isPaused = false → s.vizEventHandler = some binding →
      (s.handleEvent ev).1.delivered = s.delivered ++ [ev]) := by
  have hq1 : q.pendingEvents = arrivals paused := by
    have h := (run_keepsPaused p.pauseClick paused rfl hs hk).1
    rw [hq, h]
    simp [pauseClick, hpend]
  have hqb : q.vizEventHandler = some binding := by
    rw [hq]
    exact (run_stable _ _).1.trans hb
  have hqs : q.stepMode = false := by
    rw [hq]
    exact (run_stable _ _).2.trans hs
  have hrb : r.vizEventHandler = some binding := by
    rw [hr]
    exact (step_stable q Action.resumeClick).1.trans hqb
  have hrs : r.stepMode = false := by
    rw [hr]
    exact (step_stable q Action.resumeClick).2.1.trans hqs
  have hrt : r.timers = q.timers ++ scheduleFrom q.now (flushDelay q.speed) 0 (arrivals paused) := by
    rw [hr]
    unfold resumeClick _flushPendingEvents
    by_cases h : q.pendingEvents = []
    · have : arrivals paused = [] := by rw [← hq1]; exact h
      simp [h, this, scheduleFrom]
    · have h' : arrivals paused ≠ [] := by rw [← hq1]; exact h
      simp [hq1, h']
  have hrp : r.pendingEvents = [] := by
    rw [hr]
    unfold resumeClick _flushPendingEvents
    by_cases h : q.pendingEvents = [] <;> simp [h]
  have hrd : r.delivered = q.delivered := by
    rw [hr]
    unfold resumeClick _flushPendingEvents
    by_cases h : q.pendingEvents = [] <;>
      simp [h, delivered, deliveredIn_append, deliveredIn_cons, deliveredIn_nil]
  have hcons : ∀ later : List Action,
      ((run r later).delivered ++ (run r later).held).Perm
        (r.delivered ++ r.held ++ arrivals later) := by
    intro later
    have h := run_conserves r later binding hrb hrs
    simp only [Multiset.coe_add] at h
    exact Multiset.coe_eq_coe.mp h
  refine ⟨hq1, hrp, hrd, hrt, length_scheduleFrom _ _ _ _, map_ev_scheduleFrom _ _ _ _,
    hcons, ?_, ?_⟩
  · intro T hT hdue
    have htick : r.tick T = { r with now := r.now + T } := by simp [tick, hT]
    have hd := run_fire_drains r.timers.length (r.tick T) (by rw [htick])
      (by rw [htick]; exact hdue)
    have hrun : run r (Action.tick T :: List.replicate r.timers.length Action.fire) =
        run (r.tick T) (List.replicate r.timers.length Action.fire) := rfl
    rw [hrun]
    have hpe : (r.tick T).pendingEvents = [] := by rw [htick]; exact hrp
    refine ⟨hd.1, hd.2.trans hpe, ?_⟩
    have h := hcons (Action.tick T :: List.replicate r.timers.length Action.fire)
    rw [hrun] at h
    have harr : arrivals (Action.tick T :: List.replicate r.timers.length Action.fire) = [] := by
      simp only [arrivals]
      generalize r.timers.length = n
      induction n with
      | zero => rfl
      | succ k ih => simpa [List.replicate_succ, arrivals] using ih
    rw [harr] at h
    have hheld : (run (r.tick T) (List.replicate r.timers.length Action.fire)).held = [] := by
      simp only [held, hd.1, hd.2.trans hpe, List.map_nil, List.append_nil]
    have hrheld : r.held = q.timers.map Timer.ev ++ arrivals paused := by
      simp only [held, hrp, List.nil_append, hrt, List.map_append, map_ev_scheduleFrom]
    rw [hheld, hrheld, hrd, List.append_nil, List.append_nil, ← List.append_assoc] at h
    exact h
  · intro s ev hsp hsb
    exact (handleEvent_running s ev binding hsp hsb).1

/-- C3, witness: two events buffered during a pause. -/
theorem pause_resume_conservation_witness :
    Sample.popup.vizEventHandler = some Binding.handleEvent ∧
    Sample.popup.stepMode = false ∧ Sample.popup.pendingEvents = [] ∧
    (Sample.popup.pauseClick.run
      [Action.arrive Sample.acquired, Action.pauseClick, Action.arrive Sample.released]
      ).resumeClick.pendingEvents = [] :=
  ⟨rfl, rfl, rfl,
    (pause_resume_conservation Sample.popup _ _ Binding.handleEvent
      [Action.arrive Sample.acquired, Action.pauseClick, Action.arrive Sample.released]
      rfl rfl rfl (by decide) rfl rfl).2.1⟩

/-- C4 (step semantics). With a bound event handler and a pause buffer
`e0 :: rest`, one Step click hands exactly `e0` to the handler, leaves the popup
paused and leaves `rest` in the buffer, creating no timeout. With an empty
buffer it hands over nothing, leaves the buffer empty and only calls the
renderer's own `pause` and `step`. -/
theorem step_semantics (p : Popup) (binding : Binding)
    (hb : p.vizEventHandler = some binding) :
    (∀ e0 rest, p.pendingEvents = e0 :: rest →
      p.stepClick.delivered = p.delivered ++ [e0] ∧ p.stepClick.isPaused = true ∧
      p.stepClick.pendingEvents = rest ∧ p.stepClick.timers = p.timers) ∧
    (p.pendingEvents = [] →
      p.stepClick.delivered = p.delivered ∧ p.stepClick.isPaused = true ∧
      p.stepClick.pendingEvents = [] ∧ p.stepClick.timers = p.timers ∧
      p.stepClick.effects = p.effects ++
        [Effect.visualizationPause, Effect.visualizationStep, Effect.updateStatus "Stepped"]) := by
  constructor
  · intro e0 rest hp
    have hr := deliveredIn_releaseCall p binding e0 hb
    unfold stepClick
    rw [hp]
    simp [delivered, deliveredIn_append, deliveredIn_cons, deliveredIn_nil, hr]
  · intro hp
    unfold stepClick
    rw [hp]
    simp [delivered, deliveredIn_append, deliveredIn_cons, deliveredIn_nil, hp]

/-- C4, witness: a step with two buffered events releases the first. -/
theorem step_semantics_witness :
    (Sample.popup.run [Action.pauseClick, Action.arrive Sample.acquired,
      Action.arrive Sample.released]).vizEventHandler = some Binding.handleEvent ∧
    (Sample.popup.run [Action.pauseClick, Action.arrive Sample.acquired,
      Action.arrive Sample.released]).pendingEvents = [Sample.acquired, Sample.released] ∧
    (Sample.popup.run [Action.pauseClick, Action.arrive Sample.acquired,
      Action.arrive Sample.released]).stepClick.pendingEvents = [Sample.released] :=
  ⟨rfl, by decide,
    ((step_semantics (Sample.popup.run [Action.pauseClick, Action.arrive Sample.acquired,
      Action.arrive Sample.released]) Binding.handleEvent rfl).1
      Sample.acquired [Sample.released] (by decide)).2.2.1⟩

/-- C5 (pause halts release), evaluated at a failing input. Two events are
buffered, Resume schedules their release, the first timeout fires and the user
clicks Pause again. The popup is paused, yet when the second timeout comes due
it hands `released` to the renderer, with no Resume or Step click in between. -/
theorem pause_does_not_halt_release :
    (run Sample.popup [Action.pauseClick, Action.arrive Sample.acquired,
      Action.arrive Sample.released, Action.resumeClick, Action.fire,
      Action.pauseClick]).isPaused = true ∧
    (run Sample.popup [Action.pauseClick, Action.arrive Sample.acquired,
      Action.arrive Sample.released, Action.resumeClick, Action.fire,
      Action.pauseClick]).delivered = [Sample.acquired] ∧
    (run Sample.popup [Action.pauseClick, Action.arrive Sample.acquired,
      Action.arrive Sample.released, Action.resumeClick, Action.fire,
      Action.pauseClick, Action.tick 300, Action.fire]).isPaused = true ∧
    (run Sample.popup [Action.pauseClick, Action.arrive Sample.acquired,
      Action.arrive Sample.released, Action.resumeClick, Action.fire,
      Action.pauseClick, Action.tick 300, Action.fire]).delivered =
      [Sample.acquired, Sample.released] := by
  decide!

end Popup

namespace Popup

/-- C19 (resume spacing). A Resume click empties the pause buffer and creates,
after the timeouts already pending, one timeout per buffered event: the event
at index `i` is due at offset `i * d` from the Resume, where
`d = max(10, 300 / s)` and `s` is the speed, taken as 1 when it is 0 or not a
number. The delay is at least 10, so the offsets grow strictly with `i`; and
when no other timeout is pending, the timeouts, once due, release the buffered
events in their original order. -/
theorem resume_spacing (p : Popup) :
    p.resumeClick.pendingEvents = [] ∧
    p.resumeClick.timers =
      p.timers ++ scheduleFrom p.now (flushDelay p.speed) 0 p.pendingEvents ∧
    (∀ i : Nat, (scheduleFrom p.now (flushDelay p.speed) 0 p.pendingEvents)[i]? =
      (p.pendingEvents[i]?).map
        (fun e => ({ due := p.now + (i : ℚ) * flushDelay p.speed, ev := e } : Timer))) ∧
    flushDelay p.speed =
      max 10 (300 / (match p.speed with
        | some s => if s = 0 then 1 else s
        | none => 1)) ∧
    10 ≤ flushDelay p.speed ∧
    (∀ i j : Nat, i < j →
      p.now + (i : ℚ) * flushDelay p.speed < p.now + (j : ℚ) * flushDelay p.speed) ∧
    (∀ (binding : Binding) (T : ℚ), p.vizEventHandler = some binding → p.timers = [] →
      (p.pendingEvents.length : ℚ) * flushDelay p.speed ≤ T →
      (run p.resumeClick
        (Action.tick T :: List.replicate p.pendingEvents.length Action.fire)).delivered =
        p.delivered ++ p.pendingEvents) := by
  have hd : (0 : ℚ) < flushDelay p.speed := lt_of_lt_of_le (by norm_num) (flushDelay_ge p.speed)
  have htimers : p.resumeClick.timers =
      p.timers ++ scheduleFrom p.now (flushDelay p.speed) 0 p.pendingEvents := by
    unfold resumeClick _flushPendingEvents
    by_cases h : p.pendingEvents = [] <;> simp [h, scheduleFrom]
  have hdel : p.resumeClick.delivered = p.delivered := by
    unfold resumeClick _flushPendingEvents
    by_cases h : p.pendingEvents = [] <;>
      simp [h, delivered, deliveredIn_append, deliveredIn_cons, deliveredIn_nil]
  have hnow : p.resumeClick.now = p.now := by
    unfold resumeClick _flushPendingEvents
    by_cases h : p.pendingEvents = [] <;> simp [h]
  refine ⟨?_, htimers, ?_, rfl, flushDelay_ge p.speed, ?_, ?_⟩
  · unfold resumeClick _flushPendingEvents
    by_cases h : p.pendingEvents = [] <;> simp [h]
  · intro i
    rw [getElem?_scheduleFrom]
    simp
  · intro i j hij
    have : (i : ℚ) < (j : ℚ) := by exact_mod_cast hij
    nlinarith
  · intro binding T hb ht hT
    have hT0 : 0 ≤ T := le_trans (by positivity) hT
    have hb' : (p.resumeClick.tick T).vizEventHandler = some binding := by
      have h1 := (step_stable p.resumeClick (Action.tick T)).1
      have h2 := (step_stable p Action.resumeClick).1
      exact (h1.trans h2).trans hb
    have htick : p.resumeClick.tick T = { p.resumeClick with now := p.resumeClick.now + T } := by
      simp [tick, hT0]
    have ht' : (p.resumeClick.tick T).timers =
        scheduleFrom p.now (flushDelay p.speed) 0 p.pendingEvents := by
      rw [htick]
      simp [htimers, ht]
    have hdue : ∀ t ∈ (p.resumeClick.tick T).timers, t.due ≤ (p.resumeClick.tick T).now := by
      intro t htm
      rw [ht'] at htm
      have h := due_scheduleFrom_le p.now (flushDelay p.speed) (le_of_lt hd) 0 _ t htm
      have hn : (p.resumeClick.tick T).now = p.now + T := by
        rw [htick]
        simp [hnow]
      rw [hn]
      simp only [Nat.zero_add] at h
      linarith
    have h := run_fire_in_order p.pendingEvents (p.resumeClick.tick T) binding p.now
      (flushDelay p.speed) 0 hb' hd ht' hdue
    have hdel' : (p.resumeClick.tick T).delivered = p.delivered := by
      rw [htick]
      exact hdel
    rw [hdel'] at h
    exact h

/-- C19, witness: three buffered events at speed 1 are released in order,
300 ms apart. -/
theorem resume_spacing_witness :
    (run (Sample.popup.run [Action.pauseClick, Action.arrive Sample.acquired,
        Action.arrive Sample.released, Action.arrive Sample.waiting]).resumeClick
      (Action.tick 900 :: List.replicate 3 Action.fire)).delivered =
      [Sample.acquired, Sample.released, Sample.waiting] :=
  (resume_spacing (Sample.popup.run [Action.pauseClick, Action.arrive Sample.acquired,
      Action.arrive Sample.released, Action.arrive Sample.waiting])).2.2.2.2.2.2
    Binding.handleEvent 900 rfl rfl (by decide!)

/-- C21 (renderer failure), evaluated at a failing input. The module's
`handleEvent` throws on the event. The try of `vizEventHandler` contains the
first call, but the fallback `this.visualization.enqueueEvent(event)` calls
`this.viz.handleEvent(event)` again outside any try: `Popup.handleEvent` raises,
with the event recorded in `events` but not added to the history. -/
theorem renderer_failure_escapes :
    Sample.popupThrowing.isPaused = false ∧
    (Sample.popupThrowing.handleEvent Sample.acquired).2 = true ∧
    (Sample.popupThrowing.handleEvent Sample.acquired).1.events = [Sample.acquired] ∧
    (Sample.popupThrowing.handleEvent Sample.acquired).1.history = [] ∧
    (Sample.popupThrowing.handleEvent Sample.acquired).1.historyCalls = [] ∧
    (Sample.popupThrowing.handleEvent Sample.acquired).1.moduleCalls =
      [Sample.acquired, Sample.acquired] := by
  decide

/-- C22 (export content). After any sequence of actions, the object built by
`exportLogs` holds exactly the events that reached `handleEvent` since the last
Restart click (since the given log when there was none), in arrival order,
whether the popup was paused or not and whether `handleEvent` raised or not;
`eventCount` is their number, and `ipcType` and `popupId` are the popup's own.
For a new popup the given log is empty. -/
theorem export_content (p : Popup) (as : List Action) :
    (run p as).exportLogs.events = arrivalsSinceRestart p.events as ∧
    (run p as).exportLogs.eventCount = (arrivalsSinceRestart p.events as).length ∧
    (run p as).exportLogs.ipcType = p.ipcType ∧
    (run p as).exportLogs.popupId = p.popupId ∧
    (∀ popupId ipcType, (new popupId ipcType).events = []) := by
  have h := run_events p as
  refine ⟨h.1, ?_, h.2.1, h.2.2, fun _ _ => rfl⟩
  simp only [exportLogs, h.1]

/-- C24 (history retention). Starting from an empty history list, after the
entries `evs` were added one by one the list holds the last `min(n, 50)` of
them, oldest first, hence at most 50 items. Adding to the history does not touch
the `events` array: the callback of a release timeout leaves it as it is, and
`handleEvent` appends the arriving event to it. -/
theorem history_retention (evs : List Event) :
    evs.foldl addToHistory [] = evs.drop (evs.length - 50) ∧
    (evs.foldl addToHistory []).length = min evs.length 50 ∧
    (∀ (p : Popup) (ev : Event),
      (p.releaseCallback ev).history = addToHistory p.history ev ∧
      (p.releaseCallback ev).events = p.events) ∧
    (∀ (p : Popup) (ev : Event), (p.handleEvent ev).1.events = p.events ++ [ev]) := by
  have h := foldl_addToHistory evs [] (by simp)
  simp only [List.nil_append] at h
  refine ⟨h, ?_, fun p ev => ⟨rfl, rfl⟩, ?_⟩
  · rw [h, List.length_drop]
    omega
  · intro p ev
    have := (step_events p (Action.arrive ev)).1
    simpa [step, arrivalsSinceRestart] using this

/-- C26 (at-most-once delivery), evaluated at a failing input. The popup is
running and the module's `handleEvent` returns something other than `true`.
`Popup.handleEvent` then calls the fallback `this.visualization.enqueueEvent`,
whose proxy calls the same `handleEvent` of the module with the same event: the
module receives the event twice. -/
theorem module_receives_event_twice :
    Sample.popupUnhandled.isPaused = false ∧
    (Sample.popupUnhandled.handleEvent Sample.acquired).2 = false ∧
    (Sample.popupUnhandled.handleEvent Sample.acquired).1.moduleCalls =
      [Sample.acquired, Sample.acquired] := by
  decide

/-- C29 (history once), evaluated at a failing input. An event that arrives
while the popup is paused is added to the history when it is buffered, and
again by the timeout that releases it after Resume. -/
theorem buffered_event_in_history_twice :
    (run Sample.popup [Action.pauseClick, Action.arrive Sample.acquired, Action.resumeClick,
      Action.fire]).historyCalls = [Sample.acquired, Sample.acquired] ∧
    (run Sample.popup [Action.pauseClick, Action.arrive Sample.acquired, Action.resumeClick,
      Action.fire]).history = [Sample.acquired, Sample.acquired] ∧
    (run Sample.popup [Action.arrive Sample.acquired]).historyCalls = [Sample.acquired] := by
  decide!

end Popup

/-! ## The legacy engine: rate limit, enqueue, cadence, lock holder -/

namespace Visualization

namespace VisualizationEngine

/-- C6 (rate-limit suppression). With ipcType `spinlock`, for a stream of events
that all carry the same `(process, eventType)` pair, `eventType` other than
`initialized`, the events appended to `eventQueue` are exactly those the
specification keeps: an event at time `t` is appended when `t` minus the
reference time is at least 100 ms, the reference being the time of the last
appended event of the pair (0 on a new engine, so a first event at `t ≥ 100` is
appended). A suppressed event leaves the whole engine unchanged, reference time
included, so it is never appended later. With any other ipcType every event that
is not an `initialized` notification is appended. -/
theorem rate_limit_suppression (eng : VisualizationEngine) (stream : List (Nat × Event))
    (process eventType : String) :
    (eng.ipcType = some "spinlock" → eventType ≠ "initialized" →
      (∀ x ∈ stream, x.2.process = process ∧ x.2.event = eventType) →
      (eng.enqueueAll stream).eventQueue =
        eng.eventQueue ++
          rateLimitKept (eng.lastTime (throttleKey process eventType)) stream) ∧
    (∀ key, VisualizationEngine.new.lastTime key = 0) ∧
    (∀ (t : Nat) (ev : Event), eng.ipcType = some "spinlock" → ev.event ≠ "initialized" →
      (t : Int) - (eng.lastTime (throttleKey ev.process ev.event) : Int) < 100 →
      eng.enqueueEvent t (some ev) = eng) ∧
    (eng.ipcType ≠ some "spinlock" →
      (eng.enqueueAll stream).eventQueue = eng.eventQueue ++ notInitialized stream) := by
  refine ⟨fun hs ht hpair => enqueueAll_spinlock eng stream process eventType hs ht hpair,
    fun _ => rfl, ?_, fun hs => enqueueAll_not_spinlock eng stream hs⟩
  intro t ev hs h1 hlt
  have hmin : eng.minInterval = 100 := by simp [minInterval, hs]
  have h2 : eng.minInterval ≠ 0 ∧
      (t : Int) - (eng.lastTime (throttleKey ev.process ev.event) : Int)
        < (eng.minInterval : Int) := by
    rw [hmin]
    exact ⟨by decide, by exact_mod_cast hlt⟩
  unfold enqueueEvent
  simp only [h1, if_false]
  rw [if_pos h2]

/-- C6, witness: of three spin events at 100, 150 and 200 ms on a new spinlock
engine, the second is dropped. -/
theorem rate_limit_suppression_witness :
    (VisualizationEngine.new.setIpcType "spinlock").ipcType = some "spinlock" ∧
    ((VisualizationEngine.new.setIpcType "spinlock").enqueueAll
      [(100, { event := "spin_wait", process := "child", detail := "", timestamp := 1 }),
       (150, { event := "spin_wait", process := "child", detail := "", timestamp := 2 }),
       (200, { event := "spin_wait", process := "child", detail := "", timestamp := 3 })]
      ).eventQueue =
      (VisualizationEngine.new.setIpcType "spinlock").eventQueue ++
        rateLimitKept
          ((VisualizationEngine.new.setIpcType "spinlock").lastTime
            (throttleKey "child" "spin_wait"))
          [(100, { event := "spin_wait", process := "child", detail := "", timestamp := 1 }),
           (150, { event := "spin_wait", process := "child", detail := "", timestamp := 2 }),
           (200, { event := "spin_wait", process := "child", detail := "", timestamp := 3 })] :=
  ⟨rfl,
    (rate_limit_suppression (VisualizationEngine.new.setIpcType "spinlock")
      [(100, { event := "spin_wait", process := "child", detail := "", timestamp := 1 }),
       (150, { event := "spin_wait", process := "child", detail := "", timestamp := 2 }),
       (200, { event := "spin_wait", process := "child", detail := "", timestamp := 3 })]
      "child" "spin_wait").1 rfl (by decide) (by decide)⟩

/-- C17 (enqueue, amended). For an engine whose ipcType is not `spinlock`,
`enqueueEvent(e)` appends `e` to the end of `eventQueue` for every event `e`
that is not an `initialized` notification, whether playback is paused or not;
the earlier entries keep their order and the pause flag is unchanged. An
`initialized` notification is skipped and leaves the engine as it is. -/
theorem enqueue_appends (eng : VisualizationEngine) (now : Nat) (ev : Event)
    (hs : eng.ipcType ≠ some "spinlock") :
    (ev.event ≠ "initialized" →
      (eng.enqueueEvent now (some ev)).eventQueue = eng.eventQueue ++ [ev] ∧
      (eng.enqueueEvent now (some ev)).eventQueue.length = eng.eventQueue.length + 1) ∧
    (ev.event = "initialized" → eng.enqueueEvent now (some ev) = eng) ∧
    (eng.enqueueEvent now (some ev)).paused = eng.paused := by
  refine ⟨?_, ?_, (enqueueEvent_ipcType eng now (some ev)).2⟩
  · intro h1
    have h := enqueueEvent_not_spinlock eng now ev hs
    simp only [h1, if_false] at h
    rw [h]
    simp
  · intro h1
    simp [enqueueEvent, h1]

/-- C17, the claim as stated fails for an `initialized` notification: on a mutex
engine the queue does not grow. -/
theorem enqueue_appends_counterexample :
    (VisualizationEngine.new.setIpcType "mutex").ipcType ≠ some "spinlock" ∧
    ((VisualizationEngine.new.setIpcType "mutex").enqueueEvent 1000
      (some { event := "initialized", process := "System", detail := "", timestamp := 1 })
      ).eventQueue = [] := by
  decide

/-- C17, witness: a lock event on a paused mutex engine is appended. -/
theorem enqueue_appends_witness :
    ({ VisualizationEngine.new.setIpcType "mutex" with paused := true }).ipcType
      ≠ some "spinlock" ∧
    (({ VisualizationEngine.new.setIpcType "mutex" with paused := true }).enqueueEvent 1000
      (some Sample.acquired)).eventQueue =
      ({ VisualizationEngine.new.setIpcType "mutex" with paused := true }).eventQueue
        ++ [Sample.acquired] :=
  ⟨by decide,
    ((enqueue_appends ({ VisualizationEngine.new.setIpcType "mutex" with paused := true })
      1000 Sample.acquired (by decide)).1 (by decide)).1⟩

/-- C20 (release cadence). The period of the playback timer is
`max(20, 200 / max(0.1, speed))`, between 20 and 2000 for every speed. On a
tick, when the engine is not paused and the queue is `evt :: rest`, exactly
`evt` is removed and handed to `_handleEventNow`, and `rest` stays in order;
when the engine is paused or the queue is empty the tick changes nothing. -/
theorem release_cadence (dom : Dom) (eng : VisualizationEngine) (speed : ℚ) :
    playbackPeriod speed = max 20 (200 / max (1 / 10) speed) ∧
    20 ≤ playbackPeriod speed ∧ playbackPeriod speed ≤ 2000 ∧
    (∀ evt rest, eng.paused = false → eng.eventQueue = evt :: rest →
      (eng.playbackTick dom).eventQueue = rest ∧
      (eng.playbackTick dom).handled = eng.handled ++ [evt] ∧
      (eng.playbackTick dom).eventQueue.length + 1 = eng.eventQueue.length) ∧
    (eng.paused = true → eng.playbackTick dom = eng) ∧
    (eng.eventQueue = [] → eng.playbackTick dom = eng) := by
  have hpos : (0 : ℚ) < max (1 / 10) speed := lt_of_lt_of_le (by norm_num) (le_max_left _ _)
  have hle : 200 / max (1 / 10) speed ≤ 2000 := by
    rw [div_le_iff₀ hpos]
    have := le_max_left (1 / 10 : ℚ) speed
    linarith
  refine ⟨rfl, le_max_left _ _, max_le (by norm_num) hle, ?_, ?_, ?_⟩
  · intro evt rest hp hq
    have ht : eng.playbackTick dom = _handleEventNow dom { eng with eventQueue := rest } evt := by
      unfold playbackTick
      simp only [hp, hq]
      rfl
    rw [ht, _handleEventNow_eventQueue, _handleEventNow_handled, hq]
    exact ⟨rfl, rfl, rfl⟩
  · intro hp
    simp [playbackTick, hp]
  · intro hq
    unfold playbackTick
    rw [hq]
    simp

/-- C20, witness: a tick of a running engine with two queued events. -/
theorem release_cadence_witness :
    (({ VisualizationEngine.new.setIpcType "mutex" with
        eventQueue := [Sample.acquired, Sample.released] }).playbackTick Sample.document
      ).eventQueue = [Sample.released] :=
  ((release_cadence Sample.document
      ({ VisualizationEngine.new.setIpcType "mutex" with
          eventQueue := [Sample.acquired, Sample.released] }) 1).2.2.2.1
    Sample.acquired [Sample.released] rfl rfl).1

/-- C23 (lock holder), the code at the failing input. A mutex engine receives
`lock_acquired` for the process `worker 1`: `enqueueEvent` makes the process
known (it is in `processes`), the next tick hands the event to
`_handleEventNow`, and `animateLockAcquisition` looks up the selector
`#node-worker 1`, which is no valid selector and raises before
`state.lockHolder` is written: the holder is still `null`. The same event for
`parent` sets the holder. -/
theorem lock_holder_not_set_for_unescaped_name :
    usesMutexAnimator
      ((VisualizationEngine.new.setIpcType "mutex").enqueueEvent 1000
        (some Sample.workerAcquired)).ipcType = true ∧
    JsMap.has
      ((VisualizationEngine.new.setIpcType "mutex").enqueueEvent 1000
        (some Sample.workerAcquired)).processes "worker 1" = true ∧
    (((VisualizationEngine.new.setIpcType "mutex").enqueueEvent 1000
        (some Sample.workerAcquired)).playbackTick Sample.document).handled
      = [Sample.workerAcquired] ∧
    (((VisualizationEngine.new.setIpcType "mutex").enqueueEvent 1000
        (some Sample.workerAcquired)).playbackTick Sample.document).lockHolder = none ∧
    (((VisualizationEngine.new.setIpcType "mutex").enqueueEvent 1000
        (some Sample.acquired)).playbackTick Sample.document).lockHolder = some "parent" := by
  decide

end VisualizationEngine

/-- C30 (semaphore count, amended). For every text, the count computed by
`animateSemaphoreEvent` (the first match of `\d+`, read by `parseInt`) is the
JavaScript number nearest to the integer value of the leftmost maximal run of
decimal digits: the integer value itself whenever that is at most 2^53, and 0
when the detail is absent or has no digit. For a `semaphore_wait` event, with
the display elements present, it is the number the counter text is set to. -/
theorem semaphore_count (detail : Option String) :
    newCount detail = toDouble (leftmostCount detail) ∧
    (leftmostCount detail ≤ 2 ^ 53 → newCount detail = Count.finite (leftmostCount detail)) ∧
    newCount none = Count.finite 0 ∧
    (∀ text : String, (∀ c ∈ text.toList, c.isDigit = false) →
      newCount (some text) = Count.finite 0) ∧
    animateSemaphoreEvent true true "semaphore_wait" detail = some (newCount detail) := by
  refine ⟨newCount_eq detail, fun h => ?_, rfl, fun text h => ?_, ?_⟩
  · rw [newCount_eq, toDouble_of_le _ h]
  · have hnone : ∀ l : List Char, (∀ c ∈ l, c.isDigit = false) → firstDigitRun l = none := by
      intro l
      induction l with
      | nil => intro _; rfl
      | cons c rest ih =>
        intro hl
        have hc : c.isDigit = false := hl c (List.mem_cons_self _ _)
        have hrest := ih (fun d hd => hl d (List.mem_cons_of_mem _ hd))
        simp [firstDigitRun, hc, hrest]
    unfold newCount
    simp only []
    rw [hnone _ h]
  · simp [animateSemaphoreEvent]

/-- C30, the claim as stated fails for a run of digits above 2^53: the detail
`9007199254740993` has the integer value 9007199254740993, and the count
computed is 9007199254740992. -/
theorem semaphore_count_counterexample :
    leftmostCount (some "9007199254740993") = 9007199254740993 ∧
    newCount (some "9007199254740993") = Count.finite 9007199254740992 ∧
    newCount (some "9007199254740993") ≠
      Count.finite (leftmostCount (some "9007199254740993")) := by
  decide!

/-- C30, witness: the detail `count=3 of 5` gives the count 3. -/
theorem semaphore_count_witness :
    leftmostCount (some "count=3 of 5") ≤ 2 ^ 53 ∧
    newCount (some "count=3 of 5") = Count.finite (leftmostCount (some "count=3 of 5")) ∧
    newCount (some "count=3 of 5") = Count.finite 3 :=
  ⟨by decide, (semaphore_count (some "count=3 of 5")).2.1 (by decide), by decide⟩

end Visualization

namespace VizEngine

/-- C18 (speed clamp), `EventPlayer`. `setSpeed(s)` stores `max(0.1, s)`: at
least 0.1, equal to `s` when `s ≥ 0.1`; no other field changes. The same holds
for `AnimationController.setSpeed`. -/
theorem setSpeed_clamp (player : EventPlayer) (c : Visualization.AnimationController) (s : ℚ) :
    ((player.setSpeed s).speed = max (1 / 10) s ∧ 1 / 10 ≤ (player.setSpeed s).speed ∧
      (1 / 10 ≤ s → (player.setSpeed s).speed = s) ∧
      (player.setSpeed s).queue = player.queue ∧
      (player.setSpeed s).isPlaying = player.isPlaying ∧
      (player.setSpeed s).timer = player.timer) ∧
    ((c.setSpeed s).speed = max (1 / 10) s ∧ 1 / 10 ≤ (c.setSpeed s).speed ∧
      (1 / 10 ≤ s → (c.setSpeed s).speed = s) ∧
      (c.setSpeed s).animations = c.animations ∧ (c.setSpeed s).isRunning = c.isRunning ∧
      (c.setSpeed s).isPaused = c.isPaused) :=
  ⟨⟨rfl, le_max_left _ _, fun h => max_eq_right h, rfl, rfl, rfl⟩,
    ⟨rfl, le_max_left _ _, fun h => max_eq_right h, rfl, rfl, rfl⟩⟩

/-- C18, witness: speeds 2 and 0 on both components. -/
theorem setSpeed_clamp_witness :
    (1 / 10 : ℚ) ≤ 2 ∧
    (({ queue := [], isPlaying := false, speed := 1, timer := false } : EventPlayer).setSpeed 2
      ).speed = 2 :=
  ⟨by norm_num,
    (setSpeed_clamp { queue := [], isPlaying := false, speed := 1, timer := false }
      { animations := 0, isRunning := false, isPaused := false, speed := 1 } 2).1.2.2.1
      (by norm_num)⟩

end VizEngine

/-! ## The exported engine: errors and pausing -/

namespace VizEngine

namespace VisualizationEngine

/-- C25 (errors in the exported engine, amended). When the timeout of a queued
action fires and the action throws, the `catch` of `processNextEvent` calls
`pause()`: `playbackState` becomes `paused`, no timeout is pending and the
remaining queued actions stay in `eventQueue`, unrun, until `play()` is called
again; `play()` then creates the timeout of the next queued action. -/
theorem action_error_pauses (eng : VisualizationEngine) (ev : QueuedAction)
    (ht : eng.simulationTimer = some ev) (hthrows : ev.throws = true) :
    eng.timerFires.playbackState = PlaybackState.paused ∧
    eng.timerFires.simulationTimer = none ∧
    eng.timerFires.eventQueue = eng.eventQueue ∧
    eng.timerFires.ran = eng.ran ++ [ev.id] ∧
    eng.timerFires.timerFires = eng.timerFires ∧
    (∀ next rest, eng.eventQueue = next :: rest →
      eng.timerFires.play.simulationTimer = some next ∧
      eng.timerFires.play.playbackState = PlaybackState.playing) := by
  have h : eng.timerFires =
      { eng with playbackState := PlaybackState.paused, simulationTimer := none,
                 ran := eng.ran ++ [ev.id] } := by
    simp [timerFires, ht, hthrows, pause]
  refine ⟨by rw [h], by rw [h], by rw [h], by rw [h], ?_, ?_⟩
  · rw [h]
    simp [timerFires]
  · intro next rest hq
    rw [h]
    simp [play, processNextEvent, hq]

/-- C25, the claim as stated fails: with a throwing action followed by a second
action, after the first timeout fires the engine is paused, the second action is
still queued and no further timeout is pending. -/
theorem action_error_pauses_counterexample :
    (run VisualizationEngine.new
      [Action.addEvent { id := 1, throws := true, delay := 500 },
       Action.addEvent { id := 2, throws := false, delay := 500 },
       Action.play, Action.timerFires]).playbackState = PlaybackState.paused ∧
    (run VisualizationEngine.new
      [Action.addEvent { id := 1, throws := true, delay := 500 },
       Action.addEvent { id := 2, throws := false, delay := 500 },
       Action.play, Action.timerFires, Action.timerFires, Action.timerFires]).ran = [1] ∧
    (run VisualizationEngine.new
      [Action.addEvent { id := 1, throws := true, delay := 500 },
       Action.addEvent { id := 2, throws := false, delay := 500 },
       Action.play, Action.timerFires, Action.timerFires, Action.timerFires]).eventQueue =
      [{ id := 2, throws := false, delay := 500 }] := by
  decide!

/-- C25, witness: the engine of the counterexample just before the timeout. -/
theorem action_error_pauses_witness :
    (run VisualizationEngine.new
      [Action.addEvent { id := 1, throws := true, delay := 500 },
       Action.addEvent { id := 2, throws := false, delay := 500 },
       Action.play]).simulationTimer = some { id := 1, throws := true, delay := 500 } ∧
    (run VisualizationEngine.new
      [Action.addEvent { id := 1, throws := true, delay := 500 },
       Action.addEvent { id := 2, throws := false, delay := 500 },
       Action.play]).timerFires.playbackState = PlaybackState.paused :=
  ⟨by decide!,
    (action_error_pauses
      (run VisualizationEngine.new
        [Action.addEvent { id := 1, throws := true, delay := 500 },
         Action.addEvent { id := 2, throws := false, delay := 500 },
         Action.play])
      { id := 1, throws := true, delay := 500 } (by decide!) rfl).1⟩

/-- C27 (no action lost by pausing), evaluated at a failing input. Two actions
are added and `play()` takes the first out of the queue into a timeout. `pause()`
clears that timeout; after `play()` and two firings only the second action has
run, and the first is neither run, nor queued, nor pending. -/
theorem pause_loses_pending_action :
    (run VisualizationEngine.new
      [Action.addEvent { id := 1, throws := false, delay := 500 },
       Action.addEvent { id := 2, throws := false, delay := 500 },
       Action.play, Action.pause, Action.play, Action.timerFires, Action.timerFires]).ran
      = [2] ∧
    (run VisualizationEngine.new
      [Action.addEvent { id := 1, throws := false, delay := 500 },
       Action.addEvent { id := 2, throws := false, delay := 500 },
       Action.play, Action.pause, Action.play, Action.timerFires, Action.timerFires]).eventQueue
      = [] ∧
    (run VisualizationEngine.new
      [Action.addEvent { id := 1, throws := false, delay := 500 },
       Action.addEvent { id := 2, throws := false, delay := 500 },
       Action.play, Action.pause, Action.play, Action.timerFires,
       Action.timerFires]).simulationTimer = none := by
  decide!

end VisualizationEngine

end VizEngine

/-! ## The router: sending, reconnecting, malformed frames, re-entrant teardown -/

namespace WebSocketManager

/-- C11 (send). When the socket exists and is open, `send(message)` hands the
serialisation of the message to the socket exactly once and changes nothing
else. In every other case (no socket, or a socket that is not open) the manager
is unchanged: nothing is transmitted and nothing is kept, so a later `connect`
and `onopen` start from a socket on which nothing was sent. The function has no
failing operation. -/
theorem send_at_most_once (stringify : Message → String) (ws : WebSocketManager)
    (message : Message) :
    (∀ socket, ws.ws = some socket → socket.readyState = 1 →
      (send stringify ws message).transmitted = ws.transmitted ++ [stringify message] ∧
      send stringify ws message =
        { ws with ws := some { socket with sent := socket.sent ++ [stringify message] } }) ∧
    ((∀ socket, ws.ws = some socket → socket.readyState ≠ 1) →
      send stringify ws message = ws ∧
      ∀ raises : Callback → Message → Bool,
        (onopen raises (connect (send stringify ws message))).1.transmitted = []) := by
  constructor
  · intro socket hs hopen
    simp [send, transmitted, hs, hopen]
  · intro h
    have hsame : send stringify ws message = ws := by
      unfold send
      cases hs : ws.ws with
      | none => rfl
      | some socket => simp [h socket hs]
    refine ⟨hsame, fun raises => ?_⟩
    rw [hsame]
    rfl

/-- C11, witness: a message sent while the socket is still connecting is
dropped. -/
theorem send_at_most_once_witness :
    send (fun m => m.body) (connect new) { type := "pause", popupId := some "popup-1", body := "p" }
      = connect new :=
  ((send_at_most_once (fun m => m.body) (connect new)
      { type := "pause", popupId := some "popup-1", body := "p" }).2
    (by intro socket hs; cases hs; decide)).1

/-- C12 (reconnect bound, amended). Starting from `reconnectAttempts = 0` with
`maxReconnectAttempts = 5`, `k` consecutive calls of `attemptReconnect` schedule
exactly `min(k, 5)` reconnects and leave `reconnectAttempts = min(k, 5)`; from
the fifth call on a further call changes nothing. `k` consecutive close events
do the same whenever the listeners of `disconnected` return normally. Over every
sequence of open and close events `reconnectAttempts` stays at most 5. -/
theorem reconnect_bound (raises : Callback → Message → Bool) (ws : WebSocketManager) (k : Nat)
    (h0 : ws.reconnectAttempts = 0) (hmax : ws.maxReconnectAttempts = 5) :
    (attemptReconnects ws k).reconnectAttempts = min k 5 ∧
    (attemptReconnects ws k).reconnectsScheduled = ws.reconnectsScheduled + min k 5 ∧
    (5 ≤ k → attemptReconnect (attemptReconnects ws k) = attemptReconnects ws k) ∧
    ((∀ g ∈ listenersOf ws "disconnected", raises g (lifecycle "disconnected") = false) →
      (closeEvents raises ws k).reconnectAttempts = min k 5 ∧
      (closeEvents raises ws k).reconnectsScheduled = ws.reconnectsScheduled + min k 5) ∧
    (∀ evs : List ConnectionEvent, (connectionEvents raises ws evs).reconnectAttempts ≤ 5) := by
  have hle : ws.reconnectAttempts ≤ ws.maxReconnectAttempts := by omega
  have hspec := attemptReconnects_spec k ws hle
  rw [h0, hmax] at hspec
  simp only [Nat.zero_add, Nat.sub_zero] at hspec
  refine ⟨hspec.1, hspec.2.1, ?_, ?_, ?_⟩
  · intro hk
    unfold attemptReconnect
    have h1 : (attemptReconnects ws k).reconnectAttempts = 5 := by rw [hspec.1]; omega
    have h2 : (attemptReconnects ws k).maxReconnectAttempts = 5 := hspec.2.2
    simp [h1, h2]
  · intro hno
    have hc := closeEvents_spec raises k ws hno
    exact ⟨hc.1.trans hspec.1, hc.2.trans hspec.2.1⟩
  · intro evs
    have h := connectionEvents_bound raises evs ws hle
    rw [h.2, hmax] at h
    exact h.1

/-- C12, the claim as stated fails when a listener of `disconnected` raises:
`onclose` leaves before `attemptReconnect`, so a close event schedules nothing. -/
theorem reconnect_bound_counterexample :
    (onAll new [("disconnected", 1)]).reconnectAttempts = 0 ∧
    (onAll new [("disconnected", 1)]).maxReconnectAttempts = 5 ∧
    (closeEvents (fun _ _ => true) (onAll new [("disconnected", 1)]) 1).reconnectsScheduled
      = 0 := by
  decide

/-- C12, witness: seven close events on a new manager. -/
theorem reconnect_bound_witness :
    new.reconnectAttempts = 0 ∧ new.maxReconnectAttempts = 5 ∧
    (closeEvents (fun _ _ => false) new 7).reconnectsScheduled = new.reconnectsScheduled + min 7 5 :=
  ⟨rfl, rfl,
    ((reconnect_bound (fun _ _ => false) new 7 rfl rfl).2.2.2.1 (fun _ _ => rfl)).2⟩

/-- C13 (malformed frames). For a frame whose data fails to parse, the
`onmessage` handler invokes no popup-scoped and no global callback, leaves the
manager unchanged and only logs. The handler raises on no frame: every exception
ends in its `catch`. A well-formed frame that follows is dispatched exactly as
if the malformed one had never arrived: it goes to `handleMessage` on the
unchanged manager, so that, with callbacks that return normally, every handler
registered for its popup and type and every global listener of its type is
invoked once, in registration order. -/
theorem malformed_frame_discarded (raises : Callback → Message → Bool) (ws : WebSocketManager)
    (data : String) (next : Frame) :
    (onmessage raises ws (Frame.malformed data)).1 = ws ∧
    (onmessage raises ws (Frame.malformed data)).2.1.popupCalls = [] ∧
    (onmessage raises ws (Frame.malformed data)).2.1.globalCalls = [] ∧
    (onmessage raises ws (Frame.malformed data)).2.1.raised = false ∧
    onmessage raises (onmessage raises ws (Frame.malformed data)).1 next =
      onmessage raises ws next ∧
    (onmessage raises ws next).2.1.raised = false ∧
    (∀ message : Message,
      (onmessage raises (onmessage raises ws (Frame.malformed data)).1
        (Frame.object message)).1 = (handleMessage raises ws message).1 ∧
      (onmessage raises (onmessage raises ws (Frame.malformed data)).1
        (Frame.object message)).2.1.popupCalls = (handleMessage raises ws message).2.popupCalls ∧
      (onmessage raises (onmessage raises ws (Frame.malformed data)).1
        (Frame.object message)).2.1.globalCalls =
          (handleMessage raises ws message).2.globalCalls ∧
      (onmessage raises (onmessage raises ws (Frame.malformed data)).1
        (Frame.object message)).2.2 = (handleMessage raises ws message).2.raised) ∧
    (∀ (message : Message) (A : PopupId), message.popupId = some A → A ≠ "" →
      (∀ c ∈ handlersOf ws A message.type, raises c message = false) →
      (∀ g ∈ listenersOf ws message.type, raises g message = false) →
      (onmessage raises (onmessage raises ws (Frame.malformed data)).1
        (Frame.object message)).2.1.popupCalls =
          (handlersOf ws A message.type).map (fun cb => (cb, message)) ∧
      (onmessage raises (onmessage raises ws (Frame.malformed data)).1
        (Frame.object message)).2.1.globalCalls =
          (listenersOf ws message.type).map (fun cb => (cb, message))) := by
  refine ⟨rfl, rfl, rfl, rfl, rfl, ?_, fun message => ⟨rfl, rfl, rfl, rfl⟩, ?_⟩
  · cases next <;> rfl
  · intro message A hm hA h1 h2
    have h := handleMessage_of_no_raise raises ws message A hm hA h1 h2
    exact ⟨h.1, h.2.1⟩

/-- C13, witness: after a malformed frame, an `event` message for `popup-1`
reaches the handler of the popup and the global listener. -/
theorem malformed_frame_discarded_witness :
    (onmessage (fun _ _ => false)
      (onmessage (fun _ _ => false)
        (onAll (registerPopupHandler new "popup-1" "event" 1) [("event", 2)])
        (Frame.malformed "\x7btype")).1
      (Frame.object { type := "event", popupId := some "popup-1", body := "" })).2.1.popupCalls =
      (handlersOf (onAll (registerPopupHandler new "popup-1" "event" 1) [("event", 2)])
        "popup-1" "event").map
        (fun cb => (cb, { type := "event", popupId := some "popup-1", body := "" })) ∧
    handlersOf (onAll (registerPopupHandler new "popup-1" "event" 1) [("event", 2)])
      "popup-1" "event" = [1] ∧
    (onmessage (fun _ _ => false)
      (onmessage (fun _ _ => false)
        (onAll (registerPopupHandler new "popup-1" "event" 1) [("event", 2)])
        (Frame.malformed "\x7btype")).1
      (Frame.object { type := "event", popupId := some "popup-1", body := "" })).2.1.globalCalls =
      [(2, { type := "event", popupId := some "popup-1", body := "" })] :=
  ⟨((malformed_frame_discarded (fun _ _ => false)
      (onAll (registerPopupHandler new "popup-1" "event" 1) [("event", 2)])
      "\x7btype" Frame.null).2.2.2.2.2.2.2
      { type := "event", popupId := some "popup-1", body := "" } "popup-1" rfl (by decide)
      (fun _ _ => rfl) (fun _ _ => rfl)).1,
    by decide, by decide⟩

/-- C28 (unregistering during dispatch). Let `handleMessage` invoke the callbacks
of popup `A` for the type of the message, and let the callbacks, which return
normally, unregister popups while they run (`A` itself or others). Then every
callback that was in the list of `A` for the type when the dispatch began is
invoked exactly once, in order, and so is every global listener of the type:
the dispatch is the one that takes place without any unregistration, so the
unregistrations raise nothing, and for every type that is not a property name
inherited by the listener object the dispatch does not raise. Afterwards the
registry holds no entry for an unregistered id and the same entries as before
for every other id. -/
theorem unregister_during_dispatch (unregisters : Callback → List PopupId)
    (ws : WebSocketManager) (m : Message) (A : PopupId)
    (hm : m.popupId = some A) (hA : A ≠ "") :
    (handleMessageUnregistering unregisters ws m).2.popupCalls =
      (handlersOf ws A m.type).map (fun cb => (cb, m)) ∧
    (handleMessageUnregistering unregisters ws m).2.globalCalls =
      (listenersOf ws m.type).map (fun cb => (cb, m)) ∧
    (handleMessageUnregistering unregisters ws m).2 =
      (handleMessage (fun _ _ => false) ws m).2 ∧
    (ws.listenersAt m.type ≠ Slot.inherited →
      (handleMessageUnregistering unregisters ws m).2.raised = false) ∧
    (∀ id ∈ unregisteredIds unregisters (handlersOf ws A m.type ++ listenersOf ws m.type),
      JsMap.has (handleMessageUnregistering unregisters ws m).1.popupHandlers id = false) ∧
    (∀ id, id ∉ unregisteredIds unregisters (handlersOf ws A m.type ++ listenersOf ws m.type) →
      JsMap.get (handleMessageUnregistering unregisters ws m).1.popupHandlers id =
        JsMap.get ws.popupHandlers id) := by
  have hu := handleMessageUnregistering_spec unregisters ws m A hm hA
  have hh := handleMessage_of_no_raise (fun _ _ => false) ws m A hm hA
    (fun _ _ => rfl) (fun _ _ => rfl)
  refine ⟨hu.1, hu.2.1, ?_, ?_, hu.2.2.2.1, hu.2.2.2.2⟩
  · apply Dispatch.eq_of_fields
    · rw [hu.1, hh.1]
    · rw [hu.2.1, hh.2.1]
    · rw [Bool.eq_iff_iff, hu.2.2.1, hh.2.2]
  · intro hs
    cases hb : (handleMessageUnregistering unregisters ws m).2.raised with
    | false => rfl
    | true => exact absurd (hu.2.2.1.mp hb) hs

/-- C28, witness: the first of two handlers of `popup-1` unregisters the popup;
both are invoked, nothing is raised and the entry is gone afterwards. -/
theorem unregister_during_dispatch_witness :
    ("popup-1" : PopupId) ≠ "" ∧
    (handleMessageUnregistering (fun cb => if cb = 1 then ["popup-1"] else [])
      (registerAll new [("popup-1", "event", 1), ("popup-1", "event", 2)])
      { type := "event", popupId := some "popup-1", body := "" }).2.popupCalls =
      (handlersOf (registerAll new [("popup-1", "event", 1), ("popup-1", "event", 2)])
        "popup-1" "event").map
        (fun cb => (cb, { type := "event", popupId := some "popup-1", body := "" })) ∧
    handlersOf (registerAll new [("popup-1", "event", 1), ("popup-1", "event", 2)])
      "popup-1" "event" = [1, 2] ∧
    (handleMessageUnregistering (fun cb => if cb = 1 then ["popup-1"] else [])
      (registerAll new [("popup-1", "event", 1), ("popup-1", "event", 2)])
      { type := "event", popupId := some "popup-1", body := "" }).2.raised = false ∧
    JsMap.has (handleMessageUnregistering (fun cb => if cb = 1 then ["popup-1"] else [])
      (registerAll new [("popup-1", "event", 1), ("popup-1", "event", 2)])
      { type := "event", popupId := some "popup-1", body := "" }).1.popupHandlers "popup-1"
      = false :=
  ⟨by decide,
    (unregister_during_dispatch (fun cb => if cb = 1 then ["popup-1"] else [])
      (registerAll new [("popup-1", "event", 1), ("popup-1", "event", 2)])
      { type := "event", popupId := some "popup-1", body := "" } "popup-1" rfl
      (by decide)).1,
    by decide,
    (unregister_during_dispatch (fun cb => if cb = 1 then ["popup-1"] else [])
      (registerAll new [("popup-1", "event", 1), ("popup-1", "event", 2)])
      { type := "event", popupId := some "popup-1", body := "" } "popup-1" rfl
      (by decide)).2.2.2.1 (by decide),
    by decide⟩

end WebSocketManager

/-! ## The popup manager: ids and closing -/

namespace App

/-- C14 (fresh ids). For every sequence of `createPopup`, `closePopup`,
`closeAll`, Restart clicks and starts on a new page, the ids returned by
`createPopup` are `popup-1`, `popup-2`, ... in order of creation, hence pairwise
distinct, also after popups were closed; and each `createPopup` stores the new
popup in the live collection under the id it returns. The counter is taken as a
natural number. -/
theorem fresh_ids (as : List Action) :
    createdIds App.new as =
      (List.range' 1 (createdIds App.new as).length).map popupIdOf ∧
    (createdIds App.new as).Nodup ∧
    (∀ (app : App) (ipcType : String),
      JsMap.get (app.createPopup ipcType).1.manager.popups (app.createPopup ipcType).2
        = some ipcType) ∧
    popupIdOf 1 = "popup-1" ∧ popupIdOf 12 = "popup-12" := by
  have h := createdIds_eq as App.new
  refine ⟨h, ?_, ?_, ?_, ?_⟩
  · rw [h]
    apply List.Nodup.map_on _ (List.nodup_range' _ _)
    intro x hx y hy hxy
    have hx1 : 0 < x := by
      have := (List.mem_range'_1.mp hx).1
      exact this
    have hy1 : 0 < y := by
      have := (List.mem_range'_1.mp hy).1
      exact this
    exact popupIdOf_inj x y hx1 hy1 hxy
  · intro app ipcType
    simp only [createPopup]
    exact JsMap.get_set_self _ _ _
  · simp [popupIdOf, decimal, decimalDigit]
  · simp [popupIdOf, decimal, decimalDigit]

/-- C15 (closing a popup). When the id is live, `closePopup(id)` runs the
popup's `destroy`: afterwards neither `popupHandlers` nor the live collection
has an entry for the id. In every case the entries of every other id, in both
maps, and the global listeners are unchanged. When the id is not live,
`closePopup` changes nothing. Closing twice leaves the same state as closing
once. The function is total. -/
theorem closePopup_idempotent (app : App) (popupId : PopupId) :
    (JsMap.has app.manager.popups popupId = true →
      JsMap.has (app.closePopup popupId).router.popupHandlers popupId = false ∧
      JsMap.has (app.closePopup popupId).manager.popups popupId = false) ∧
    (∀ other, other ≠ popupId →
      JsMap.get (app.closePopup popupId).manager.popups other =
        JsMap.get app.manager.popups other ∧
      JsMap.get (app.closePopup popupId).router.popupHandlers other =
        JsMap.get app.router.popupHandlers other) ∧
    (app.closePopup popupId).router.listeners = app.router.listeners ∧
    (JsMap.has app.manager.popups popupId = false → app.closePopup popupId = app) ∧
    (app.closePopup popupId).closePopup popupId = app.closePopup popupId := by
  cases hg : JsMap.get app.manager.popups popupId with
  | none =>
    have hh : JsMap.has app.manager.popups popupId = false := by
      rw [JsMap.has_eq_isSome, hg]; rfl
    have hc : app.closePopup popupId = app := by simp [closePopup, hg]
    refine ⟨?_, ?_, ?_, fun _ => hc, ?_⟩
    · intro h
      rw [hh] at h
      exact absurd h (by decide)
    · intro other _
      rw [hc]
      exact ⟨rfl, rfl⟩
    · rw [hc]
    · rw [hc, hc]
  | some v =>
    have hc : app.closePopup popupId =
        { app with
          router := app.router.unregisterPopupHandlers popupId,
          manager := { app.manager with
            popups := JsMap.delete (JsMap.delete app.manager.popups popupId) popupId } } := by
      simp [closePopup, hg, destroy]
    have hh : JsMap.has app.manager.popups popupId = true := by
      rw [JsMap.has_eq_isSome, hg]; rfl
    refine ⟨?_, ?_, ?_, ?_, ?_⟩
    · intro _
      rw [hc]
      exact ⟨JsMap.has_delete_self _ _, JsMap.has_delete_self _ _⟩
    · intro other hne
      rw [hc]
      refine ⟨?_, ?_⟩
      · show JsMap.get (JsMap.delete (JsMap.delete app.manager.popups popupId) popupId) other
          = JsMap.get app.manager.popups other
        rw [JsMap.get_delete_of_ne _ hne, JsMap.get_delete_of_ne _ hne]
      · exact JsMap.get_delete_of_ne _ hne
    · rw [hc]
      rfl
    · intro h
      rw [hh] at h
      exact absurd h (by decide)
    · have hgone : JsMap.get (app.closePopup popupId).manager.popups popupId = none := by
        rw [hc]
        exact JsMap.get_delete_self _ _
      have hnone : ∀ a : App, JsMap.get a.manager.popups popupId = none →
          a.closePopup popupId = a := by
        intro a ha
        unfold closePopup
        rw [ha]
      exact hnone _ hgone

/-- C15, witness: closing the only popup of a page. -/
theorem closePopup_idempotent_witness :
    JsMap.has (run App.new [Action.createPopup "mutex", Action.startCompletes "popup-1"]
      ).manager.popups "popup-1" = true ∧
    JsMap.has ((run App.new [Action.createPopup "mutex", Action.startCompletes "popup-1"]
      ).closePopup "popup-1").router.popupHandlers "popup-1" = false :=
  ⟨by decide!,
    ((closePopup_idempotent
      (run App.new [Action.createPopup "mutex", Action.startCompletes "popup-1"])
      "popup-1").1 (by decide!)).1⟩

/-- C16 (no handler outlives its popup), evaluated at a failing input. A popup
is created and started, the user clicks Restart and closes the popup before the
200 ms timeout of the Restart fires. The timeout then runs `startSimulation` of
the closed popup: `popupHandlers` has an entry for `popup-1` although the live
collection has none. -/
theorem handlers_outlive_closed_popup :
    JsMap.has (run App.new [Action.createPopup "mutex", Action.startCompletes "popup-1",
      Action.restartClick "popup-1", Action.closePopup "popup-1"]).router.popupHandlers
      "popup-1" = false ∧
    JsMap.has (run App.new [Action.createPopup "mutex", Action.startCompletes "popup-1",
      Action.restartClick "popup-1", Action.closePopup "popup-1",
      Action.startCompletes "popup-1"]).manager.popups "popup-1" = false ∧
    JsMap.has (run App.new [Action.createPopup "mutex", Action.startCompletes "popup-1",
      Action.restartClick "popup-1", Action.closePopup "popup-1",
      Action.startCompletes "popup-1"]).router.popupHandlers "popup-1" = true := by
  decide!

end App
